import Mathlib

/-!
# Exam-mark aggregation and publication (models/Mark.js, controllers/markController.js)

Shallow embedding of the grade helper and of the `pre('save')` hook of the
Mark schema, and of the controllers that write the Mark collection, followed
by the properties they satisfy.

## Number model

A JavaScript number is a binary64 value; it is modelled by the rational it
denotes. The marks and full marks a request carries are small decimals: the
sums the hook forms of them, `+`, and the quotient that only feeds the
threshold tests of a subject are taken exactly. The two values the hook
rounds for storage, `percentage` and `gpa`, depend on the rounding of the
machine: there `/` and `*` round the exact result to the nearest binary64
value, a tie to the even significand (`roundDouble`), `toFixed(2)` rounds the
binary value that came out, and `parseFloat` reads the decimal back as the
nearest binary64 value. The exponent of a binary64 value is not bounded in the
model: overflow to the infinities and gradual underflow are outside it. A
schema path of type `Number` holds a number or is missing (`null` /
`undefined`); it is modelled as `Option ℚ`, `none` being the missing value.
Mongoose casts every path of a sub-document before the hook runs and rejects
`NaN` while casting, so `NaN` only appears transiently as the value of
`parseFloat` on a missing path, where `|| 0` folds it; `none` stands for that
`NaN` too.
-/

namespace Mark

/-! ## Values -/

/-- A value read from a `Number` path: `some q` is the number `q`, `none` is
`null`, `undefined` or `NaN`. -/
abbrev JSNumber := Option ℚ

/-- The expression `v || d` for a number-valued `v`: `v` when it is truthy,
`d` when `v` is `0`, `NaN`, `null` or `undefined`. -/
def jsOr (v : JSNumber) (d : ℚ) : ℚ :=
  match v with
  | some q => if q = 0 then d else q
  | none => d

/-- The call `parseFloat(v)` on the value of a `Number` path: a number is
printed and read back unchanged, a missing value gives `NaN`. -/
def parseFloat (v : JSNumber) : JSNumber := v

/-- The integer nearest to `x`, the even one on a tie. -/
def roundHalfEven (x : ℚ) : ℤ :=
  if x - ⌊x⌋ < 1 / 2 then ⌊x⌋
  else if 1 / 2 < x - ⌊x⌋ then ⌊x⌋ + 1
  else if ⌊x⌋ % 2 = 0 then ⌊x⌋ else ⌊x⌋ + 1

/-- The binary64 value nearest to the real number `x`, a tie to the even
significand: with `2 ^ e ≤ |x| < 2 ^ (e + 1)` the values around `x` are the
multiples of `2 ^ (e - 52)`, 53 significant bits. -/
def roundDouble (x : ℚ) : ℚ :=
  if x = 0 then 0
  else (roundHalfEven (x * 2 ^ (52 - Int.log 2 |x|)) : ℚ) * 2 ^ (Int.log 2 |x| - 52)

/-- The expression `a / b` on two numbers, `b` not zero. -/
def divDouble (a b : ℚ) : ℚ := roundDouble (a / b)

/-- The expression `a * b` on two numbers. -/
def mulDouble (a b : ℚ) : ℚ := roundDouble (a * b)

/-- The decimal that `x.toFixed(2)` prints for a finite number `x`.
`toFixed(2)` takes the sign off a negative `x`, picks the integer `n` for
which `n / 100 - x` is as close to zero as possible (the larger `n` on a
tie), and prints `n / 100` behind the sign. From `10^21` on `toFixed` prints
the number itself; every binary64 value that large is an integer, so that case
is the same rounding. -/
def toFixedDecimal (x : ℚ) : ℚ :=
  if x < 0 then -((⌊(-x) * 100 + 1 / 2⌋ : ℤ) : ℚ) / 100
  else ((⌊x * 100 + 1 / 2⌋ : ℤ) : ℚ) / 100

/-- The expression `parseFloat(x.toFixed(2))` on a finite number: `parseFloat`
reads the printed decimal back as the nearest binary64 value. -/
def toFixed2 (x : ℚ) : ℚ := roundDouble (toFixedDecimal x)

/-! ## Grade helper -/

/-- The object returned by `gradeFromPct`. -/
structure GradeResult where
  grade : String
  gradePoint : ℚ
  deriving DecidableEq

/-- Grade helper of `models/Mark.js`. -/
def gradeFromPct (pct : ℚ) : GradeResult :=
  if pct ≥ 80 then { grade := "A+", gradePoint := 5 }
  else if pct ≥ 70 then { grade := "A", gradePoint := 4 }
  else if pct ≥ 60 then { grade := "A-", gradePoint := 7 / 2 }
  else if pct ≥ 50 then { grade := "B", gradePoint := 3 }
  else if pct ≥ 40 then { grade := "C", gradePoint := 2 }
  else if pct ≥ 33 then { grade := "D", gradePoint := 1 }
  else { grade := "F", gradePoint := 0 }

/-! ## Schemas -/

/-- A document id. -/
abbrev ObjectId := Nat

/-- Sub-document `subjectMarkSchema`: the marks of one subject. -/
structure SubjectMark where
  subjectName : String
  subjectCode : String
  theoryFullMarks : JSNumber
  theoryObtained : JSNumber
  practicalFullMarks : JSNumber
  practicalObtained : JSNumber
  mcqFullMarks : JSNumber
  mcqObtained : JSNumber
  totalFullMarks : JSNumber
  totalObtained : JSNumber
  grade : String
  gradePoint : JSNumber
  isAbsent : Bool
  remarks : String
  deriving DecidableEq

/-- Document of `markSchema`. -/
structure MarkDoc where
  student : ObjectId
  «class» : ObjectId
  examType : String
  examYear : Int
  subjects : List SubjectMark
  totalObtained : ℚ
  totalFullMarks : ℚ
  percentage : ℚ
  gpa : ℚ
  grade : String
  position : Nat
  result : String
  isPublished : Bool
  publishedAt : Option Nat
  createdBy : Option ObjectId
  updatedBy : Option ObjectId
  createdAt : Option Nat
  updatedAt : Option Nat
  deriving DecidableEq

/-! ## Pre-save hook -/

/-- The four `let` variables of the hook that the `forEach` callback
updates. -/
structure Totals where
  totalObtained : ℚ
  totalFullMarks : ℚ
  gpSum : ℚ
  hasFailed : Bool
  deriving DecidableEq

/-- The constant `full` of the `forEach` callback. -/
def subjectFull (sub : SubjectMark) : ℚ :=
  jsOr (some (jsOr sub.theoryFullMarks 0 +
              jsOr sub.practicalFullMarks 0 +
              jsOr sub.mcqFullMarks 0)) 100

/-- The constant `obtained` of the `else` branch of the callback. -/
def subjectObtained (sub : SubjectMark) : ℚ :=
  jsOr (parseFloat sub.theoryObtained) 0
    + jsOr (parseFloat sub.practicalObtained) 0
    + jsOr (parseFloat sub.mcqObtained) 0

/-- The constant `pct` of the `else` branch of the callback. -/
def subjectPct (full obtained : ℚ) : ℚ :=
  if full > 0 then (obtained / full) * 100 else 0

/-- One call of the `forEach` callback: the variables and the sub-document
after it. -/
def forEachBody (t : Totals) (sub : SubjectMark) : Totals × SubjectMark :=
  let full := subjectFull sub
  if sub.isAbsent then
    ({ t with hasFailed := true, totalFullMarks := t.totalFullMarks + full },
     { sub with
        totalFullMarks := some full
        totalObtained := some 0
        grade := "F"
        gradePoint := some 0 })
  else
    let obtained := subjectObtained sub
    let pct := subjectPct full obtained
    let g := gradeFromPct pct
    ({ totalObtained := t.totalObtained + obtained
       totalFullMarks := t.totalFullMarks + full
       gpSum := t.gpSum + g.gradePoint
       hasFailed := if g.grade = "F" then true else t.hasFailed },
     { sub with
        totalObtained := some obtained
        totalFullMarks := some full
        grade := g.grade
        gradePoint := some g.gradePoint })

/-- The loop `this.subjects.forEach(...)`: the callback runs on the
sub-documents in array order. -/
def forEachSubjects (t : Totals) : List SubjectMark → Totals × List SubjectMark
  | [] => (t, [])
  | sub :: rest =>
    let r := forEachBody t sub
    let rs := forEachSubjects r.1 rest
    (rs.1, r.2 :: rs.2)

/-- The hook `markSchema.pre('save', ...)`: the document as it is written. -/
def preSave (doc : MarkDoc) : MarkDoc :=
  let r := forEachSubjects
    { totalObtained := 0, totalFullMarks := 0, gpSum := 0, hasFailed := false }
    doc.subjects
  let totalObtained := r.1.totalObtained
  let totalFullMarks := r.1.totalFullMarks
  let percentage :=
    if totalFullMarks > 0 then toFixed2 (mulDouble (divDouble totalObtained totalFullMarks) 100)
    else 0
  let gpa :=
    if r.2.length > 0 then toFixed2 (divDouble r.1.gpSum (r.2.length : ℚ)) else 0
  { doc with
    subjects := r.2
    totalObtained := totalObtained
    totalFullMarks := totalFullMarks
    percentage := percentage
    grade := (gradeFromPct percentage).grade
    gpa := gpa
    result := if doc.isPublished then (if r.1.hasFailed then "Fail" else "Pass")
              else doc.result }

/-- The sub-document as one call of the callback leaves it; the callback reads
the running totals only to update them, never to write `sub`. -/
def derivedSubject (sub : SubjectMark) : SubjectMark :=
  (forEachBody { totalObtained := 0, totalFullMarks := 0, gpSum := 0, hasFailed := false } sub).2


/-! ## The grade table as the specification words it -/

/-- A row of the fixed grade table: threshold, grade, grade point. -/
structure GradeRow where
  threshold : ℚ
  grade : String
  gradePoint : ℚ

/-- The fixed table, in the order it is read. -/
def gradeTable : List GradeRow :=
  [ ⟨80, "A+", 5⟩, ⟨70, "A", 4⟩, ⟨60, "A-", 7 / 2⟩,
    ⟨50, "B", 3⟩, ⟨40, "C", 2⟩, ⟨33, "D", 1⟩ ]

/-- Reading of the table: the first row whose threshold the percentage
reaches, the row `F` when there is none. -/
def classify (p : ℚ) : GradeResult :=
  match gradeTable.find? (fun row => decide (row.threshold ≤ p)) with
  | some row => { grade := row.grade, gradePoint := row.gradePoint }
  | none => { grade := "F", gradePoint := 0 }

/-- The seven (grade, grade point) pairs of the table. -/
def gradePairs : List GradeResult :=
  [ ⟨"A+", 5⟩, ⟨"A", 4⟩, ⟨"A-", 7 / 2⟩, ⟨"B", 3⟩, ⟨"C", 2⟩, ⟨"D", 1⟩, ⟨"F", 0⟩ ]


/-! ## Sample documents -/

/-- The initial values of the four variables of the hook. -/
def zeroTotals : Totals :=
  { totalObtained := 0, totalFullMarks := 0, gpSum := 0, hasFailed := false }

/-- A subject out of 100 with 85 entered, supplied with derived fields of the
caller's own. -/
def sampleSubject (absent : Bool) : SubjectMark :=
  { subjectName := "Math", subjectCode := "MAT"
    theoryFullMarks := some 100, theoryObtained := some 85
    practicalFullMarks := some 0, practicalObtained := none
    mcqFullMarks := some 0, mcqObtained := some 0
    totalFullMarks := some 40, totalObtained := some 39
    grade := "A+", gradePoint := some 5
    isAbsent := absent, remarks := "" }

/-- A draft record holding the given subjects. -/
def sampleDoc (subjects : List SubjectMark) : MarkDoc :=
  { student := 1, «class» := 7, examType := "annual", examYear := 2024
    subjects := subjects
    totalObtained := 0, totalFullMarks := 0, percentage := 0, gpa := 0
    grade := "", position := 0, result := "Not Published"
    isPublished := false, publishedAt := none
    createdBy := none, updatedBy := none
    createdAt := none, updatedAt := none }

/-! ## Mark store

The collection is a list of documents in its natural order, the order
`Mark.find` returns them in. The `_id` of a stored document is modelled by its
place in that list: a loaded document is a pair of its place and its paths,
and `save` writes back to that place. A time is a number of milliseconds. The
schema option `{ timestamps: true }` adds the paths `createdAt` and
`updatedAt`: `Mark.create` sets both to the time of the write, `save` sets
`updatedAt` when a path of the loaded document was modified, and `updateMany`
sets `updatedAt` on every document it matches. -/

/-- The Mark collection. -/
abbrev Store := List MarkDoc

/-- What the surroundings of one request decide. Which store calls throw, and
with what message: `lookup i` for the read (`find`, `findOne`, `findById`)
and `write i` for the write (`save`, `create`, `updateMany`,
`findByIdAndDelete`) of the `i`-th iteration of the request's loop, `0` for a
request without a loop; a write throws on a validation error or on a failure
of the database. And `now i`, the time at which that write happens, which
the timestamps record. -/
structure Faults where
  lookup : Nat → Option String
  write : Nat → Option String
  now : Nat → Nat

/-- No store call throws. -/
def noFaults : Faults :=
  { lookup := fun _ => none, write := fun _ => none, now := fun _ => 0 }

/-- The filter `{ class, examType, examYear }`. -/
def matchesCohort (classId : ObjectId) (examType : String) (examYear : Int)
    (doc : MarkDoc) : Bool :=
  decide (doc.«class» = classId) && decide (doc.examType = examType)
    && decide (doc.examYear = examYear)

/-- The filter `{ student, class, examType, examYear }`. -/
def matchesKey (student classId : ObjectId) (examType : String) (examYear : Int)
    (doc : MarkDoc) : Bool :=
  decide (doc.student = student) && matchesCohort classId examType examYear doc

/-- The call `Mark.find(filter)`: the matching documents in natural order. -/
def find (s : Store) (filter : MarkDoc → Bool) : List (Nat × MarkDoc) :=
  s.enum.filter (fun m => filter m.2)

/-- The call `Mark.findOne(filter)`: the first matching document. -/
def findOne (s : Store) (filter : MarkDoc → Bool) : Option (Nat × MarkDoc) :=
  s.enum.find? (fun m => filter m.2)

/-- The hook that `{ timestamps: true }` adds to `save` of a loaded document:
`updatedAt` becomes the time of the save when a path of the document was
modified since it was loaded. A document counts as modified when one of its
modelled paths differs from the loaded one; the `_id` of a sub-document is
not modelled. -/
def stampUpdatedAt (now : Nat) (loaded : Option MarkDoc) (doc : MarkDoc) : MarkDoc :=
  if loaded = some doc then doc else { doc with updatedAt := some now }

/-- The call `doc.save()` at the time `now` on a document loaded from a place:
the timestamps hook and the pre-save hook run and the document is written
back in place. The document at that place is the one that was loaded: no
controller writes a place between loading a document from it and saving
it. -/
def save (s : Store) (now : Nat) (place : Nat) (doc : MarkDoc) : Store :=
  s.set place (preSave (stampUpdatedAt now s[place]? doc))

/-- The document `Mark.create` builds from `{ ...filter, subjects, createdBy }`
and the defaults of the schema. -/
def newMark (student classId : ObjectId) (examType : String) (examYear : Int)
    (subjects : List SubjectMark) (user : ObjectId) : MarkDoc :=
  { student := student, «class» := classId, examType := examType, examYear := examYear
    subjects := subjects
    totalObtained := 0, totalFullMarks := 0, percentage := 0, gpa := 0
    grade := "", position := 0, result := "Not Published"
    isPublished := false, publishedAt := none
    createdBy := some user, updatedBy := none
    createdAt := none, updatedAt := none }

/-- The hook that `{ timestamps: true }` adds to the save of a new document:
both timestamps become the time of the save. -/
def stampCreated (now : Nat) (doc : MarkDoc) : MarkDoc :=
  { doc with createdAt := some now, updatedAt := some now }

/-- The call `Mark.create(doc)` at the time `now`: the timestamps hook and the
pre-save hook run and the document is added; the unique index on
`{ student, class, examType, examYear }` rejects a second document with the
same four values. -/
def create (s : Store) (now : Nat) (doc : MarkDoc) : Except String Store :=
  if s.any (matchesKey doc.student doc.«class» doc.examType doc.examYear) then
    .error "E11000 duplicate key error"
  else
    .ok (s ++ [preSave (stampCreated now doc)])

/-! ## Controllers -/

/-- What a controller answers. -/
inductive Response where
  | badRequest
  | notFound
  | serverError (message : String)
  | markSaved (data : Option MarkDoc)
  | bulkSaved (savedCount : Nat) (errors : List (ObjectId × String))
  | published (count : Nat)
  | unpublished (modifiedCount : Nat)
  | deleted
  deriving DecidableEq

/-- The HTTP status of an answer. -/
def Response.status : Response → Nat
  | .badRequest => 400
  | .notFound => 404
  | .serverError _ => 500
  | _ => 200

/-- A body field holding a string, when it is truthy. -/
def truthyString (v : Option String) : Option String :=
  match v with
  | some str => if str = "" then none else some str
  | none => none

/-- The body field `examYear`, a number or missing, when it is truthy; it is
then what `parseInt` returns for it. -/
def truthyYear (v : Option Int) : Option Int :=
  match v with
  | some n => if n = 0 then none else some n
  | none => none

/-- Controller `saveMark` on a body whose `subjects` is an array. -/
def saveMark (s : Store) (f : Faults) (user : ObjectId)
    (studentId classId : Option ObjectId) (examType : Option String)
    (examYear : Option Int) (subjects : List SubjectMark) : Store × Response :=
  match studentId, classId, truthyString examType, truthyYear examYear with
  | some sid, some cid, some et, some ey =>
    match f.lookup 0 with
    | some msg => (s, .serverError msg)
    | none =>
      match findOne s (matchesKey sid cid et ey) with
      | some (place, mark) =>
        match f.write 0 with
        | some msg => (s, .serverError msg)
        | none =>
          let s1 := save s (f.now 0) place
            { mark with subjects := subjects, updatedBy := some user }
          match f.lookup 1 with
          | some msg => (s1, .serverError msg)
          | none => (s1, .markSaved s1[place]?)
      | none =>
        match f.write 0 with
        | some msg => (s, .serverError msg)
        | none =>
          match create s (f.now 0) (newMark sid cid et ey subjects user) with
          | .error msg => (s, .serverError msg)
          | .ok s1 =>
            match f.lookup 1 with
            | some msg => (s1, .serverError msg)
            | none => (s1, .markSaved s1[s.length]?)
  | _, _, _, _ => (s, .badRequest)

/-- An element of `marksData` that is not `null`: its properties `studentId`
and `subjects`, `none` for a property it does not have or that is falsy. A
number, a string or a boolean has neither. -/
structure BulkEntry where
  studentId : Option ObjectId
  subjects : Option (List SubjectMark)

/-- The variables of the loop of `saveBulkMarks`, and the store. -/
structure BulkState where
  store : Store
  savedCount : Nat
  errors : List (ObjectId × String)

/-- One iteration of the loop of `saveBulkMarks`, the `i`-th. -/
def bulkIteration (f : Faults) (user classId : ObjectId) (examType : String)
    (examYear : Int) (i : Nat) (st : BulkState) (entry : BulkEntry) : BulkState :=
  match entry.studentId with
  | none => st
  | some sid =>
    match f.lookup i with
    | some msg => { st with errors := st.errors ++ [(sid, msg)] }
    | none =>
      match findOne st.store (matchesKey sid classId examType examYear) with
      | some (place, existing) =>
        match f.write i with
        | some msg => { st with errors := st.errors ++ [(sid, msg)] }
        | none =>
          { st with
            store := save st.store (f.now i) place
              { existing with subjects := entry.subjects.getD [], updatedBy := some user }
            savedCount := st.savedCount + 1 }
      | none =>
        match f.write i with
        | some msg => { st with errors := st.errors ++ [(sid, msg)] }
        | none =>
          match create st.store (f.now i)
              (newMark sid classId examType examYear (entry.subjects.getD []) user) with
          | .error msg => { st with errors := st.errors ++ [(sid, msg)] }
          | .ok s1 => { st with store := s1, savedCount := st.savedCount + 1 }

/-- The message of the `TypeError` that reading `entry.studentId` throws when
`entry` is `null`. -/
def nullEntryMessage : String :=
  "Cannot read properties of null (reading 'studentId')"

/-- The loop `for (const entry of marksData)` from its `i`-th iteration on; an
element of the array is `none` when it is `null`. On `null` the test
`!entry.studentId` throws in the `try`, and the `catch` of the loop throws
again when it reads `entry.studentId` for the errors list: that error leaves
the loop for the `catch` of the controller. The loop gives the state it ends
in and the message of that error, if there was one. -/
def bulkLoop (f : Faults) (user classId : ObjectId) (examType : String)
    (examYear : Int) : Nat → BulkState → List (Option BulkEntry) → BulkState × Option String
  | _, st, [] => (st, none)
  | _, st, none :: _ => (st, some nullEntryMessage)
  | i, st, some entry :: rest =>
    bulkLoop f user classId examType examYear (i + 1)
      (bulkIteration f user classId examType examYear i st entry) rest

/-- The state in which the loop ends on a batch without `null`. -/
def objectLoop (f : Faults) (user classId : ObjectId) (examType : String)
    (examYear : Int) (i : Nat) (st : BulkState) (entries : List BulkEntry) : BulkState :=
  (bulkLoop f user classId examType examYear i st (entries.map some)).1

/-- Controller `saveBulkMarks`; `marksData` is `none` when it is not an
array. -/
def saveBulkMarks (s : Store) (f : Faults) (user : ObjectId)
    (classId : Option ObjectId) (examType : Option String) (examYear : Option Int)
    (marksData : Option (List (Option BulkEntry))) : Store × Response :=
  match classId, truthyString examType, truthyYear examYear, marksData with
  | some cid, some et, some ey, some entries =>
    let r := bulkLoop f user cid et ey 0
      { store := s, savedCount := 0, errors := [] } entries
    match r.2 with
    | some msg => (r.1.store, .serverError msg)
    | none => (r.1.store, .bulkSaved r.1.savedCount r.1.errors)
  | _, _, _, _ => (s, .badRequest)

/-- The comparator of the sort in `publishMarks`:
`(b.percentage || 0) - (a.percentage || 0)`. -/
def comparePercentage (a b : Nat × MarkDoc) : ℚ :=
  jsOr (some b.2.percentage) 0 - jsOr (some a.2.percentage) 0

/-- The comparator does not ask for `b` before `a`. -/
def rankedBefore (a b : Nat × MarkDoc) : Prop :=
  comparePercentage a b ≤ 0

instance rankedBeforeDecidable : DecidableRel rankedBefore :=
  fun a b => inferInstanceAs (Decidable (comparePercentage a b ≤ 0))

/-- The expression `[...marks].sort(comparator)`: `Array.prototype.sort` is
stable, an element moves before an earlier one only when the comparator asks
for it. -/
def sortByPercentage (marks : List (Nat × MarkDoc)) : List (Nat × MarkDoc) :=
  marks.insertionSort rankedBefore

/-- The assignments of the loop of `publishMarks` to the document `m` at
iteration `i`. -/
def stampPublished (clock : Nat → Nat) (i : Nat) (m : MarkDoc) : MarkDoc :=
  { m with
    isPublished := true
    publishedAt := some (clock i)
    position := i + 1
    result := if m.grade = "F" then "Fail" else "Pass" }

/-- The loop of `publishMarks` from its `i`-th iteration on: the store, and
the message of the `save` that threw, if one did. The notification that
follows each `save` sits in a `try` of its own whose `catch` is empty, and
touches neither the Mark collection nor the answer. -/
def publishLoop (f : Faults) (clock : Nat → Nat) :
    Store → List (Nat × MarkDoc) → Nat → Store × Option String
  | s, [], _ => (s, none)
  | s, m :: rest, i =>
    match f.write i with
    | some msg => (s, some msg)
    | none =>
      publishLoop f clock (save s (f.now i) m.1 (stampPublished clock i m.2)) rest (i + 1)

/-- Controller `publishMarks` on a body that names a cohort; `clock i` is
`new Date()` at iteration `i`. -/
def publishMarks (s : Store) (f : Faults) (clock : Nat → Nat)
    (classId : ObjectId) (examType : String) (examYear : Int) : Store × Response :=
  match f.lookup 0 with
  | some msg => (s, .serverError msg)
  | none =>
    let marks := find s (matchesCohort classId examType examYear)
    if marks.length = 0 then (s, .notFound)
    else
      let r := publishLoop f clock s (sortByPercentage marks) 0
      match r.2 with
      | some msg => (r.1, .serverError msg)
      | none => (r.1, .published marks.length)

/-- The update document of `unpublishMarks` applied to one document. -/
def resetPublished (m : MarkDoc) : MarkDoc :=
  { m with isPublished := false, publishedAt := none, result := "Not Published", position := 0 }

/-- What `updateMany` of `unpublishMarks` writes to a matching document at
the time `now`: the update document and, for the timestamps of the schema,
`updatedAt`. -/
def updateUnpublished (now : Nat) (m : MarkDoc) : MarkDoc :=
  { resetPublished m with updatedAt := some now }

/-- Controller `unpublishMarks` on a body that names a cohort. `updateMany`
runs no save hook; it sets `updatedAt` on every matching document to the time
of the update, so all of them count as modified. -/
def unpublishMarks (s : Store) (f : Faults)
    (classId : ObjectId) (examType : String) (examYear : Int) : Store × Response :=
  match f.write 0 with
  | some msg => (s, .serverError msg)
  | none =>
    (s.map (fun m =>
      if matchesCohort classId examType examYear m then updateUnpublished (f.now 0) m
      else m),
     .unpublished (s.countP (matchesCohort classId examType examYear)))

/-- Controller `deleteMark`; the `id` of the request is a place in the
store. -/
def deleteMark (s : Store) (f : Faults) (id : Nat) : Store × Response :=
  match f.write 0 with
  | some msg => (s, .serverError msg)
  | none => if id < s.length then (s.eraseIdx id, .deleted) else (s, .notFound)

/-- A request to one of the five controllers that write the Mark
collection. -/
inductive Op where
  | saveMark (f : Faults) (user : ObjectId) (studentId classId : Option ObjectId)
      (examType : Option String) (examYear : Option Int) (subjects : List SubjectMark)
  | saveBulkMarks (f : Faults) (user : ObjectId) (classId : Option ObjectId)
      (examType : Option String) (examYear : Option Int)
      (marksData : Option (List (Option BulkEntry)))
  | publishMarks (f : Faults) (clock : Nat → Nat) (classId : ObjectId)
      (examType : String) (examYear : Int)
  | unpublishMarks (f : Faults) (classId : ObjectId) (examType : String) (examYear : Int)
  | deleteMark (f : Faults) (id : Nat)

/-- The store after a request. -/
def Op.run (s : Store) : Op → Store
  | .saveMark f user sid cid et ey subjects => (Mark.saveMark s f user sid cid et ey subjects).1
  | .saveBulkMarks f user cid et ey entries => (Mark.saveBulkMarks s f user cid et ey entries).1
  | .publishMarks f clock cid et ey => (Mark.publishMarks s f clock cid et ey).1
  | .unpublishMarks f cid et ey => (Mark.unpublishMarks s f cid et ey).1
  | .deleteMark f id => (Mark.deleteMark s f id).1

/-- The store after a sequence of requests. -/
def runAll (s : Store) (ops : List Op) : Store :=
  ops.foldl Op.run s

/-- The key `(student, class, examType, examYear)` of a document. -/
def markKey (m : MarkDoc) : ObjectId × ObjectId × String × Int :=
  (m.student, m.«class», m.examType, m.examYear)

/-- The paths of a sub-document that the caller enters: the three full-marks
paths, the three obtained paths and `isAbsent`. -/
def rawFields (sub : SubjectMark) :
    JSNumber × JSNumber × JSNumber × JSNumber × JSNumber × JSNumber × Bool :=
  (sub.theoryFullMarks, sub.practicalFullMarks, sub.mcqFullMarks,
   sub.theoryObtained, sub.practicalObtained, sub.mcqObtained, sub.isAbsent)

/-- The paths of a sub-document that the hook derives. -/
def derivedFields (sub : SubjectMark) : JSNumber × JSNumber × String × JSNumber :=
  (sub.totalFullMarks, sub.totalObtained, sub.grade, sub.gradePoint)

/-- The paths of a record that the hook derives from its subjects. -/
def recordDerived (m : MarkDoc) : ℚ × ℚ × ℚ × ℚ × String :=
  (m.totalObtained, m.totalFullMarks, m.percentage, m.gpa, m.grade)

/-- A present subject out of 100 with the given marks in theory. -/
def scoredSubject (obtained : ℚ) : SubjectMark :=
  { subjectName := "Math", subjectCode := "MAT"
    theoryFullMarks := some 100, theoryObtained := some obtained
    practicalFullMarks := some 0, practicalObtained := some 0
    mcqFullMarks := some 0, mcqObtained := some 0
    totalFullMarks := some 100, totalObtained := some 0
    grade := "", gradePoint := some 0
    isAbsent := false, remarks := "" }

/-- The `position` of the document at a place of the store, `0` when the
place is empty. -/
def positionAt (s : Store) (place : Nat) : Nat :=
  (s[place]?.map MarkDoc.position).getD 0

/-- A draft record of one student of class 7 for the annual exam of 2024,
with one subject out of 100, as the pre-save hook leaves it. -/
def cohortDoc (student : ObjectId) (obtained : ℚ) : MarkDoc :=
  preSave (newMark student 7 "annual" 2024 [scoredSubject obtained] 99)

/-- A store whose four records have the percentages 90, 90, 70 and 50. -/
def rankingStore : Store :=
  [cohortDoc 1 90, cohortDoc 2 90, cohortDoc 3 70, cohortDoc 4 50]

/-- No store call throws, and every write happens at the time `t`. -/
def noFaultsAt (t : Nat) : Faults :=
  { lookup := fun _ => none, write := fun _ => none, now := fun _ => t }

/-- The first `save` of the request throws. -/
def firstWriteFails : Faults :=
  { lookup := fun _ => none
    write := fun i => if i = 0 then some "save failed" else none
    now := fun _ => 0 }

/-- No two documents of the store have the same
`(student, class, examType, examYear)`. -/
def KeysUnique (s : Store) : Prop :=
  (s.map markKey).Nodup

/-- A batch that names student 1 twice. -/
def repeatedStudentBatch : List BulkEntry :=
  [ { studentId := some 1, subjects := some [scoredSubject 40] },
    { studentId := some 1, subjects := some [scoredSubject 90] } ]

/-- The second write of the request throws. -/
def secondWriteFails : Faults :=
  { lookup := fun _ => none
    write := fun i => if i = 1 then some "save failed" else none
    now := fun _ => 0 }

/-- A batch for the students 1, 2 and 3. -/
def threeStudentBatch : List BulkEntry :=
  [ { studentId := some 1, subjects := some [scoredSubject 40] },
    { studentId := some 2, subjects := some [scoredSubject 90] },
    { studentId := some 3, subjects := none } ]

/-- A batch whose second row has no studentId. -/
def sparseBatch : List BulkEntry :=
  [ { studentId := some 1, subjects := some [scoredSubject 40] },
    { studentId := none, subjects := some [scoredSubject 90] },
    { studentId := some 3, subjects := none } ]

/-- A batch whose first element is `null`, followed by a row for student 1. -/
def nullFirstBatch : List (Option BulkEntry) :=
  [ none, some { studentId := some 1, subjects := some [scoredSubject 40] } ]

/-! ## Read controllers -/

/-- A filter object on the Mark collection: a path that is set has to be
equal, a path that is not set is not tested. -/
structure MarkQuery where
  student : Option ObjectId
  «class» : Option ObjectId
  examType : Option String
  examYear : Option Int
  isPublished : Option Bool

/-- A document passes the filter. -/
def MarkQuery.accepts (q : MarkQuery) (m : MarkDoc) : Bool :=
  q.student.all (fun v => decide (m.student = v))
    && q.«class».all (fun v => decide (m.«class» = v))
    && q.examType.all (fun v => decide (m.examType = v))
    && q.examYear.all (fun v => decide (m.examYear = v))
    && q.isPublished.all (fun v => decide (m.isPublished = v))

/-- What a controller that reads marks answers: 404, 500, or 200 with the
documents found. -/
inductive MarksResponse where
  | notFound
  | serverError (message : String)
  | marks (data : List MarkDoc)

/-- The documents an answer carries. -/
def MarksResponse.data : MarksResponse → List MarkDoc
  | .marks data => data
  | _ => []

/-- The HTTP status of an answer of a read controller. -/
def MarksResponse.status : MarksResponse → Nat
  | .notFound => 404
  | .serverError _ => 500
  | .marks _ => 200

/-- Controller `getStudentMarks`. The Student model is not among the sources:
`ownStudent` is the `_id` of the document `Student.findOne({ userId })` returns
for the caller, `none` when there is none. `f.lookup 0` is that call,
`f.lookup 1` the `Mark.find`. The sort `{ examYear: -1, createdAt: -1 }` is a
stable sort by descending `examYear` of the documents found, latest created
first; the natural order of the store is the order of creation. -/
def getStudentMarks (s : Store) (f : Faults) (role : String) (ownStudent : Option ObjectId)
    (studentId : ObjectId) (examType : Option String) (examYear : Option Int) :
    MarksResponse :=
  let query : MarkQuery :=
    { student := some studentId, «class» := none, examType := none, examYear := none
      isPublished := none }
  let narrowed : Except MarksResponse MarkQuery :=
    if role = "student" then
      match f.lookup 0 with
      | some msg => .error (.serverError msg)
      | none =>
        match ownStudent with
        | none => .error .notFound
        | some own => .ok { query with student := some own, isPublished := some true }
    else .ok query
  match narrowed with
  | .error answer => answer
  | .ok q =>
    let q1 : MarkQuery :=
      match truthyString examType with
      | some et => { q with examType := some et }
      | none => q
    let q2 : MarkQuery :=
      match truthyYear examYear with
      | some ey => { q1 with examYear := some ey }
      | none => q1
    match f.lookup 1 with
    | some msg => .serverError msg
    | none =>
      .marks ((((find s q2.accepts).map Prod.snd).reverse).insertionSort
        (fun a b => b.examYear ≤ a.examYear))

/-- The order `{ position: 1, percentage: -1 }` of `getResultSheetData`. -/
def resultSheetBefore (a b : MarkDoc) : Prop :=
  a.position < b.position ∨ (a.position = b.position ∧ b.percentage ≤ a.percentage)

instance resultSheetBeforeDecidable : DecidableRel resultSheetBefore :=
  fun a b => inferInstanceAs
    (Decidable (a.position < b.position ∨ (a.position = b.position ∧ b.percentage ≤ a.percentage)))

/-- Controller `getResultSheetData` on a request that names a cohort;
`studentId` is the query parameter, `none` when it is missing or empty.
`ownStudent` and the faults are as in `getStudentMarks`. -/
def getResultSheetData (s : Store) (f : Faults) (role : String)
    (ownStudent : Option ObjectId) (classId : ObjectId) (examType : String)
    (examYear : Int) (studentId : Option ObjectId) : MarksResponse :=
  let query : MarkQuery :=
    { student := none, «class» := some classId, examType := some examType
      examYear := some examYear, isPublished := none }
  let narrowed : Except MarksResponse MarkQuery :=
    if role = "student" then
      match f.lookup 0 with
      | some msg => .error (.serverError msg)
      | none =>
        match ownStudent with
        | none => .error .notFound
        | some own => .ok { query with student := some own, isPublished := some true }
    else
      match studentId with
      | some sid => .ok { query with student := some sid }
      | none => .ok query
  match narrowed with
  | .error answer => answer
  | .ok q =>
    match f.lookup 1 with
    | some msg => .serverError msg
    | none =>
      .marks (((find s q.accepts).map Prod.snd).insertionSort resultSheetBefore)

/-! ## States of a record, and further samples -/

/-- A record is a draft (not published, position 0, result "Not Published") or
published (position at least 1, result "Pass" or "Fail"). -/
def DraftOrPublished (m : MarkDoc) : Prop :=
  (m.isPublished = false ∧ m.position = 0 ∧ m.result = "Not Published") ∨
  (m.isPublished = true ∧ 1 ≤ m.position ∧ (m.result = "Pass" ∨ m.result = "Fail"))

/-- The two subjects of the end-to-end example: Math with 85 of 100 and
English with 65 of 100 in theory, nothing else. -/
def exampleSubjects : List SubjectMark :=
  [ scoredSubject 85,
    { scoredSubject 65 with subjectName := "English", subjectCode := "ENG" } ]

/-- Two present subjects, 100 of 100 and 10 of 100. -/
def rollUpSubjects : List SubjectMark :=
  [ scoredSubject 100,
    { scoredSubject 10 with subjectName := "English", subjectCode := "ENG" } ]

/-- A batch of one student without subjects. -/
def emptySubjectsBatch : List BulkEntry :=
  [ { studentId := some 3, subjects := none } ]

/-- A present subject with 87 of 160 marks in theory. -/
def tieSubject : SubjectMark :=
  { scoredSubject 87 with theoryFullMarks := some 160 }

/-- A present subject with 9999 of 20000 marks in theory. -/
def halfSubject : SubjectMark :=
  { scoredSubject 9999 with theoryFullMarks := some 20000 }

/-- Twenty present subjects out of 100, the first with 65 marks and the
others with none. -/
def gpaTieSubjects : List SubjectMark :=
  scoredSubject 65 :: List.replicate 19 (scoredSubject 0)

/-! ## Helper lemmas -/

theorem jsOr_zero (v : JSNumber) : jsOr v 0 = v.getD 0 := by
  cases v with
  | none => rfl
  | some q =>
    by_cases hq : q = 0
    · simp [jsOr, hq]
    · simp [jsOr, hq]

theorem forEachBody_subject (t : Totals) (sub : SubjectMark) :
    (forEachBody t sub).2 = derivedSubject sub := by
  unfold derivedSubject forEachBody
  by_cases h : sub.isAbsent = true <;> simp [h]

theorem forEachSubjects_subjects (t : Totals) (l : List SubjectMark) :
    (forEachSubjects t l).2 = l.map derivedSubject := by
  induction l generalizing t with
  | nil => rfl
  | cons sub rest ih => simp [forEachSubjects, ih, forEachBody_subject]

theorem forEachBody_totalObtained (t : Totals) (sub : SubjectMark) :
    (forEachBody t sub).1.totalObtained
      = t.totalObtained + (derivedSubject sub).totalObtained.getD 0 := by
  unfold derivedSubject forEachBody
  by_cases h : sub.isAbsent = true <;> simp [h]

theorem forEachBody_totalFullMarks (t : Totals) (sub : SubjectMark) :
    (forEachBody t sub).1.totalFullMarks
      = t.totalFullMarks + (derivedSubject sub).totalFullMarks.getD 0 := by
  unfold derivedSubject forEachBody
  by_cases h : sub.isAbsent = true <;> simp [h]

theorem forEachBody_gpSum (t : Totals) (sub : SubjectMark) :
    (forEachBody t sub).1.gpSum
      = t.gpSum + (derivedSubject sub).gradePoint.getD 0 := by
  unfold derivedSubject forEachBody
  by_cases h : sub.isAbsent = true <;> simp [h]

theorem forEachSubjects_totalObtained (t : Totals) (l : List SubjectMark) :
    (forEachSubjects t l).1.totalObtained
      = t.totalObtained + (l.map (fun s => (derivedSubject s).totalObtained.getD 0)).sum := by
  induction l generalizing t with
  | nil => simp [forEachSubjects]
  | cons sub rest ih =>
    simp only [forEachSubjects, ih, forEachBody_totalObtained, List.map_cons, List.sum_cons]
    ring

theorem forEachSubjects_totalFullMarks (t : Totals) (l : List SubjectMark) :
    (forEachSubjects t l).1.totalFullMarks
      = t.totalFullMarks + (l.map (fun s => (derivedSubject s).totalFullMarks.getD 0)).sum := by
  induction l generalizing t with
  | nil => simp [forEachSubjects]
  | cons sub rest ih =>
    simp only [forEachSubjects, ih, forEachBody_totalFullMarks, List.map_cons, List.sum_cons]
    ring

theorem forEachSubjects_gpSum (t : Totals) (l : List SubjectMark) :
    (forEachSubjects t l).1.gpSum
      = t.gpSum + (l.map (fun s => (derivedSubject s).gradePoint.getD 0)).sum := by
  induction l generalizing t with
  | nil => simp [forEachSubjects]
  | cons sub rest ih =>
    simp only [forEachSubjects, ih, forEachBody_gpSum, List.map_cons, List.sum_cons]
    ring

theorem preSave_subjects (doc : MarkDoc) :
    (preSave doc).subjects = doc.subjects.map derivedSubject := by
  simp [preSave, forEachSubjects_subjects]

theorem preSave_totalObtained (doc : MarkDoc) :
    (preSave doc).totalObtained
      = (doc.subjects.map (fun s => (derivedSubject s).totalObtained.getD 0)).sum := by
  simp [preSave, forEachSubjects_totalObtained]

theorem preSave_totalFullMarks (doc : MarkDoc) :
    (preSave doc).totalFullMarks
      = (doc.subjects.map (fun s => (derivedSubject s).totalFullMarks.getD 0)).sum := by
  simp [preSave, forEachSubjects_totalFullMarks]

theorem roundHalfEven_close (x : ℚ) : |(roundHalfEven x : ℚ) - x| ≤ 1 / 2 := by
  have h1 := Int.floor_le x
  have h2 := Int.lt_floor_add_one x
  unfold roundHalfEven
  rw [abs_le]
  split_ifs <;> push_cast <;> constructor <;> linarith

theorem roundHalfEven_le (x : ℚ) (n : ℤ) (h : x ≤ n) : roundHalfEven x ≤ n := by
  have h1 := Int.floor_le x
  have h2 := Int.lt_floor_add_one x
  have hfl : ⌊x⌋ ≤ n := Int.floor_le_iff.mpr (by linarith)
  unfold roundHalfEven
  split_ifs with ha hb hc
  · exact hfl
  · by_contra hcon
    have : n ≤ ⌊x⌋ := by omega
    have hq : (n : ℚ) ≤ ⌊x⌋ := by exact_mod_cast this
    linarith
  · exact hfl
  · by_contra hcon
    have : n ≤ ⌊x⌋ := by omega
    have hq : (n : ℚ) ≤ ⌊x⌋ := by exact_mod_cast this
    linarith

theorem le_roundHalfEven (x : ℚ) (n : ℤ) (h : (n : ℚ) ≤ x) : n ≤ roundHalfEven x := by
  have hfl : n ≤ ⌊x⌋ := Int.le_floor.mpr h
  unfold roundHalfEven
  split_ifs <;> omega

theorem roundHalfEven_intCast (n : ℤ) : roundHalfEven (n : ℚ) = n :=
  le_antisymm (roundHalfEven_le _ n le_rfl) (le_roundHalfEven _ n le_rfl)

theorem binade_spec (x : ℚ) (hx : x ≠ 0) :
    (2 : ℚ) ^ Int.log 2 |x| ≤ |x| ∧ |x| < (2 : ℚ) ^ (Int.log 2 |x| + 1) := by
  have hpos : 0 < |x| := abs_pos.mpr hx
  constructor
  · have := Int.zpow_log_le_self (b := 2) (by norm_num) hpos
    simpa using this
  · have := Int.lt_zpow_succ_log_self (b := 2) (by norm_num) |x|
    simpa using this

theorem binade_unique (x : ℚ) (e : ℤ) (hlo : (2 : ℚ) ^ e ≤ |x|) (hhi : |x| < (2 : ℚ) ^ (e + 1)) :
    Int.log 2 |x| = e := by
  have hpos : 0 < |x| := lt_of_lt_of_le (by positivity) hlo
  have h1 : e ≤ Int.log 2 |x| := by
    rw [← Int.zpow_le_iff_le_log (by norm_num) hpos]
    simpa using hlo
  have h2 : Int.log 2 |x| < e + 1 := by
    rw [← Int.lt_zpow_iff_log_lt (by norm_num) hpos]
    simpa using hhi
  omega

theorem roundDouble_eval (x : ℚ) (e : ℤ) (hlo : (2 : ℚ) ^ e ≤ |x|)
    (hhi : |x| < (2 : ℚ) ^ (e + 1)) :
    roundDouble x = (roundHalfEven (x * 2 ^ (52 - e)) : ℚ) * 2 ^ (e - 52) := by
  have hx : x ≠ 0 := by
    intro h
    rw [h, abs_zero] at hlo
    exact absurd hlo (not_le.mpr (by positivity))
  unfold roundDouble
  rw [if_neg hx, binade_unique x e hlo hhi]

theorem roundDouble_error (x : ℚ) : |roundDouble x - x| ≤ |x| / 2 ^ 53 := by
  by_cases hx : x = 0
  · simp [roundDouble, hx]
  · obtain ⟨hlo, hhi⟩ := binade_spec x hx
    rw [roundDouble_eval x _ hlo hhi]
    have hc := roundHalfEven_close (x * 2 ^ (52 - Int.log 2 |x|))
    have hp : (0 : ℚ) < 2 ^ (Int.log 2 |x| - 52) := by positivity
    have hmul : x * 2 ^ (52 - Int.log 2 |x|) * 2 ^ (Int.log 2 |x| - 52) = x := by
      rw [mul_assoc, ← zpow_add₀ (by norm_num : (2 : ℚ) ≠ 0)]
      simp
    have h1 : |(roundHalfEven (x * 2 ^ (52 - Int.log 2 |x|)) : ℚ) * 2 ^ (Int.log 2 |x| - 52) - x|
        = |(roundHalfEven (x * 2 ^ (52 - Int.log 2 |x|)) : ℚ) - x * 2 ^ (52 - Int.log 2 |x|)|
            * 2 ^ (Int.log 2 |x| - 52) := by
      rw [← abs_of_pos hp, ← abs_mul, sub_mul, hmul, abs_of_pos hp]
    rw [h1]
    have h2 : (2 : ℚ) ^ (Int.log 2 |x| - 52) = 2 ^ Int.log 2 |x| / 2 ^ 52 := by
      rw [zpow_sub₀ (by norm_num : (2 : ℚ) ≠ 0)]
      norm_num
    calc |(roundHalfEven (x * 2 ^ (52 - Int.log 2 |x|)) : ℚ) - x * 2 ^ (52 - Int.log 2 |x|)|
            * 2 ^ (Int.log 2 |x| - 52)
        ≤ 1 / 2 * 2 ^ (Int.log 2 |x| - 52) := by
          exact mul_le_mul_of_nonneg_right hc hp.le
      _ = 2 ^ Int.log 2 |x| / 2 ^ 53 := by rw [h2]; ring
      _ ≤ |x| / 2 ^ 53 := by
          apply div_le_div_of_nonneg_right hlo (by positivity)

theorem roundDouble_nonneg (x : ℚ) (h : 0 ≤ x) : 0 ≤ roundDouble x := by
  unfold roundDouble
  split_ifs with hx
  · exact le_rfl
  · apply mul_nonneg _ (by positivity)
    have : (0 : ℤ) ≤ roundHalfEven (x * 2 ^ (52 - Int.log 2 |x|)) :=
      le_roundHalfEven _ 0 (by push_cast; positivity)
    exact_mod_cast this

theorem roundDouble_le_nat (x : ℚ) (n : ℕ) (h0 : 0 ≤ x) (hx : x ≤ n) (hn : n < 2 ^ 53) :
    roundDouble x ≤ n := by
  by_cases hz : x = 0
  · simp [roundDouble, hz]
  · obtain ⟨hlo, hhi⟩ := binade_spec x hz
    rw [abs_of_nonneg h0] at hlo hhi
    have he : Int.log 2 |x| ≤ 52 := by
      rw [abs_of_nonneg h0]
      by_contra hcon
      have h53 : (53 : ℤ) ≤ Int.log 2 x := by omega
      have : (2 : ℚ) ^ (53 : ℤ) ≤ 2 ^ Int.log 2 x := zpow_le_zpow_right₀ (by norm_num) h53
      have hn' : (n : ℚ) < 2 ^ 53 := by exact_mod_cast hn
      have h2 : (2 : ℚ) ^ (53 : ℤ) = 2 ^ 53 := by norm_num
      linarith
    obtain ⟨k, hk⟩ := Int.eq_ofNat_of_zero_le (by omega : 0 ≤ 52 - Int.log 2 |x|)
    unfold roundDouble
    rw [if_neg hz, hk]
    have hr : roundHalfEven (x * 2 ^ (k : ℤ)) ≤ ((n * 2 ^ k : ℕ) : ℤ) := by
      apply roundHalfEven_le
      push_cast
      rw [zpow_natCast]
      exact mul_le_mul_of_nonneg_right hx (by positivity)
    have hq : (roundHalfEven (x * 2 ^ (k : ℤ)) : ℚ) ≤ (n : ℚ) * 2 ^ (k : ℤ) := by
      rw [zpow_natCast]
      exact_mod_cast hr
    have he2 : Int.log 2 |x| - 52 = -(k : ℤ) := by omega
    rw [he2, zpow_neg]
    have hp : (0 : ℚ) < 2 ^ (k : ℤ) := by positivity
    rw [← div_eq_mul_inv, div_le_iff₀ hp]
    exact hq

theorem toFixedDecimal_hundredths (x : ℚ) : ∃ n : ℤ, toFixedDecimal x = (n : ℚ) / 100 := by
  unfold toFixedDecimal
  split_ifs
  · exact ⟨-⌊(-x) * 100 + 1 / 2⌋, by push_cast; ring⟩
  · exact ⟨⌊x * 100 + 1 / 2⌋, rfl⟩

theorem toFixedDecimal_close (x : ℚ) : |toFixedDecimal x - x| ≤ 1 / 200 := by
  unfold toFixedDecimal
  split_ifs
  · have h1 := Int.floor_le ((-x) * 100 + 1 / 2)
    have h2 := Int.lt_floor_add_one ((-x) * 100 + 1 / 2)
    rw [abs_le]
    constructor <;> linarith
  · have h1 := Int.floor_le (x * 100 + 1 / 2)
    have h2 := Int.lt_floor_add_one (x * 100 + 1 / 2)
    rw [abs_le]
    constructor <;> linarith

theorem toFixedDecimal_nearest (x : ℚ) (m : ℤ) :
    |toFixedDecimal x - x| ≤ |(m : ℚ) / 100 - x| := by
  obtain ⟨n, hn⟩ := toFixedDecimal_hundredths x
  have hc := toFixedDecimal_close x
  by_cases hmn : m = n
  · rw [hn, hmn]
  · have h1 : (1 : ℚ) ≤ |(m : ℚ) - n| := by
      have : (1 : ℤ) ≤ |m - n| := Int.one_le_abs (sub_ne_zero.mpr hmn)
      exact_mod_cast this
    have h2 : |(m : ℚ) / 100 - toFixedDecimal x| = |(m : ℚ) - n| / 100 := by
      rw [hn, ← sub_div, abs_div]
      norm_num
    have h3 : |(m : ℚ) / 100 - toFixedDecimal x|
        ≤ |(m : ℚ) / 100 - x| + |toFixedDecimal x - x| := by
      have := abs_sub_le ((m : ℚ) / 100) x (toFixedDecimal x)
      rwa [abs_sub_comm x (toFixedDecimal x)] at this
    linarith

theorem toFixedDecimal_bounds (x : ℚ) (h0 : 0 ≤ x) (h5 : x ≤ 5) :
    0 ≤ toFixedDecimal x ∧ toFixedDecimal x ≤ 5 := by
  unfold toFixedDecimal
  rw [if_neg (not_lt.mpr h0)]
  constructor
  · apply div_nonneg _ (by norm_num)
    have : (0 : ℤ) ≤ ⌊x * 100 + 1 / 2⌋ := Int.floor_nonneg.mpr (by linarith)
    exact_mod_cast this
  · have h : ⌊x * 100 + 1 / 2⌋ ≤ 500 := by
      have : ⌊x * 100 + 1 / 2⌋ < 501 := Int.floor_lt.mpr (by push_cast; linarith)
      omega
    have hq : ((⌊x * 100 + 1 / 2⌋ : ℤ) : ℚ) ≤ 500 := by exact_mod_cast h
    linarith

theorem toFixedDecimal_of_near (d x η : ℚ) (n : ℤ) (hd : 0 ≤ d) (hclose : |d - x| ≤ η)
    (h1 : (n : ℚ) - 1 / 2 + 100 * η ≤ 100 * x) (h2 : 100 * x + 100 * η < (n : ℚ) + 1 / 2) :
    toFixedDecimal d = (n : ℚ) / 100 := by
  obtain ⟨hlo, hhi⟩ := abs_le.mp hclose
  unfold toFixedDecimal
  rw [if_neg (not_lt.mpr hd)]
  have hfl : ⌊d * 100 + 1 / 2⌋ = n := by
    rw [Int.floor_eq_iff]
    constructor <;> linarith
  rw [hfl]

theorem toFixed2_bounds (x : ℚ) (h0 : 0 ≤ x) (h5 : x ≤ 5) :
    0 ≤ toFixed2 x ∧ toFixed2 x ≤ 5 := by
  obtain ⟨h1, h2⟩ := toFixedDecimal_bounds x h0 h5
  exact ⟨roundDouble_nonneg _ h1,
    by simpa using roundDouble_le_nat _ 5 h1 (by simpa using h2) (by norm_num)⟩

theorem divDouble_bounds (a b : ℚ) (h0 : 0 ≤ a / b) (h5 : a / b ≤ 5) :
    0 ≤ divDouble a b ∧ divDouble a b ≤ 5 :=
  ⟨roundDouble_nonneg _ h0,
    by simpa using roundDouble_le_nat _ 5 h0 (by simpa using h5) (by norm_num)⟩

theorem mulDouble_divDouble_error (a b : ℚ) :
    |mulDouble (divDouble a b) 100 - a / b * 100| ≤ |a / b * 100| / 2 ^ 51 := by
  have h1 := roundDouble_error (a / b)
  have h2 := roundDouble_error (roundDouble (a / b) * 100)
  have h3 : |roundDouble (a / b)| ≤ |a / b| + |a / b| / 2 ^ 53 := by
    have := abs_sub_abs_le_abs_sub (roundDouble (a / b)) (a / b)
    linarith
  have h4 : |roundDouble (a / b) * 100| = |roundDouble (a / b)| * 100 := by
    rw [abs_mul]
    norm_num
  have h5 : |a / b * 100| = |a / b| * 100 := by
    rw [abs_mul]
    norm_num
  have h6 : |roundDouble (a / b) * 100 - a / b * 100| = |roundDouble (a / b) - a / b| * 100 := by
    rw [← sub_mul, abs_mul]
    norm_num
  have h7 := abs_sub_le (roundDouble (roundDouble (a / b) * 100)) (roundDouble (a / b) * 100)
    (a / b * 100)
  have hq : 0 ≤ |a / b| := abs_nonneg _
  unfold mulDouble divDouble
  rw [h4] at h2
  rw [h6] at h7
  rw [h5]
  have hb : |a / b| / 2 ^ 53 * 100 + (|a / b| + |a / b| / 2 ^ 53) * 100 / 2 ^ 53
      ≤ |a / b| * 100 / 2 ^ 51 := by
    have hc : (100 / 2 ^ 53 + (1 + 1 / 2 ^ 53) * 100 / 2 ^ 53 : ℚ) ≤ 100 / 2 ^ 51 := by
      norm_num
    have hm := mul_le_mul_of_nonneg_left hc hq
    calc |a / b| / 2 ^ 53 * 100 + (|a / b| + |a / b| / 2 ^ 53) * 100 / 2 ^ 53
        = |a / b| * (100 / 2 ^ 53 + (1 + 1 / 2 ^ 53) * 100 / 2 ^ 53) := by ring
      _ ≤ |a / b| * (100 / 2 ^ 51) := hm
      _ = |a / b| * 100 / 2 ^ 51 := by ring
  have h8 : |roundDouble (a / b)| * 100 / 2 ^ 53
      ≤ (|a / b| + |a / b| / 2 ^ 53) * 100 / 2 ^ 53 := by
    apply div_le_div_of_nonneg_right _ (by positivity)
    linarith
  linarith

theorem percentage_90_of_100 :
    toFixed2 (mulDouble (divDouble 90 100) 100) = 90 := by
  have h1 : divDouble 90 100 = 8106479329266893 / 9007199254740992 := by
    unfold divDouble
    rw [roundDouble_eval (90 / 100) (-1) (by norm_num [abs_of_pos]) (by norm_num [abs_of_pos])]
    norm_num [roundHalfEven]
  have h2 : mulDouble (8106479329266893 / 9007199254740992) 100 = 90 := by
    unfold mulDouble
    rw [roundDouble_eval ((8106479329266893 / 9007199254740992) * 100) (6) (by norm_num [abs_of_pos]) (by norm_num [abs_of_pos])]
    norm_num [roundHalfEven]
  have h3 : toFixedDecimal (90) = 90 := by norm_num [toFixedDecimal]
  rw [h1, h2, toFixed2, h3, roundDouble_eval (90) (6) (by norm_num [abs_of_pos]) (by norm_num [abs_of_pos])]
  norm_num [roundHalfEven]

theorem percentage_70_of_100 :
    toFixed2 (mulDouble (divDouble 70 100) 100) = 70 := by
  have h1 : divDouble 70 100 = 3152519739159347 / 4503599627370496 := by
    unfold divDouble
    rw [roundDouble_eval (70 / 100) (-1) (by norm_num [abs_of_pos]) (by norm_num [abs_of_pos])]
    norm_num [roundHalfEven]
  have h2 : mulDouble (3152519739159347 / 4503599627370496) 100 = 70 := by
    unfold mulDouble
    rw [roundDouble_eval ((3152519739159347 / 4503599627370496) * 100) (6) (by norm_num [abs_of_pos]) (by norm_num [abs_of_pos])]
    norm_num [roundHalfEven]
  have h3 : toFixedDecimal (70) = 70 := by norm_num [toFixedDecimal]
  rw [h1, h2, toFixed2, h3, roundDouble_eval (70) (6) (by norm_num [abs_of_pos]) (by norm_num [abs_of_pos])]
  norm_num [roundHalfEven]

theorem percentage_50_of_100 :
    toFixed2 (mulDouble (divDouble 50 100) 100) = 50 := by
  have h1 : divDouble 50 100 = 1 / 2 := by
    unfold divDouble
    rw [roundDouble_eval (50 / 100) (-1) (by norm_num [abs_of_pos]) (by norm_num [abs_of_pos])]
    norm_num [roundHalfEven]
  have h2 : mulDouble (1 / 2) 100 = 50 := by
    unfold mulDouble
    rw [roundDouble_eval ((1 / 2) * 100) (5) (by norm_num [abs_of_pos]) (by norm_num [abs_of_pos])]
    norm_num [roundHalfEven]
  have h3 : toFixedDecimal (50) = 50 := by norm_num [toFixedDecimal]
  rw [h1, h2, toFixed2, h3, roundDouble_eval (50) (5) (by norm_num [abs_of_pos]) (by norm_num [abs_of_pos])]
  norm_num [roundHalfEven]

theorem percentage_100_of_100 :
    toFixed2 (mulDouble (divDouble 100 100) 100) = 100 := by
  have h1 : divDouble 100 100 = 1 := by
    unfold divDouble
    rw [roundDouble_eval (100 / 100) (0) (by norm_num [abs_of_pos]) (by norm_num [abs_of_pos])]
    norm_num [roundHalfEven]
  have h2 : mulDouble (1) 100 = 100 := by
    unfold mulDouble
    rw [roundDouble_eval (1 * 100) (6) (by norm_num [abs_of_pos]) (by norm_num [abs_of_pos])]
    norm_num [roundHalfEven]
  have h3 : toFixedDecimal (100) = 100 := by norm_num [toFixedDecimal]
  rw [h1, h2, toFixed2, h3, roundDouble_eval (100) (6) (by norm_num [abs_of_pos]) (by norm_num [abs_of_pos])]
  norm_num [roundHalfEven]

theorem percentage_150_of_200 :
    toFixed2 (mulDouble (divDouble 150 200) 100) = 75 := by
  have h1 : divDouble 150 200 = 3 / 4 := by
    unfold divDouble
    rw [roundDouble_eval (150 / 200) (-1) (by norm_num [abs_of_pos]) (by norm_num [abs_of_pos])]
    norm_num [roundHalfEven]
  have h2 : mulDouble (3 / 4) 100 = 75 := by
    unfold mulDouble
    rw [roundDouble_eval ((3 / 4) * 100) (6) (by norm_num [abs_of_pos]) (by norm_num [abs_of_pos])]
    norm_num [roundHalfEven]
  have h3 : toFixedDecimal (75) = 75 := by norm_num [toFixedDecimal]
  rw [h1, h2, toFixed2, h3, roundDouble_eval (75) (6) (by norm_num [abs_of_pos]) (by norm_num [abs_of_pos])]
  norm_num [roundHalfEven]

theorem percentage_110_of_200 :
    toFixed2 (mulDouble (divDouble 110 200) 100) = 55 := by
  have h1 : divDouble 110 200 = 2476979795053773 / 4503599627370496 := by
    unfold divDouble
    rw [roundDouble_eval (110 / 200) (-1) (by norm_num [abs_of_pos]) (by norm_num [abs_of_pos])]
    norm_num [roundHalfEven]
  have h2 : mulDouble (2476979795053773 / 4503599627370496) 100 = 7740561859543041 / 140737488355328 := by
    unfold mulDouble
    rw [roundDouble_eval ((2476979795053773 / 4503599627370496) * 100) (5) (by norm_num [abs_of_pos]) (by norm_num [abs_of_pos])]
    norm_num [roundHalfEven]
  have h3 : toFixedDecimal (7740561859543041 / 140737488355328) = 55 := by norm_num [toFixedDecimal]
  rw [h1, h2, toFixed2, h3, roundDouble_eval (55) (5) (by norm_num [abs_of_pos]) (by norm_num [abs_of_pos])]
  norm_num [roundHalfEven]

theorem gpa_17_halves_of_2 :
    toFixed2 (divDouble (17 / 2) 2) = 17 / 4 := by
  have h1 : divDouble (17 / 2) 2 = 17 / 4 := by
    unfold divDouble
    rw [roundDouble_eval ((17 / 2) / 2) (2) (by norm_num [abs_of_pos]) (by norm_num [abs_of_pos])]
    norm_num [roundHalfEven]
  have h3 : toFixedDecimal (17 / 4) = 17 / 4 := by norm_num [toFixedDecimal]
  rw [h1, toFixed2, h3, roundDouble_eval (17 / 4) (2) (by norm_num [abs_of_pos]) (by norm_num [abs_of_pos])]
  norm_num [roundHalfEven]

theorem gpa_5_of_2 :
    toFixed2 (divDouble 5 2) = 5 / 2 := by
  have h1 : divDouble 5 2 = 5 / 2 := by
    unfold divDouble
    rw [roundDouble_eval (5 / 2) (1) (by norm_num [abs_of_pos]) (by norm_num [abs_of_pos])]
    norm_num [roundHalfEven]
  have h3 : toFixedDecimal (5 / 2) = 5 / 2 := by norm_num [toFixedDecimal]
  rw [h1, toFixed2, h3, roundDouble_eval (5 / 2) (1) (by norm_num [abs_of_pos]) (by norm_num [abs_of_pos])]
  norm_num [roundHalfEven]

theorem product_87_of_160 :
    mulDouble (divDouble 87 160) 100 = 7652600929320959 / 140737488355328 := by
  have h1 : divDouble 87 160 = 2448832297382707 / 4503599627370496 := by
    unfold divDouble
    rw [roundDouble_eval (87 / 160) (-1) (by norm_num [abs_of_pos]) (by norm_num [abs_of_pos])]
    norm_num [roundHalfEven]
  rw [h1]
  unfold mulDouble
  rw [roundDouble_eval ((2448832297382707 / 4503599627370496) * 100) (5) (by norm_num [abs_of_pos])
    (by norm_num [abs_of_pos])]
  norm_num [roundHalfEven]

theorem percentage_87_of_160 :
    toFixed2 (mulDouble (divDouble 87 160) 100) = roundDouble (5437 / 100) := by
  have h3 : toFixedDecimal (7652600929320959 / 140737488355328) = 5437 / 100 := by
    norm_num [toFixedDecimal]
  rw [product_87_of_160, toFixed2, h3]

theorem quotient_7_halves_of_20 : divDouble (7 / 2) 20 = 3152519739159347 / 18014398509481984 := by
  unfold divDouble
  rw [roundDouble_eval ((7 / 2) / 20) (-3) (by norm_num [abs_of_pos]) (by norm_num [abs_of_pos])]
  norm_num [roundHalfEven]

theorem gpa_7_halves_of_20 :
    toFixed2 (divDouble (7 / 2) 20) = roundDouble (17 / 100) := by
  have h3 : toFixedDecimal (3152519739159347 / 18014398509481984) = 17 / 100 := by
    norm_num [toFixedDecimal]
  rw [quotient_7_halves_of_20, toFixed2, h3]

theorem roundDouble_5437 : roundDouble (5437 / 100) = 7651897241879183 / 140737488355328 := by
  rw [roundDouble_eval (5437 / 100) (5) (by norm_num [abs_of_pos]) (by norm_num [abs_of_pos])]
  norm_num [roundHalfEven]

theorem roundDouble_5438 : roundDouble (5438 / 100) = 7653304616762737 / 140737488355328 := by
  rw [roundDouble_eval (5438 / 100) (5) (by norm_num [abs_of_pos]) (by norm_num [abs_of_pos])]
  norm_num [roundHalfEven]

theorem roundDouble_17 : roundDouble (17 / 100) = 6124895493223875 / 36028797018963968 := by
  rw [roundDouble_eval (17 / 100) (-3) (by norm_num [abs_of_pos]) (by norm_num [abs_of_pos])]
  norm_num [roundHalfEven]

theorem roundDouble_18 : roundDouble (18 / 100) = 3242591731706757 / 18014398509481984 := by
  rw [roundDouble_eval (18 / 100) (-3) (by norm_num [abs_of_pos]) (by norm_num [abs_of_pos])]
  norm_num [roundHalfEven]

theorem percentage_9999_of_20000 :
    toFixed2 (mulDouble (divDouble 9999 20000) 100) = roundDouble (4999 / 100) := by
  have h1 : divDouble 9999 20000 = 4503149267407759 / 9007199254740992 := by
    unfold divDouble
    rw [roundDouble_eval (9999 / 20000) (-2) (by norm_num [abs_of_pos]) (by norm_num [abs_of_pos])]
    norm_num [roundHalfEven]
  have h2 : mulDouble (4503149267407759 / 9007199254740992) 100 = 7036170730324623 / 140737488355328 := by
    unfold mulDouble
    rw [roundDouble_eval ((4503149267407759 / 9007199254740992) * 100) (5) (by norm_num [abs_of_pos])
      (by norm_num [abs_of_pos])]
    norm_num [roundHalfEven]
  have h3 : toFixedDecimal (7036170730324623 / 140737488355328) = 4999 / 100 := by
    norm_num [toFixedDecimal]
  rw [h1, h2, toFixed2, h3]

theorem roundDouble_4999 : roundDouble (4999 / 100) = 7035467042882847 / 140737488355328 := by
  rw [roundDouble_eval (4999 / 100) (5) (by norm_num [abs_of_pos]) (by norm_num [abs_of_pos])]
  norm_num [roundHalfEven]

theorem derivedSubject_gradePoint_bounds (sub : SubjectMark) :
    0 ≤ (derivedSubject sub).gradePoint.getD 0 ∧
    (derivedSubject sub).gradePoint.getD 0 ≤ 5 := by
  unfold derivedSubject forEachBody
  by_cases h : sub.isAbsent = true
  · simp [h]
  · simp only [h, Bool.false_eq_true, if_false, Option.getD_some, gradeFromPct, ge_iff_le]
    split_ifs <;> norm_num

theorem preSave_gpa_eq (doc : MarkDoc) :
    (preSave doc).gpa
      = if 0 < doc.subjects.length then
          toFixed2 (divDouble
            (doc.subjects.map (fun s => (derivedSubject s).gradePoint.getD 0)).sum
            (doc.subjects.length : ℚ))
        else 0 := by
  simp [preSave, forEachSubjects_gpSum, forEachSubjects_subjects]

/-! ## Grade helper: properties -/

/-- C1: `gradeFromPct` is the top-down reading of the fixed table (first
matching row, `F` when no threshold is reached): it agrees with `classify`
everywhere, its value is on each band the pair of that band, it is always one
of the seven distinct pairs, and each threshold itself gets the higher
grade. -/
theorem gradeFromPct_first_match :
    (∀ p : ℚ, gradeFromPct p = classify p) ∧
    (∀ p : ℚ,
      (80 ≤ p → gradeFromPct p = ⟨"A+", 5⟩) ∧
      (70 ≤ p → p < 80 → gradeFromPct p = ⟨"A", 4⟩) ∧
      (60 ≤ p → p < 70 → gradeFromPct p = ⟨"A-", 7 / 2⟩) ∧
      (50 ≤ p → p < 60 → gradeFromPct p = ⟨"B", 3⟩) ∧
      (40 ≤ p → p < 50 → gradeFromPct p = ⟨"C", 2⟩) ∧
      (33 ≤ p → p < 40 → gradeFromPct p = ⟨"D", 1⟩) ∧
      (p < 33 → gradeFromPct p = ⟨"F", 0⟩)) ∧
    (∀ p : ℚ, gradeFromPct p ∈ gradePairs) ∧
    gradePairs.Nodup ∧
    gradeFromPct 80 = ⟨"A+", 5⟩ ∧ gradeFromPct 70 = ⟨"A", 4⟩ ∧
    gradeFromPct 60 = ⟨"A-", 7 / 2⟩ ∧ gradeFromPct 50 = ⟨"B", 3⟩ ∧
    gradeFromPct 40 = ⟨"C", 2⟩ ∧ gradeFromPct 33 = ⟨"D", 1⟩ := by
  refine ⟨?_, ?_, ?_, ?_, ?_, ?_, ?_, ?_, ?_, ?_⟩
  · intro p
    simp only [gradeFromPct, classify, gradeTable, List.find?, ge_iff_le]
    by_cases h80 : 80 ≤ p
    · simp [h80]
    by_cases h70 : 70 ≤ p
    · simp [h80, h70]
    by_cases h60 : 60 ≤ p
    · simp [h80, h70, h60]
    by_cases h50 : 50 ≤ p
    · simp [h80, h70, h60, h50]
    by_cases h40 : 40 ≤ p
    · simp [h80, h70, h60, h50, h40]
    by_cases h33 : 33 ≤ p
    · simp [h80, h70, h60, h50, h40, h33]
    · simp [h80, h70, h60, h50, h40, h33]
  · intro p
    refine ⟨?_, ?_, ?_, ?_, ?_, ?_, ?_⟩ <;> intros <;>
      simp only [gradeFromPct, ge_iff_le] <;> split_ifs <;>
      first | rfl | (exfalso; linarith)
  · intro p
    simp only [gradeFromPct, gradePairs, ge_iff_le]
    split_ifs <;> simp
  · simp [gradePairs]
  all_goals norm_num [gradeFromPct]

/-- C2: `gradeFromPct` is monotone: a larger percentage never gets a smaller
grade point. -/
theorem gradeFromPct_mono (p q : ℚ) (h : p ≤ q) :
    (gradeFromPct p).gradePoint ≤ (gradeFromPct q).gradePoint := by
  simp only [gradeFromPct, ge_iff_le]
  split_ifs <;> first | (norm_num; done) | (exfalso; linarith)

/-- Witness of C2 at the percentages 45 and 72. -/
theorem gradeFromPct_mono_witness :
    (45 : ℚ) ≤ 72 ∧
    (gradeFromPct 45).gradePoint ≤ (gradeFromPct 72).gradePoint :=
  ⟨by norm_num, gradeFromPct_mono 45 72 (by norm_num)⟩

/-- C3, as the claim states it, fails: the percentage 101 is greater than 100
and gets `A+` with grade point 5, not `F`. -/
theorem gradeFromPct_over_100_not_F :
    ¬ (∀ p : ℚ, (p < 0 ∨ 100 < p) → gradeFromPct p = ⟨"F", 0⟩) := by
  intro h
  have h1 := h 101 (Or.inr (by norm_num))
  norm_num [gradeFromPct] at h1

/-- C3, amended: `gradeFromPct` has a value at every percentage; a negative
percentage gets `F` with grade point 0, a percentage greater than 100 gets
`A+` with grade point 5. -/
theorem gradeFromPct_out_of_range (p : ℚ) :
    (∃ g : GradeResult, gradeFromPct p = g) ∧
    (p < 0 → gradeFromPct p = ⟨"F", 0⟩) ∧
    (100 < p → gradeFromPct p = ⟨"A+", 5⟩) := by
  refine ⟨⟨_, rfl⟩, ?_, ?_⟩ <;> intro h <;>
    simp only [gradeFromPct, ge_iff_le] <;> split_ifs <;>
    first | rfl | (exfalso; linarith)

/-- Witness of the amended C3 at the percentages -1 and 101. -/
theorem gradeFromPct_out_of_range_witness :
    gradeFromPct (-1) = ⟨"F", 0⟩ ∧ gradeFromPct 101 = ⟨"A+", 5⟩ :=
  ⟨(gradeFromPct_out_of_range (-1)).2.1 (by norm_num),
   (gradeFromPct_out_of_range 101).2.2 (by norm_num)⟩

/-! ## Pre-save hook: per-subject properties -/

/-- C4: for an absent subject the callback writes totalObtained 0, grade `F`
and gradePoint 0 over whatever the caller supplied, writes the computed full
marks into totalFullMarks, adds the full marks to the running full-marks
total and leaves the running obtained total alone; at record level, the saved
document has that sub-document in the same place, its totalFullMarks is that
of the document without the subject plus the full marks, and its
totalObtained is that of the document without the subject. -/
theorem absent_subject_forced (t : Totals) (sub : SubjectMark)
    (doc : MarkDoc) (before after : List SubjectMark)
    (hAbsent : sub.isAbsent = true)
    (hDoc : doc.subjects = before ++ sub :: after) :
    (forEachBody t sub).2.totalObtained = some 0 ∧
    (forEachBody t sub).2.grade = "F" ∧
    (forEachBody t sub).2.gradePoint = some 0 ∧
    (forEachBody t sub).2.totalFullMarks = some (subjectFull sub) ∧
    (forEachBody t sub).1.totalFullMarks = t.totalFullMarks + subjectFull sub ∧
    (forEachBody t sub).1.totalObtained = t.totalObtained ∧
    (forEachBody t sub).1.gpSum = t.gpSum ∧
    (preSave doc).subjects
      = before.map derivedSubject ++ (forEachBody t sub).2 :: after.map derivedSubject ∧
    (preSave doc).totalFullMarks
      = (preSave { doc with subjects := before ++ after }).totalFullMarks + subjectFull sub ∧
    (preSave doc).totalObtained
      = (preSave { doc with subjects := before ++ after }).totalObtained := by
  have hd : derivedSubject sub
      = { sub with totalFullMarks := some (subjectFull sub), totalObtained := some 0,
                   grade := "F", gradePoint := some 0 } := by
    simp [derivedSubject, forEachBody, hAbsent]
  refine ⟨?_, ?_, ?_, ?_, ?_, ?_, ?_, ?_, ?_, ?_⟩
  · simp [forEachBody, hAbsent]
  · simp [forEachBody, hAbsent]
  · simp [forEachBody, hAbsent]
  · simp [forEachBody, hAbsent]
  · simp [forEachBody, hAbsent]
  · simp [forEachBody, hAbsent]
  · simp [forEachBody, hAbsent]
  · rw [preSave_subjects, hDoc, forEachBody_subject]
    simp
  · rw [preSave_totalFullMarks, preSave_totalFullMarks, hDoc]
    simp [hd]
    ring
  · rw [preSave_totalObtained, preSave_totalObtained, hDoc]
    simp [hd]

/-- C5: for every subject, absent or not, the derived totalFullMarks is the
sum of the three full-marks components, a missing one counting 0, when that
sum is not 0, and 100 when it is 0; it is never 0. -/
theorem subject_totalFullMarks (t : Totals) (sub : SubjectMark) :
    (forEachBody t sub).2.totalFullMarks
      = some (if sub.theoryFullMarks.getD 0 + sub.practicalFullMarks.getD 0
                  + sub.mcqFullMarks.getD 0 = 0 then 100
              else sub.theoryFullMarks.getD 0 + sub.practicalFullMarks.getD 0
                  + sub.mcqFullMarks.getD 0) ∧
    (forEachBody t sub).2.totalFullMarks ≠ some 0 ∧
    (forEachBody t sub).2.totalFullMarks ≠ none := by
  have hf : (forEachBody t sub).2.totalFullMarks = some (subjectFull sub) := by
    unfold forEachBody
    by_cases h : sub.isAbsent = true <;> simp [h]
  have hs : subjectFull sub
      = (if sub.theoryFullMarks.getD 0 + sub.practicalFullMarks.getD 0
                  + sub.mcqFullMarks.getD 0 = 0 then 100
              else sub.theoryFullMarks.getD 0 + sub.practicalFullMarks.getD 0
                  + sub.mcqFullMarks.getD 0) := by
    simp only [subjectFull, jsOr_zero]
    simp [jsOr]
  refine ⟨by rw [hf, hs], ?_, by rw [hf]; simp⟩
  rw [hf, hs]
  split_ifs with h0
  · norm_num
  · simpa using h0

/-- C6: for a subject that is not absent the derived totalObtained is the sum
of the three obtained components, a missing one counting 0, and the derived
grade and gradePoint are those of `gradeFromPct` at
totalObtained / totalFullMarks * 100, the percentage being 0 when the derived
full marks are not positive. -/
theorem present_subject_derived (t : Totals) (sub : SubjectMark)
    (hPresent : sub.isAbsent = false) :
    ∃ obtained full : ℚ,
      (forEachBody t sub).2.totalObtained = some obtained ∧
      (forEachBody t sub).2.totalFullMarks = some full ∧
      obtained = sub.theoryObtained.getD 0 + sub.practicalObtained.getD 0
                  + sub.mcqObtained.getD 0 ∧
      (forEachBody t sub).2.grade
        = (gradeFromPct (if 0 < full then obtained / full * 100 else 0)).grade ∧
      (forEachBody t sub).2.gradePoint
        = some (gradeFromPct (if 0 < full then obtained / full * 100 else 0)).gradePoint := by
  refine ⟨subjectObtained sub, subjectFull sub, ?_, ?_, ?_, ?_, ?_⟩
  · simp [forEachBody, hPresent]
  · simp [forEachBody, hPresent]
  · simp [subjectObtained, parseFloat, jsOr_zero]
  · simp [forEachBody, hPresent, subjectPct]
  · simp [forEachBody, hPresent, subjectPct]

/-! ## Pre-save hook: record-level properties -/

/-- C7: after the hook the record's totalObtained is the sum, in input order,
of the derived totalObtained of its subjects (absent ones included) and its
totalFullMarks the sum of their derived totalFullMarks; every derived total
is a number; the subjects are the input subjects in the same order and
number, each with its raw fields untouched. -/
theorem preSave_totals (doc : MarkDoc) :
    (preSave doc).totalObtained
      = ((preSave doc).subjects.map (fun s => s.totalObtained.getD 0)).sum ∧
    (preSave doc).totalFullMarks
      = ((preSave doc).subjects.map (fun s => s.totalFullMarks.getD 0)).sum ∧
    (∀ s ∈ (preSave doc).subjects, s.totalObtained ≠ none ∧ s.totalFullMarks ≠ none) ∧
    (preSave doc).subjects.length = doc.subjects.length ∧
    (preSave doc).subjects = doc.subjects.map derivedSubject ∧
    (∀ sub : SubjectMark,
      (derivedSubject sub).subjectName = sub.subjectName ∧
      (derivedSubject sub).subjectCode = sub.subjectCode ∧
      (derivedSubject sub).theoryFullMarks = sub.theoryFullMarks ∧
      (derivedSubject sub).theoryObtained = sub.theoryObtained ∧
      (derivedSubject sub).practicalFullMarks = sub.practicalFullMarks ∧
      (derivedSubject sub).practicalObtained = sub.practicalObtained ∧
      (derivedSubject sub).mcqFullMarks = sub.mcqFullMarks ∧
      (derivedSubject sub).mcqObtained = sub.mcqObtained ∧
      (derivedSubject sub).isAbsent = sub.isAbsent ∧
      (derivedSubject sub).remarks = sub.remarks) := by
  refine ⟨?_, ?_, ?_, ?_, preSave_subjects doc, ?_⟩
  · rw [preSave_totalObtained, preSave_subjects, List.map_map]
    rfl
  · rw [preSave_totalFullMarks, preSave_subjects, List.map_map]
    rfl
  · intro s hs
    rw [preSave_subjects, List.mem_map] at hs
    obtain ⟨sub, _, rfl⟩ := hs
    unfold derivedSubject forEachBody
    by_cases h : sub.isAbsent = true <;> simp [h]
  · rw [preSave_subjects, List.length_map]
  · intro sub
    unfold derivedSubject forEachBody
    by_cases h : sub.isAbsent = true <;> simp [h]

theorem tieSubject_saved :
    (preSave (sampleDoc [tieSubject])).totalObtained = 87 ∧
    (preSave (sampleDoc [tieSubject])).totalFullMarks = 160 ∧
    (preSave (sampleDoc [tieSubject])).percentage = roundDouble (5437 / 100) := by
  refine ⟨?_, ?_, ?_⟩ <;>
    norm_num [preSave, forEachSubjects, forEachBody, sampleDoc, tieSubject, scoredSubject,
      subjectFull, subjectObtained, parseFloat, jsOr, percentage_87_of_160]

theorem gpaTieSubjects_saved :
    ((preSave (sampleDoc gpaTieSubjects)).subjects.map (fun s => s.gradePoint.getD 0)).sum
      = 7 / 2 ∧
    (preSave (sampleDoc gpaTieSubjects)).subjects.length = 20 ∧
    (preSave (sampleDoc gpaTieSubjects)).gpa = roundDouble (17 / 100) := by
  refine ⟨?_, ?_, ?_⟩ <;>
    norm_num [preSave, forEachSubjects, forEachBody, sampleDoc, gpaTieSubjects, scoredSubject,
      List.replicate, subjectFull, subjectObtained, subjectPct, parseFloat, jsOr, gradeFromPct,
      gpa_7_halves_of_20]

theorem halfSubject_saved :
    (preSave (sampleDoc [halfSubject])).totalObtained = 9999 ∧
    (preSave (sampleDoc [halfSubject])).totalFullMarks = 20000 ∧
    (preSave (sampleDoc [halfSubject])).percentage = roundDouble (4999 / 100) ∧
    (preSave (sampleDoc [halfSubject])).grade = "C" := by
  refine ⟨?_, ?_, ?_, ?_⟩ <;>
    norm_num [preSave, forEachSubjects, forEachBody, sampleDoc, halfSubject, scoredSubject,
      subjectFull, subjectObtained, parseFloat, jsOr, percentage_9999_of_20000,
      roundDouble_4999, gradeFromPct]

/-- C8, as the claim states it, fails: a record with 87 of 160 marks has the
exact percentage 54.375, which rounded to 2 decimal places is 54.38; the hook
forms the quotient and the product in binary64, gets a value below 54.375,
and stores 54.37. In the same way 9999 of 20000 marks, exactly 49.995, are
stored as 49.99 with grade "C", where 50.00 has grade "B". -/
theorem percentage_tie_stored_below :
    (preSave (sampleDoc [halfSubject])).totalObtained = 9999 ∧
    (preSave (sampleDoc [halfSubject])).totalFullMarks = 20000 ∧
    toFixedDecimal ((9999 : ℚ) / 20000 * 100) = 50 ∧
    (preSave (sampleDoc [halfSubject])).percentage = roundDouble (4999 / 100) ∧
    (preSave (sampleDoc [halfSubject])).percentage < 50 - 1 / 200 ∧
    (preSave (sampleDoc [halfSubject])).grade = "C" ∧
    (gradeFromPct (toFixedDecimal ((9999 : ℚ) / 20000 * 100))).grade = "B" ∧
    (preSave (sampleDoc [tieSubject])).totalObtained = 87 ∧
    (preSave (sampleDoc [tieSubject])).totalFullMarks = 160 ∧
    (87 : ℚ) / 160 * 100 = 54375 / 1000 ∧
    toFixedDecimal ((87 : ℚ) / 160 * 100) = 5438 / 100 ∧
    mulDouble (divDouble 87 160) 100 < (87 : ℚ) / 160 * 100 ∧
    (preSave (sampleDoc [tieSubject])).percentage = roundDouble (5437 / 100) ∧
    (preSave (sampleDoc [tieSubject])).percentage ≠ roundDouble (5438 / 100) ∧
    (preSave (sampleDoc [tieSubject])).percentage < 5438 / 100 - 1 / 200 := by
  obtain ⟨h1, h2, h3⟩ := tieSubject_saved
  obtain ⟨g1, g2, g3, g4⟩ := halfSubject_saved
  refine ⟨g1, g2, by norm_num [toFixedDecimal], g3, ?_, g4,
    by norm_num [toFixedDecimal, gradeFromPct],
    h1, h2, by norm_num, by norm_num [toFixedDecimal], ?_, h3, ?_, ?_⟩
  · rw [g3, roundDouble_4999]
    norm_num
  · rw [product_87_of_160]
    norm_num
  · rw [h3, roundDouble_5437, roundDouble_5438]
    norm_num
  · rw [h3, roundDouble_5437]
    norm_num

/-- C8, amended: after the hook the record's percentage is, when
totalFullMarks is positive, what `parseFloat` reads from `toFixed(2)` of the
binary64 value of (totalObtained / totalFullMarks) * 100: the binary64 value
of the whole number of hundredths nearest to that product. The product is
within a factor 2 ^ -51 of the exact value, so the percentage is the exact
value rounded to 2 decimal places whenever the exact value is further than
that from a rounding tie; on a tie the lower neighbour can be stored, as for
87 of 160. The percentage is 0 when totalFullMarks is not positive, in
particular for a record without subjects. -/
theorem preSave_percentage (doc : MarkDoc) :
    (preSave doc).percentage
      = (if 0 < (preSave doc).totalFullMarks then
           toFixed2 (mulDouble
             (divDouble (preSave doc).totalObtained (preSave doc).totalFullMarks) 100)
         else 0) ∧
    (0 < (preSave doc).totalFullMarks →
      (∃ n : ℤ, (preSave doc).percentage = roundDouble ((n : ℚ) / 100) ∧
        ∀ m : ℤ,
          |(n : ℚ) / 100 - mulDouble
              (divDouble (preSave doc).totalObtained (preSave doc).totalFullMarks) 100|
            ≤ |(m : ℚ) / 100 - mulDouble
              (divDouble (preSave doc).totalObtained (preSave doc).totalFullMarks) 100|) ∧
      |mulDouble (divDouble (preSave doc).totalObtained (preSave doc).totalFullMarks) 100
          - (preSave doc).totalObtained / (preSave doc).totalFullMarks * 100|
        ≤ |(preSave doc).totalObtained / (preSave doc).totalFullMarks * 100| / 2 ^ 51 ∧
      (∀ n : ℤ, 0 ≤ (preSave doc).totalObtained →
        (n : ℚ) - 1 / 2
            + 100 * ((preSave doc).totalObtained / (preSave doc).totalFullMarks * 100 / 2 ^ 51)
          ≤ 100 * ((preSave doc).totalObtained / (preSave doc).totalFullMarks * 100) →
        100 * ((preSave doc).totalObtained / (preSave doc).totalFullMarks * 100)
            + 100 * ((preSave doc).totalObtained / (preSave doc).totalFullMarks * 100 / 2 ^ 51)
          < (n : ℚ) + 1 / 2 →
        toFixedDecimal ((preSave doc).totalObtained / (preSave doc).totalFullMarks * 100)
          = (n : ℚ) / 100 ∧
        (preSave doc).percentage = roundDouble ((n : ℚ) / 100))) ∧
    (¬ 0 < (preSave doc).totalFullMarks → (preSave doc).percentage = 0) ∧
    (doc.subjects = [] → (preSave doc).percentage = 0) ∧
    (preSave (sampleDoc [tieSubject])).percentage = roundDouble (5437 / 100) := by
  have hp : (preSave doc).percentage
      = (if 0 < (preSave doc).totalFullMarks then
           toFixed2 (mulDouble
             (divDouble (preSave doc).totalObtained (preSave doc).totalFullMarks) 100)
         else 0) := by
    simp [preSave]
  refine ⟨hp, ?_, ?_, ?_, tieSubject_saved.2.2⟩
  · intro hpos
    rw [hp, if_pos hpos]
    refine ⟨?_, mulDouble_divDouble_error _ _, ?_⟩
    · obtain ⟨n, hn⟩ := toFixedDecimal_hundredths (mulDouble
        (divDouble (preSave doc).totalObtained (preSave doc).totalFullMarks) 100)
      refine ⟨n, by rw [toFixed2, hn], ?_⟩
      intro m
      rw [← hn]
      exact toFixedDecimal_nearest _ m
    · intro n h0 h1 h2
      have hx : 0 ≤ (preSave doc).totalObtained / (preSave doc).totalFullMarks :=
        div_nonneg h0 hpos.le
      have hx100 : 0 ≤ (preSave doc).totalObtained / (preSave doc).totalFullMarks * 100 :=
        mul_nonneg hx (by norm_num)
      have hd : 0 ≤ mulDouble
          (divDouble (preSave doc).totalObtained (preSave doc).totalFullMarks) 100 :=
        roundDouble_nonneg _ (mul_nonneg (roundDouble_nonneg _ hx) (by norm_num))
      have herr := mulDouble_divDouble_error (preSave doc).totalObtained
        (preSave doc).totalFullMarks
      rw [abs_of_nonneg hx100] at herr
      have hη : 0 ≤ (preSave doc).totalObtained / (preSave doc).totalFullMarks * 100 / 2 ^ 51 :=
        div_nonneg hx100 (by positivity)
      constructor
      · exact toFixedDecimal_of_near _ _ _ n hx100 (by simpa using hη) h1 h2
      · rw [toFixed2, toFixedDecimal_of_near _ _ _ n hd herr h1 h2]
  · intro hneg
    rw [hp, if_neg hneg]
  · intro hnil
    have ht : (preSave doc).totalFullMarks = 0 := by
      rw [preSave_totalFullMarks, hnil]
      rfl
    rw [hp, ht]
    simp

/-- C9, as the claim states it, fails: for twenty subjects with the grade
points 3.5, 0, ..., 0 the mean is exactly 0.175, which rounded to 2 decimal
places is 0.18; the binary64 quotient lies below 0.175 and the hook stores
0.17. -/
theorem gpa_tie_stored_below :
    ((preSave (sampleDoc gpaTieSubjects)).subjects.map (fun s => s.gradePoint.getD 0)).sum
      = 7 / 2 ∧
    (preSave (sampleDoc gpaTieSubjects)).subjects.length = 20 ∧
    (7 / 2 : ℚ) / 20 = 175 / 1000 ∧
    toFixedDecimal ((7 / 2 : ℚ) / 20) = 18 / 100 ∧
    divDouble (7 / 2) 20 < (7 / 2 : ℚ) / 20 ∧
    (preSave (sampleDoc gpaTieSubjects)).gpa = roundDouble (17 / 100) ∧
    (preSave (sampleDoc gpaTieSubjects)).gpa ≠ roundDouble (18 / 100) ∧
    (preSave (sampleDoc gpaTieSubjects)).gpa < 18 / 100 - 1 / 200 := by
  obtain ⟨h1, h2, h3⟩ := gpaTieSubjects_saved
  refine ⟨h1, h2, by norm_num, by norm_num [toFixedDecimal], ?_, h3, ?_, ?_⟩
  · rw [quotient_7_halves_of_20]
    norm_num
  · rw [h3, roundDouble_17, roundDouble_18]
    norm_num
  · rw [h3, roundDouble_17]
    norm_num

/-- C9, amended: after the hook the record's gpa is, when there are subjects,
what `parseFloat` reads from `toFixed(2)` of the binary64 quotient of the sum
of the derived gradePoint of the subjects by their number: the binary64 value
of the whole number of hundredths nearest to that quotient. An absent subject
carries gradePoint 0 and counts in the divisor. The quotient is within a
factor 2 ^ -53 of the exact mean, so the gpa is the exact mean rounded to 2
decimal places whenever the mean is further than that from a rounding tie; on
a tie the lower neighbour can be stored, as for 3.5 over twenty subjects. The
gpa is 0 when there are no subjects, and it lies between 0 and 5. -/
theorem preSave_gpa (doc : MarkDoc) :
    (preSave doc).gpa
      = (if (preSave doc).subjects = [] then 0
         else toFixed2 (divDouble
           ((preSave doc).subjects.map (fun s => s.gradePoint.getD 0)).sum
           ((preSave doc).subjects.length : ℚ))) ∧
    (∀ s ∈ (preSave doc).subjects,
      s.gradePoint ≠ none ∧ (s.isAbsent = true → s.gradePoint = some 0)) ∧
    (preSave doc).subjects.length = doc.subjects.length ∧
    ((preSave doc).subjects ≠ [] →
      (∃ n : ℤ, (preSave doc).gpa = roundDouble ((n : ℚ) / 100) ∧
        ∀ m : ℤ,
          |(n : ℚ) / 100 - divDouble
              ((preSave doc).subjects.map (fun s => s.gradePoint.getD 0)).sum
              ((preSave doc).subjects.length : ℚ)|
            ≤ |(m : ℚ) / 100 - divDouble
              ((preSave doc).subjects.map (fun s => s.gradePoint.getD 0)).sum
              ((preSave doc).subjects.length : ℚ)|) ∧
      |divDouble ((preSave doc).subjects.map (fun s => s.gradePoint.getD 0)).sum
            ((preSave doc).subjects.length : ℚ)
          - ((preSave doc).subjects.map (fun s => s.gradePoint.getD 0)).sum
              / ((preSave doc).subjects.length : ℚ)|
        ≤ ((preSave doc).subjects.map (fun s => s.gradePoint.getD 0)).sum
              / ((preSave doc).subjects.length : ℚ) / 2 ^ 53 ∧
      (∀ n : ℤ,
        (n : ℚ) - 1 / 2
            + 100 * (((preSave doc).subjects.map (fun s => s.gradePoint.getD 0)).sum
                / ((preSave doc).subjects.length : ℚ) / 2 ^ 53)
          ≤ 100 * (((preSave doc).subjects.map (fun s => s.gradePoint.getD 0)).sum
                / ((preSave doc).subjects.length : ℚ)) →
        100 * (((preSave doc).subjects.map (fun s => s.gradePoint.getD 0)).sum
                / ((preSave doc).subjects.length : ℚ))
            + 100 * (((preSave doc).subjects.map (fun s => s.gradePoint.getD 0)).sum
                / ((preSave doc).subjects.length : ℚ) / 2 ^ 53)
          < (n : ℚ) + 1 / 2 →
        toFixedDecimal (((preSave doc).subjects.map (fun s => s.gradePoint.getD 0)).sum
            / ((preSave doc).subjects.length : ℚ)) = (n : ℚ) / 100 ∧
        (preSave doc).gpa = roundDouble ((n : ℚ) / 100))) ∧
    0 ≤ (preSave doc).gpa ∧ (preSave doc).gpa ≤ 5 ∧
    (preSave (sampleDoc gpaTieSubjects)).gpa = roundDouble (17 / 100) := by
  have hsum : ((preSave doc).subjects.map (fun s => s.gradePoint.getD 0)).sum
      = (doc.subjects.map (fun s => (derivedSubject s).gradePoint.getD 0)).sum := by
    rw [preSave_subjects, List.map_map]
    rfl
  have hlen : (preSave doc).subjects.length = doc.subjects.length := by
    rw [preSave_subjects, List.length_map]
  have hnil : (preSave doc).subjects = [] ↔ doc.subjects = [] := by
    rw [preSave_subjects, List.map_eq_nil_iff]
  have hg : (preSave doc).gpa
      = (if (preSave doc).subjects = [] then 0
         else toFixed2 (divDouble
           ((preSave doc).subjects.map (fun s => s.gradePoint.getD 0)).sum
           ((preSave doc).subjects.length : ℚ))) := by
    rw [preSave_gpa_eq, hsum, hlen]
    by_cases he : doc.subjects = []
    · simp [he, hnil]
    · have hpos : 0 < doc.subjects.length := List.length_pos.mpr he
      simp [he, hnil, hpos]
  have hlo : 0 ≤ (doc.subjects.map (fun s => (derivedSubject s).gradePoint.getD 0)).sum := by
    apply List.sum_nonneg
    intro x hx
    rw [List.mem_map] at hx
    obtain ⟨s, _, rfl⟩ := hx
    exact (derivedSubject_gradePoint_bounds s).1
  have hhi : (doc.subjects.map (fun s => (derivedSubject s).gradePoint.getD 0)).sum
      ≤ (doc.subjects.length : ℚ) * 5 := by
    have h := List.sum_le_card_nsmul
      (doc.subjects.map (fun s => (derivedSubject s).gradePoint.getD 0)) (5 : ℚ)
      (by
        intro x hx
        rw [List.mem_map] at hx
        obtain ⟨s, _, rfl⟩ := hx
        exact (derivedSubject_gradePoint_bounds s).2)
    simpa [nsmul_eq_mul] using h
  have hmean : (preSave doc).subjects ≠ [] →
      0 ≤ ((preSave doc).subjects.map (fun s => s.gradePoint.getD 0)).sum
            / ((preSave doc).subjects.length : ℚ) ∧
      ((preSave doc).subjects.map (fun s => s.gradePoint.getD 0)).sum
            / ((preSave doc).subjects.length : ℚ) ≤ 5 := by
    intro hne
    have he : doc.subjects ≠ [] := fun h => hne (hnil.mpr h)
    have hpos : (0 : ℚ) < (doc.subjects.length : ℚ) := by
      exact_mod_cast List.length_pos.mpr he
    rw [hsum, hlen]
    refine ⟨div_nonneg hlo hpos.le, ?_⟩
    rw [div_le_iff₀ hpos]
    linarith
  have hb : 0 ≤ (preSave doc).gpa ∧ (preSave doc).gpa ≤ 5 := by
    rw [hg]
    by_cases he : (preSave doc).subjects = []
    · simp [he]
    · rw [if_neg he]
      obtain ⟨h0, h5⟩ := hmean he
      obtain ⟨hd0, hd5⟩ := divDouble_bounds _ _ h0 h5
      exact toFixed2_bounds _ hd0 hd5
  refine ⟨hg, ?_, hlen, ?_, hb.1, hb.2, gpaTieSubjects_saved.2.2⟩
  · intro s hs
    rw [preSave_subjects, List.mem_map] at hs
    obtain ⟨sub, _, rfl⟩ := hs
    unfold derivedSubject forEachBody
    by_cases h : sub.isAbsent = true <;> simp [h]
  · intro hne
    obtain ⟨h0, h5⟩ := hmean hne
    have herr := roundDouble_error
      (((preSave doc).subjects.map (fun s => s.gradePoint.getD 0)).sum
        / ((preSave doc).subjects.length : ℚ))
    rw [abs_of_nonneg h0] at herr
    rw [hg, if_neg hne]
    refine ⟨?_, herr, ?_⟩
    · obtain ⟨n, hn⟩ := toFixedDecimal_hundredths (divDouble
        ((preSave doc).subjects.map (fun s => s.gradePoint.getD 0)).sum
        ((preSave doc).subjects.length : ℚ))
      refine ⟨n, by rw [toFixed2, hn], ?_⟩
      intro m
      rw [← hn]
      exact toFixedDecimal_nearest _ m
    · intro n h1 h2
      have hη : 0 ≤ ((preSave doc).subjects.map (fun s => s.gradePoint.getD 0)).sum
          / ((preSave doc).subjects.length : ℚ) / 2 ^ 53 := div_nonneg h0 (by positivity)
      constructor
      · exact toFixedDecimal_of_near _ _ _ n h0 (by simpa using hη) h1 h2
      · rw [toFixed2,
          toFixedDecimal_of_near _ _ _ n (divDouble_bounds _ _ h0 h5).1 herr h1 h2]

/-- C10: after the hook the record-level grade is the grade `gradeFromPct`
gives for the stored, rounded percentage; two saved records with the same
percentage have the same grade whatever their subjects and subject grades. -/
theorem preSave_grade (doc : MarkDoc) :
    (preSave doc).grade = (gradeFromPct (preSave doc).percentage).grade ∧
    (∀ other : MarkDoc, (preSave other).percentage = (preSave doc).percentage →
      (preSave other).grade = (preSave doc).grade) := by
  have h : ∀ d : MarkDoc, (preSave d).grade = (gradeFromPct (preSave d).percentage).grade := by
    intro d
    simp [preSave]
  refine ⟨h doc, ?_⟩
  intro other hp
  rw [h other, h doc, hp]

/-! ## Witnesses -/

/-- Witness of C4: the sample subject marked absent, alone in a record. -/
theorem absent_subject_forced_witness :
    (sampleSubject true).isAbsent = true ∧
    (forEachBody zeroTotals (sampleSubject true)).2.totalObtained = some 0 ∧
    (forEachBody zeroTotals (sampleSubject true)).2.grade = "F" ∧
    (forEachBody zeroTotals (sampleSubject true)).2.gradePoint = some 0 ∧
    (forEachBody zeroTotals (sampleSubject true)).2.totalFullMarks
      = some (subjectFull (sampleSubject true)) :=
  have h := absent_subject_forced zeroTotals (sampleSubject true)
    (sampleDoc [sampleSubject true]) [] [] rfl rfl
  ⟨rfl, h.1, h.2.1, h.2.2.1, h.2.2.2.1⟩

/-- Witness of C6: the sample subject, present. -/
theorem present_subject_derived_witness :
    (sampleSubject false).isAbsent = false ∧
    ∃ obtained full : ℚ,
      (forEachBody zeroTotals (sampleSubject false)).2.totalObtained = some obtained ∧
      (forEachBody zeroTotals (sampleSubject false)).2.totalFullMarks = some full ∧
      obtained = (sampleSubject false).theoryObtained.getD 0
                  + (sampleSubject false).practicalObtained.getD 0
                  + (sampleSubject false).mcqObtained.getD 0 ∧
      (forEachBody zeroTotals (sampleSubject false)).2.grade
        = (gradeFromPct (if 0 < full then obtained / full * 100 else 0)).grade ∧
      (forEachBody zeroTotals (sampleSubject false)).2.gradePoint
        = some (gradeFromPct (if 0 < full then obtained / full * 100 else 0)).gradePoint :=
  ⟨rfl, present_subject_derived zeroTotals (sampleSubject false) rfl⟩

/-- Witness of C8: a record of one present and one absent sample subject has
positive full marks and a percentage that is the binary64 value of a whole
number of hundredths; the record without subjects has percentage 0. -/
theorem preSave_percentage_witness :
    0 < (preSave (sampleDoc [sampleSubject false, sampleSubject true])).totalFullMarks ∧
    (∃ n : ℤ, (preSave (sampleDoc [sampleSubject false, sampleSubject true])).percentage
        = roundDouble ((n : ℚ) / 100)) ∧
    (preSave (sampleDoc [])).percentage = 0 :=
  have hpos : 0 < (preSave (sampleDoc [sampleSubject false, sampleSubject true])).totalFullMarks := by
    norm_num [preSave, forEachSubjects, forEachBody, sampleDoc, sampleSubject, subjectFull, jsOr]
  ⟨hpos,
   (((preSave_percentage (sampleDoc [sampleSubject false, sampleSubject true])).2.1 hpos).1).imp
     (fun _ h => h.1),
   (preSave_percentage (sampleDoc [])).2.2.2.1 rfl⟩

/-- Witness of C9: for a record of one present and one absent sample subject
the gpa is the binary64 value of a whole number of hundredths and lies
between 0 and 5. -/
theorem preSave_gpa_witness :
    (preSave (sampleDoc [sampleSubject false, sampleSubject true])).subjects ≠ [] ∧
    (∃ n : ℤ, (preSave (sampleDoc [sampleSubject false, sampleSubject true])).gpa
        = roundDouble ((n : ℚ) / 100)) ∧
    (preSave (sampleDoc [sampleSubject false, sampleSubject true])).gpa ≤ 5 :=
  have hne : (preSave (sampleDoc [sampleSubject false, sampleSubject true])).subjects ≠ [] := by
    simp [preSave, forEachSubjects, sampleDoc]
  ⟨hne,
   (((preSave_gpa (sampleDoc [sampleSubject false, sampleSubject true])).2.2.2.1 hne).1).imp
     (fun _ h => h.1),
   (preSave_gpa (sampleDoc [sampleSubject false, sampleSubject true])).2.2.2.2.2.1⟩

/-- Witness of C10: the same two sample subjects in either order give the
same percentage, hence the same record grade. -/
theorem preSave_grade_witness :
    (preSave (sampleDoc [sampleSubject true, sampleSubject false])).percentage
      = (preSave (sampleDoc [sampleSubject false, sampleSubject true])).percentage ∧
    (preSave (sampleDoc [sampleSubject true, sampleSubject false])).grade
      = (preSave (sampleDoc [sampleSubject false, sampleSubject true])).grade :=
  have hp : (preSave (sampleDoc [sampleSubject true, sampleSubject false])).percentage
      = (preSave (sampleDoc [sampleSubject false, sampleSubject true])).percentage := by
    norm_num [preSave, forEachSubjects, forEachBody, sampleDoc, sampleSubject, subjectFull,
      subjectObtained, parseFloat, jsOr]
  ⟨hp,
   (preSave_grade (sampleDoc [sampleSubject false, sampleSubject true])).2
     (sampleDoc [sampleSubject true, sampleSubject false]) hp⟩

/-! ## Pre-save hook: the derived fields depend on the raw fields only -/

theorem forEachBody_rawFields (t : Totals) (a b : SubjectMark)
    (h : rawFields a = rawFields b) :
    (forEachBody t a).1 = (forEachBody t b).1 ∧
    derivedFields (forEachBody t a).2 = derivedFields (forEachBody t b).2 := by
  simp only [rawFields, Prod.mk.injEq] at h
  obtain ⟨h1, h2, h3, h4, h5, h6, h7⟩ := h
  unfold forEachBody subjectFull subjectObtained derivedFields
  rw [h1, h2, h3, h4, h5, h6, h7]
  by_cases hb : b.isAbsent = true <;> simp [hb]

theorem forEachSubjects_rawFields (t : Totals) (l₁ l₂ : List SubjectMark)
    (h : l₁.map rawFields = l₂.map rawFields) :
    (forEachSubjects t l₁).1 = (forEachSubjects t l₂).1 ∧
    (forEachSubjects t l₁).2.map derivedFields
      = (forEachSubjects t l₂).2.map derivedFields := by
  induction l₁ generalizing t l₂ with
  | nil =>
    cases l₂ with
    | nil => exact ⟨rfl, rfl⟩
    | cons b l₂ => simp at h
  | cons a l₁ ih =>
    cases l₂ with
    | nil => simp at h
    | cons b l₂ =>
      simp only [List.map_cons, List.cons.injEq] at h
      obtain ⟨hab, hl⟩ := h
      obtain ⟨ht, hd⟩ := forEachBody_rawFields t a b hab
      simp only [forEachSubjects, List.map_cons]
      rw [ht]
      obtain ⟨ih1, ih2⟩ := ih (forEachBody t b).1 l₂ hl
      exact ⟨ih1, by rw [hd, ih2]⟩

theorem forEachBody_derivedSubject (t : Totals) (sub : SubjectMark) :
    forEachBody t (derivedSubject sub) = forEachBody t sub := by
  unfold derivedSubject forEachBody subjectFull subjectObtained
  by_cases h : sub.isAbsent = true <;> simp [h]

theorem forEachSubjects_derivedSubject (t : Totals) (l : List SubjectMark) :
    forEachSubjects t (l.map derivedSubject) = forEachSubjects t l := by
  induction l generalizing t with
  | nil => rfl
  | cons sub rest ih =>
    simp only [List.map_cons, forEachSubjects, forEachBody_derivedSubject, ih]

theorem preSave_preSave (doc : MarkDoc) : preSave (preSave doc) = preSave doc := by
  have hs : (preSave doc).subjects = doc.subjects.map derivedSubject := preSave_subjects doc
  have hp : (preSave doc).isPublished = doc.isPublished := rfl
  have h : forEachSubjects
      { totalObtained := 0, totalFullMarks := 0, gpSum := 0, hasFailed := false }
      (preSave doc).subjects
      = forEachSubjects
      { totalObtained := 0, totalFullMarks := 0, gpSum := 0, hasFailed := false }
      doc.subjects := by
    rw [hs, forEachSubjects_derivedSubject]
  rw [preSave]
  simp only [h, hp]
  unfold preSave
  by_cases hpub : doc.isPublished = true <;> simp [hpub]

/-- C15: the derived fields are never taken from the caller: two documents
whose subject sequences agree on the raw fields get, whatever derived values
the subjects were supplied with and whatever the documents held in
totalObtained, totalFullMarks, percentage, gpa and grade, the same derived
fields on every subject and on the record. -/
theorem preSave_ignores_supplied (doc₁ doc₂ : MarkDoc)
    (h : doc₁.subjects.map rawFields = doc₂.subjects.map rawFields) :
    (preSave doc₁).subjects.map derivedFields = (preSave doc₂).subjects.map derivedFields ∧
    (preSave doc₁).subjects.map rawFields = (preSave doc₂).subjects.map rawFields ∧
    recordDerived (preSave doc₁) = recordDerived (preSave doc₂) := by
  obtain ⟨h1, h2⟩ := forEachSubjects_rawFields
    { totalObtained := 0, totalFullMarks := 0, gpSum := 0, hasFailed := false }
    doc₁.subjects doc₂.subjects h
  have hlen : (forEachSubjects
      { totalObtained := 0, totalFullMarks := 0, gpSum := 0, hasFailed := false }
      doc₁.subjects).2.length = (forEachSubjects
      { totalObtained := 0, totalFullMarks := 0, gpSum := 0, hasFailed := false }
      doc₂.subjects).2.length := by
    have := congrArg List.length h2
    simpa using this
  refine ⟨h2, ?_, ?_⟩
  · have hr : ∀ sub : SubjectMark, rawFields (derivedSubject sub) = rawFields sub := by
      intro sub
      unfold derivedSubject forEachBody rawFields
      by_cases hs : sub.isAbsent = true <;> simp [hs]
    rw [preSave_subjects, preSave_subjects, List.map_map, List.map_map]
    have hc : rawFields ∘ derivedSubject = rawFields := funext hr
    rw [hc, h]
  · simp only [recordDerived, preSave, h1, hlen]

/-- C16: the aggregation is idempotent: the hook run on its own output gives
that output again, subjects, totalObtained, totalFullMarks, percentage, gpa
and grade included. -/
theorem preSave_idempotent (doc : MarkDoc) :
    preSave (preSave doc) = preSave doc ∧
    (preSave (preSave doc)).subjects = (preSave doc).subjects ∧
    recordDerived (preSave (preSave doc)) = recordDerived (preSave doc) := by
  refine ⟨preSave_preSave doc, ?_, ?_⟩ <;> rw [preSave_preSave]

/-- Witness of C15: the sample subject, once as supplied and once with the
derived fields the caller chose replaced by others, in records with different
stored totals. -/
theorem preSave_ignores_supplied_witness :
    recordDerived (preSave (sampleDoc [sampleSubject false]))
      = recordDerived (preSave
          { sampleDoc [{ sampleSubject false with
                          totalFullMarks := none, totalObtained := some 1000
                          grade := "F", gradePoint := some 0 }] with
            totalObtained := 17, totalFullMarks := 3, percentage := 99
            gpa := 5, grade := "A+" }) :=
  (preSave_ignores_supplied _ _ rfl).2.2

/-! ## Store and publish loop: helper lemmas -/

theorem forEachBody_hasFailed (t : Totals) (sub : SubjectMark) :
    (forEachBody t sub).1.hasFailed
      = (t.hasFailed || decide ((derivedSubject sub).grade = "F")) := by
  unfold derivedSubject forEachBody
  by_cases h : sub.isAbsent = true
  · simp [h]
  · by_cases hg : (gradeFromPct (subjectPct (subjectFull sub) (subjectObtained sub))).grade = "F"
    · simp [h, hg]
    · simp [h, hg]

theorem forEachSubjects_hasFailed (t : Totals) (l : List SubjectMark) :
    (forEachSubjects t l).1.hasFailed
      = (t.hasFailed || l.any (fun s => decide ((derivedSubject s).grade = "F"))) := by
  induction l generalizing t with
  | nil => simp [forEachSubjects]
  | cons sub rest ih =>
    simp only [forEachSubjects, ih, forEachBody_hasFailed, List.any_cons, Bool.or_assoc]

theorem preSave_result (doc : MarkDoc) :
    (preSave doc).result
      = if doc.isPublished = true then
          (if (preSave doc).subjects.any (fun s => decide (s.grade = "F")) = true
            then "Fail" else "Pass")
        else doc.result := by
  have h : (preSave doc).subjects.any (fun s => decide (s.grade = "F"))
      = (forEachSubjects
          { totalObtained := 0, totalFullMarks := 0, gpSum := 0, hasFailed := false }
          doc.subjects).1.hasFailed := by
    rw [forEachSubjects_hasFailed, preSave_subjects, List.any_map]
    simp [Function.comp_def]
  rw [h]
  simp [preSave]

theorem stampUpdatedAt_cases (now : Nat) (l : Option MarkDoc) (d : MarkDoc) :
    stampUpdatedAt now l d = d ∨ stampUpdatedAt now l d = { d with updatedAt := some now } := by
  unfold stampUpdatedAt
  split_ifs
  · exact Or.inl rfl
  · exact Or.inr rfl

theorem stampUpdatedAt_eq (now : Nat) (l : Option MarkDoc) (d : MarkDoc) :
    stampUpdatedAt now l d = { d with updatedAt := (stampUpdatedAt now l d).updatedAt } := by
  unfold stampUpdatedAt
  split_ifs <;> rfl

theorem preSave_stampUpdatedAt (now : Nat) (l : Option MarkDoc) (d : MarkDoc) :
    preSave (stampUpdatedAt now l d)
      = { preSave d with updatedAt := (stampUpdatedAt now l d).updatedAt } := by
  unfold stampUpdatedAt
  split_ifs <;> rfl

theorem stampUpdatedAt_of_ne (now : Nat) (l : Option MarkDoc) (d : MarkDoc) (h : l ≠ some d) :
    stampUpdatedAt now l d = { d with updatedAt := some now } := by
  unfold stampUpdatedAt
  rw [if_neg h]

theorem save_length (s : Store) (now place : Nat) (doc : MarkDoc) :
    (save s now place doc).length = s.length := by
  simp [save]

theorem save_getElem?_ne (s : Store) (now place j : Nat) (doc : MarkDoc) (h : place ≠ j) :
    (save s now place doc)[j]? = s[j]? := by
  simp [save, List.getElem?_set_ne h]

theorem save_getElem?_self (s : Store) (now place : Nat) (doc : MarkDoc)
    (h : place < s.length) :
    (save s now place doc)[place]? = some (preSave (stampUpdatedAt now s[place]? doc)) := by
  simp [save, h]

theorem publishLoop_length (f : Faults) (clock : Nat → Nat) (s : Store)
    (ms : List (Nat × MarkDoc)) (i : Nat) :
    (publishLoop f clock s ms i).1.length = s.length := by
  induction ms generalizing s i with
  | nil => rfl
  | cons m rest ih =>
    unfold publishLoop
    cases hw : f.write i with
    | some msg => rfl
    | none => simp [ih, save]

theorem publishLoop_untouched (f : Faults) (clock : Nat → Nat) (s : Store)
    (ms : List (Nat × MarkDoc)) (i j : Nat) (hj : ∀ m ∈ ms, m.1 ≠ j) :
    (publishLoop f clock s ms i).1[j]? = s[j]? := by
  induction ms generalizing s i with
  | nil => rfl
  | cons m rest ih =>
    unfold publishLoop
    cases hw : f.write i with
    | some msg => rfl
    | none =>
      simp only
      rw [ih _ _ (fun x hx => hj x (List.mem_cons_of_mem _ hx))]
      exact save_getElem?_ne _ _ _ _ _ (hj m (List.mem_cons_self _ _))

theorem publishLoop_saved (f : Faults) (clock : Nat → Nat) (s : Store)
    (ms : List (Nat × MarkDoc)) (i : Nat)
    (hok : ∀ k, k < ms.length → f.write (i + k) = none)
    (hnd : (ms.map Prod.fst).Nodup)
    (hlt : ∀ m ∈ ms, m.1 < s.length) :
    (publishLoop f clock s ms i).2 = none ∧
    ∀ k (hk : k < ms.length),
      (publishLoop f clock s ms i).1[ms[k].1]?
        = some (preSave (stampUpdatedAt (f.now (i + k)) s[ms[k].1]?
            (stampPublished clock (i + k) ms[k].2))) := by
  induction ms generalizing s i with
  | nil => exact ⟨rfl, fun k hk => absurd hk (Nat.not_lt_zero k)⟩
  | cons m rest ih =>
    have hw : f.write i = none := by simpa using hok 0 (by simp)
    have hnd0 : (m.1 :: rest.map Prod.fst).Nodup := hnd
    have hnd' : (rest.map Prod.fst).Nodup := (List.nodup_cons.mp hnd0).2
    have hnot : ∀ x ∈ rest, x.1 ≠ m.1 := by
      intro x hx hxe
      apply (List.nodup_cons.mp hnd0).1
      rw [← hxe]
      exact List.mem_map_of_mem Prod.fst hx
    have hlt' : ∀ x ∈ rest,
        x.1 < (save s (f.now i) m.1 (stampPublished clock i m.2)).length := by
      intro x hx
      simpa [save] using hlt x (List.mem_cons_of_mem _ hx)
    have hok' : ∀ k, k < rest.length → f.write (i + 1 + k) = none := by
      intro k hk
      have := hok (k + 1) (by simpa using hk)
      rwa [show i + (k + 1) = i + 1 + k by omega] at this
    obtain ⟨ih1, ih2⟩ :=
      ih (save s (f.now i) m.1 (stampPublished clock i m.2)) (i + 1) hok' hnd' hlt'
    have hstep : publishLoop f clock s (m :: rest) i
        = publishLoop f clock (save s (f.now i) m.1 (stampPublished clock i m.2)) rest
            (i + 1) := by
      conv_lhs => unfold publishLoop
      simp [hw]
    rw [hstep]
    refine ⟨ih1, ?_⟩
    intro k hk
    cases k with
    | zero =>
      simp only [List.getElem_cons_zero, Nat.add_zero]
      rw [publishLoop_untouched _ _ _ _ _ _ hnot]
      exact save_getElem?_self _ _ _ _ (hlt m (List.mem_cons_self _ _))
    | succ k =>
      have hk' : k < rest.length := by simpa using hk
      simp only [List.getElem_cons_succ]
      rw [ih2 k hk', show i + 1 + k = i + (k + 1) by omega,
        save_getElem?_ne _ _ _ _ _ (fun h => hnot _ (List.getElem_mem hk') h.symm)]

theorem publishLoop_fault (f : Faults) (clock : Nat → Nat) (s : Store)
    (ms : List (Nat × MarkDoc)) (i k : Nat) (msg : String)
    (hk : k < ms.length)
    (hok : ∀ j, j < k → f.write (i + j) = none)
    (hfail : f.write (i + k) = some msg) :
    publishLoop f clock s ms i = ((publishLoop f clock s (ms.take k) i).1, some msg) := by
  induction k generalizing s ms i with
  | zero =>
    cases ms with
    | nil => simp at hk
    | cons m rest =>
      unfold publishLoop
      simp only [Nat.add_zero] at hfail
      simp [hfail, publishLoop]
  | succ k ih =>
    cases ms with
    | nil => simp at hk
    | cons m rest =>
      have hw : f.write i = none := by simpa using hok 0 (by omega)
      have hk' : k < rest.length := by simpa using hk
      have hok' : ∀ j, j < k → f.write (i + 1 + j) = none := by
        intro j hj
        have := hok (j + 1) (by omega)
        rwa [show i + (j + 1) = i + 1 + j by omega] at this
      have hfail' : f.write (i + 1 + k) = some msg := by
        rwa [show i + (k + 1) = i + 1 + k by omega] at hfail
      have := ih (save s (f.now i) m.1 (stampPublished clock i m.2)) rest (i + 1) hk' hok'
        hfail'
      conv_lhs => unfold publishLoop
      simp only [hw, List.take_succ_cons]
      rw [this]
      conv_rhs => unfold publishLoop
      simp [hw]

theorem publishLoop_ok_faults (f : Faults) (clock : Nat → Nat) (s : Store)
    (ms : List (Nat × MarkDoc)) (i : Nat)
    (h : (publishLoop f clock s ms i).2 = none) :
    ∀ k, k < ms.length → f.write (i + k) = none := by
  induction ms generalizing s i with
  | nil => intro k hk; simp at hk
  | cons m rest ih =>
    unfold publishLoop at h
    cases hw : f.write i with
    | some msg => simp [hw] at h
    | none =>
      simp only [hw] at h
      intro k hk
      cases k with
      | zero => simpa using hw
      | succ k =>
        have := ih _ _ h k (by simpa using hk)
        rwa [show i + 1 + k = i + (k + 1) by omega] at this

theorem mem_find (s : Store) (p : MarkDoc → Bool) (m : Nat × MarkDoc) :
    m ∈ find s p ↔ s[m.1]? = some m.2 ∧ p m.2 = true := by
  simp [find, List.mem_filter, List.mem_enum_iff_getElem?]

theorem find_nodup (s : Store) (p : MarkDoc → Bool) :
    ((find s p).map Prod.fst).Nodup := by
  have h : List.Sublist ((find s p).map Prod.fst) (s.enum.map Prod.fst) :=
    (List.filter_sublist s.enum).map Prod.fst
  rw [List.enum_map_fst] at h
  exact (List.nodup_range s.length).sublist h

theorem pair_sublist_of_getElem? {α : Type} (l : List α) (i j : Nat) (a b : α)
    (hij : i < j) (ha : l[i]? = some a) (hb : l[j]? = some b) : List.Sublist [a, b] l := by
  induction l generalizing i j with
  | nil => simp at ha
  | cons x xs ih =>
    cases j with
    | zero => omega
    | succ j =>
      cases i with
      | zero =>
        simp only [List.getElem?_cons_zero, Option.some.injEq] at ha
        simp only [List.getElem?_cons_succ] at hb
        subst ha
        exact List.Sublist.cons₂ _ (List.singleton_sublist.mpr (List.mem_iff_getElem?.mpr ⟨j, hb⟩))
      | succ i =>
        simp only [List.getElem?_cons_succ] at ha hb
        exact List.Sublist.cons _ (ih i j (by omega) ha hb)

theorem pair_sublist_find (s : Store) (p : MarkDoc → Bool) (i j : Nat) (a b : MarkDoc)
    (hij : i < j) (ha : s[i]? = some a) (hb : s[j]? = some b)
    (hpa : p a = true) (hpb : p b = true) :
    List.Sublist [(i, a), (j, b)] (find s p) := by
  have h : List.Sublist [(i, a), (j, b)] s.enum :=
    pair_sublist_of_getElem? s.enum i j (i, a) (j, b) hij
      (by simp [List.getElem?_enum, ha]) (by simp [List.getElem?_enum, hb])
  have h2 := h.filter (fun m => p m.2)
  simpa [find, hpa, hpb] using h2

theorem rankedBefore_iff (a b : Nat × MarkDoc) :
    rankedBefore a b ↔ b.2.percentage ≤ a.2.percentage := by
  have h : ∀ q : ℚ, jsOr (some q) 0 = q := by
    intro q
    by_cases hq : q = 0 <;> simp [jsOr, hq]
  simp [rankedBefore, comparePercentage, h]

theorem sortByPercentage_perm (ms : List (Nat × MarkDoc)) :
    (sortByPercentage ms).Perm ms :=
  List.perm_insertionSort rankedBefore ms

theorem sortByPercentage_sorted (ms : List (Nat × MarkDoc)) :
    (sortByPercentage ms).Pairwise rankedBefore := by
  haveI : IsTotal (Nat × MarkDoc) rankedBefore :=
    ⟨fun a b => by
      simp only [rankedBefore_iff]
      exact le_total _ _⟩
  haveI : IsTrans (Nat × MarkDoc) rankedBefore :=
    ⟨fun a b c hab hbc => by
      simp only [rankedBefore_iff] at *
      exact le_trans hbc hab⟩
  exact List.sorted_insertionSort rankedBefore ms

theorem sortByPercentage_stable (ms : List (Nat × MarkDoc)) (a b : Nat × MarkDoc)
    (h : List.Sublist [a, b] ms) (hab : b.2.percentage ≤ a.2.percentage) :
    List.Sublist [a, b] (sortByPercentage ms) :=
  List.pair_sublist_insertionSort ((rankedBefore_iff a b).mpr hab) h

theorem preSave_position (doc : MarkDoc) : (preSave doc).position = doc.position := rfl

theorem publishMarks_of_ok (s : Store) (f : Faults) (clock : Nat → Nat)
    (classId : ObjectId) (examType : String) (examYear : Int)
    (hl : f.lookup 0 = none)
    (hne : (find s (matchesCohort classId examType examYear)).length ≠ 0)
    (hw : ∀ k, k < (find s (matchesCohort classId examType examYear)).length →
      f.write k = none) :
    (publishMarks s f clock classId examType examYear).2
      = .published (find s (matchesCohort classId examType examYear)).length ∧
    (∀ k (hk : k < (sortByPercentage
          (find s (matchesCohort classId examType examYear))).length),
      (publishMarks s f clock classId examType examYear).1[
          ((sortByPercentage (find s (matchesCohort classId examType examYear)))[k]).1]?
        = some (preSave (stampUpdatedAt (f.now k)
            (some ((sortByPercentage (find s (matchesCohort classId examType examYear)))[k]).2)
            (stampPublished clock k
              ((sortByPercentage (find s (matchesCohort classId examType examYear)))[k]).2)))) ∧
    (∀ j, (∀ m ∈ find s (matchesCohort classId examType examYear), m.1 ≠ j) →
      (publishMarks s f clock classId examType examYear).1[j]? = s[j]?) ∧
    (publishMarks s f clock classId examType examYear).1.length = s.length := by
  have hperm := sortByPercentage_perm (find s (matchesCohort classId examType examYear))
  have hlen : (sortByPercentage (find s (matchesCohort classId examType examYear))).length
      = (find s (matchesCohort classId examType examYear)).length := hperm.length_eq
  have hnd : ((sortByPercentage (find s (matchesCohort classId examType examYear))).map
      Prod.fst).Nodup :=
    ((hperm.map Prod.fst).nodup_iff).mpr (find_nodup s _)
  have hlt : ∀ m ∈ sortByPercentage (find s (matchesCohort classId examType examYear)),
      m.1 < s.length := by
    intro m hm
    have hm' := (mem_find s _ m).mp (hperm.mem_iff.mp hm)
    by_contra hge
    have hnone : s[m.1]? = none := List.getElem?_eq_none (not_lt.mp hge)
    rw [hnone] at hm'
    exact absurd hm'.1 (by simp)
  obtain ⟨h1, h2⟩ := publishLoop_saved f clock s
    (sortByPercentage (find s (matchesCohort classId examType examYear))) 0
    (by intro k hk; rw [Nat.zero_add]; exact hw k (hlen ▸ hk)) hnd hlt
  have hrun : publishMarks s f clock classId examType examYear
      = ((publishLoop f clock s
            (sortByPercentage (find s (matchesCohort classId examType examYear))) 0).1,
         .published (find s (matchesCohort classId examType examYear)).length) := by
    unfold publishMarks
    simp only [hl, hne, if_false]
    rw [h1]
  rw [hrun]
  refine ⟨rfl, ?_, ?_, publishLoop_length _ _ _ _ _⟩
  · intro k hk
    have := h2 k hk
    rwa [Nat.zero_add,
      ((mem_find s _ _).mp (hperm.mem_iff.mp (List.getElem_mem hk))).1] at this
  · intro j hj
    apply publishLoop_untouched
    intro m hm
    exact hj m (hperm.mem_iff.mp hm)

theorem publishMarks_published (s : Store) (f : Faults) (clock : Nat → Nat)
    (classId : ObjectId) (examType : String) (examYear : Int) (n : Nat)
    (h : (publishMarks s f clock classId examType examYear).2 = .published n) :
    f.lookup 0 = none ∧
    (find s (matchesCohort classId examType examYear)).length ≠ 0 ∧
    n = (find s (matchesCohort classId examType examYear)).length ∧
    ∀ k, k < (find s (matchesCohort classId examType examYear)).length →
      f.write k = none := by
  unfold publishMarks at h
  cases hl : f.lookup 0 with
  | some msg => simp [hl] at h
  | none =>
    simp only [hl] at h
    by_cases hne : (find s (matchesCohort classId examType examYear)).length = 0
    · simp [hne] at h
    · simp only [hne, if_false] at h
      cases hr : (publishLoop f clock s
          (sortByPercentage (find s (matchesCohort classId examType examYear))) 0).2 with
      | some msg => simp [hr] at h
      | none =>
        simp only [hr, Response.published.injEq] at h
        refine ⟨rfl, hne, h.symm, ?_⟩
        intro k hk
        have := publishLoop_ok_faults _ _ _ _ _ hr k
          (by rw [(sortByPercentage_perm _).length_eq]; exact hk)
        rwa [Nat.zero_add] at this

theorem publishMarks_record (s : Store) (f : Faults) (clock : Nat → Nat)
    (classId : ObjectId) (examType : String) (examYear : Int) (n : Nat)
    (hsucc : (publishMarks s f clock classId examType examYear).2 = .published n)
    (j : Nat) (m : MarkDoc) (hm : s[j]? = some m)
    (hc : matchesCohort classId examType examYear m = true) :
    ∃ k, k < n ∧
      (sortByPercentage (find s (matchesCohort classId examType examYear)))[k]? = some (j, m) ∧
      (publishMarks s f clock classId examType examYear).1[j]?
        = some (preSave (stampUpdatedAt (f.now k) (some m) (stampPublished clock k m))) := by
  obtain ⟨hl, hne, hn, hw⟩ := publishMarks_published s f clock classId examType examYear n hsucc
  obtain ⟨_, h2, _, _⟩ := publishMarks_of_ok s f clock classId examType examYear hl hne hw
  have hmem : (j, m) ∈ sortByPercentage (find s (matchesCohort classId examType examYear)) :=
    (sortByPercentage_perm _).mem_iff.mpr ((mem_find s _ (j, m)).mpr ⟨hm, hc⟩)
  obtain ⟨k, hk, hkm⟩ := List.getElem_of_mem hmem
  refine ⟨k, ?_, ?_, ?_⟩
  · rw [hn, ← (sortByPercentage_perm _).length_eq]
    exact hk
  · rw [List.getElem?_eq_getElem hk, hkm]
  · have := h2 k hk
    rwa [hkm] at this

/-! ## Publication -/

theorem stampPublished_saved (clock : Nat → Nat) (k : Nat) (m : MarkDoc)
    (classId : ObjectId) (examType : String) (examYear : Int)
    (hc : matchesCohort classId examType examYear m = true) :
    matchesCohort classId examType examYear (preSave (stampPublished clock k m)) = true ∧
    (preSave (stampPublished clock k m)).isPublished = true ∧
    (preSave (stampPublished clock k m)).subjects = m.subjects.map derivedSubject ∧
    ((preSave (stampPublished clock k m)).result = "Fail"
      ↔ ∃ sub ∈ (preSave (stampPublished clock k m)).subjects, sub.grade = "F") ∧
    ((preSave (stampPublished clock k m)).result = "Pass"
      ↔ ¬ ∃ sub ∈ (preSave (stampPublished clock k m)).subjects, sub.grade = "F") ∧
    (∀ sub ∈ (preSave (stampPublished clock k m)).subjects,
      sub.isAbsent = true → sub.grade = "F") ∧
    (∀ g : String,
      (preSave (stampPublished clock k { m with grade := g })).result
        = (preSave (stampPublished clock k m)).result) := by
  refine ⟨?_, rfl, ?_, ?_, ?_, ?_, ?_⟩
  · simpa [matchesCohort, preSave, stampPublished] using hc
  · rw [preSave_subjects]
    rfl
  · rw [preSave_result]
    by_cases hany : ((preSave (stampPublished clock k m)).subjects.any
        (fun s => decide (s.grade = "F"))) = true
    · have := hany
      simp only [List.any_eq_true, decide_eq_true_eq] at this
      simp [stampPublished, hany, this]
    · have := hany
      simp only [List.any_eq_true, decide_eq_true_eq] at this
      simp [stampPublished, hany, this]
  · rw [preSave_result]
    by_cases hany : ((preSave (stampPublished clock k m)).subjects.any
        (fun s => decide (s.grade = "F"))) = true
    · have := hany
      simp only [List.any_eq_true, decide_eq_true_eq] at this
      simp [stampPublished, hany, this]
    · have := hany
      simp only [List.any_eq_true, decide_eq_true_eq] at this
      simp [stampPublished, hany, this]
  · intro sub hsub habs
    rw [preSave_subjects, List.mem_map] at hsub
    obtain ⟨raw, _, rfl⟩ := hsub
    have hraw : raw.isAbsent = true := by
      unfold derivedSubject forEachBody at habs
      by_cases hr : raw.isAbsent = true
      · exact hr
      · simp [hr] at habs
    simp [derivedSubject, forEachBody, hraw]
  · intro g
    rw [preSave_result, preSave_result, preSave_subjects, preSave_subjects]
    rfl

/-- C11: after a successful `publishMarks` every record of the cohort is
published with result "Fail" exactly when one of its subjects has the derived
grade "F" (an absent subject has it) and "Pass" otherwise; the value is the
one the pre-save hook leaves, the same whatever record-level grade the
controller read for its own assignment. -/
theorem publishMarks_result (s : Store) (f : Faults) (clock : Nat → Nat)
    (classId : ObjectId) (examType : String) (examYear : Int) (n : Nat)
    (hsucc : (publishMarks s f clock classId examType examYear).2 = .published n)
    (j : Nat) (m : MarkDoc) (hm : s[j]? = some m)
    (hc : matchesCohort classId examType examYear m = true) :
    ∃ k m',
      (publishMarks s f clock classId examType examYear).1[j]? = some m' ∧
      m' = preSave (stampUpdatedAt (f.now k) (some m) (stampPublished clock k m)) ∧
      matchesCohort classId examType examYear m' = true ∧
      m'.isPublished = true ∧
      m'.subjects = m.subjects.map derivedSubject ∧
      (m'.result = "Fail" ↔ ∃ sub ∈ m'.subjects, sub.grade = "F") ∧
      (m'.result = "Pass" ↔ ¬ ∃ sub ∈ m'.subjects, sub.grade = "F") ∧
      (∀ sub ∈ m'.subjects, sub.isAbsent = true → sub.grade = "F") ∧
      (∀ g : String,
        (preSave (stampPublished clock k { m with grade := g })).result = m'.result) := by
  obtain ⟨k, _, _, hk⟩ := publishMarks_record s f clock classId examType examYear n hsucc j m hm hc
  rw [preSave_stampUpdatedAt] at hk
  exact ⟨k, _, hk, (preSave_stampUpdatedAt _ _ _).symm,
    stampPublished_saved clock k m classId examType examYear hc⟩

/-- C20: `publishMarks` on a cohort key that matches no record answers 404 and
leaves the store as it was; on a cohort with records, when no store call
throws, it answers 200 with a count equal to the number of records of the
cohort, and the store keeps its size. -/
theorem publishMarks_empty_or_count (s : Store) (f : Faults) (clock : Nat → Nat)
    (classId : ObjectId) (examType : String) (examYear : Int)
    (hl : f.lookup 0 = none) :
    ((∀ m ∈ s, matchesCohort classId examType examYear m = false) →
      (publishMarks s f clock classId examType examYear).2 = .notFound ∧
      (publishMarks s f clock classId examType examYear).2.status = 404 ∧
      (publishMarks s f clock classId examType examYear).1 = s) ∧
    ((∃ m ∈ s, matchesCohort classId examType examYear m = true) →
      (∀ k, f.write k = none) →
      (publishMarks s f clock classId examType examYear).2
        = .published (s.countP (matchesCohort classId examType examYear)) ∧
      (publishMarks s f clock classId examType examYear).2.status = 200 ∧
      0 < s.countP (matchesCohort classId examType examYear) ∧
      (publishMarks s f clock classId examType examYear).1.length = s.length) := by
  have hcount : (find s (matchesCohort classId examType examYear)).length
      = s.countP (matchesCohort classId examType examYear) := by
    have h1 : (find s (matchesCohort classId examType examYear)).map Prod.snd
        = s.filter (matchesCohort classId examType examYear) := by
      have h : List.map Prod.snd
          (List.filter (matchesCohort classId examType examYear ∘ Prod.snd) s.enum)
          = List.filter (matchesCohort classId examType examYear) (List.map Prod.snd s.enum) :=
        (List.filter_map Prod.snd s.enum).symm
      rw [List.enum_map_snd] at h
      exact h
    rw [List.countP_eq_length_filter, ← h1, List.length_map]
  constructor
  · intro hnone
    have hz : (find s (matchesCohort classId examType examYear)).length = 0 := by
      rw [hcount, List.countP_eq_zero]
      intro m hm
      simp [hnone m hm]
    have hrun : publishMarks s f clock classId examType examYear = (s, .notFound) := by
      unfold publishMarks
      simp [hl, hz]
    rw [hrun]
    exact ⟨rfl, rfl, rfl⟩
  · intro hsome hw
    have hpos : 0 < s.countP (matchesCohort classId examType examYear) := by
      rw [List.countP_pos_iff]
      obtain ⟨m, hm, hc⟩ := hsome
      exact ⟨m, hm, hc⟩
    have hne : (find s (matchesCohort classId examType examYear)).length ≠ 0 := by
      rw [hcount]
      omega
    obtain ⟨h1, _, _, h4⟩ := publishMarks_of_ok s f clock classId examType examYear hl hne
      (fun k _ => hw k)
    rw [h1, hcount]
    exact ⟨rfl, rfl, hpos, h4⟩

theorem cohortDoc_percentage :
    (cohortDoc 1 90).percentage = 90 ∧ (cohortDoc 2 90).percentage = 90 ∧
    (cohortDoc 3 70).percentage = 70 ∧ (cohortDoc 4 50).percentage = 50 := by
  refine ⟨?_, ?_, ?_, ?_⟩ <;>
    norm_num [cohortDoc, newMark, scoredSubject, preSave, forEachSubjects, forEachBody,
      subjectFull, subjectObtained, parseFloat, jsOr,
      percentage_90_of_100, percentage_70_of_100, percentage_50_of_100]

theorem rankingStore_order :
    sortByPercentage (find rankingStore (matchesCohort 7 "annual" 2024))
      = [(0, cohortDoc 1 90), (1, cohortDoc 2 90), (2, cohortDoc 3 70), (3, cohortDoc 4 50)] := by
  obtain ⟨h1, h2, h3, h4⟩ := cohortDoc_percentage
  have hc : ∀ st x, matchesCohort 7 "annual" 2024 (cohortDoc st x) = true := by
    intro st x
    simp [matchesCohort, cohortDoc, preSave, newMark]
  have hf : find rankingStore (matchesCohort 7 "annual" 2024)
      = [(0, cohortDoc 1 90), (1, cohortDoc 2 90), (2, cohortDoc 3 70), (3, cohortDoc 4 50)] := by
    simp [find, rankingStore, List.enum, List.enumFrom, hc]
  rw [hf]
  simp [sortByPercentage, List.insertionSort, List.orderedInsert, rankedBefore_iff,
    h1, h2, h3, h4]

/-- C12: a successful `publishMarks` gives the records of the cohort the
positions 1..n, each once; a smaller position never goes with a smaller stored
percentage; of two records with the same percentage the one earlier in the
store gets the smaller position, so ties get distinct positions; the
percentage a record is saved with is the one the hook derives from its
subjects; and the store with percentages 90, 90, 70, 50 gets the positions
1, 2, 3, 4 in store order. -/
theorem publishMarks_positions (s : Store) (f : Faults) (clock : Nat → Nat)
    (classId : ObjectId) (examType : String) (examYear : Int) (n : Nat)
    (hsucc : (publishMarks s f clock classId examType examYear).2 = .published n) :
    0 < n ∧
    ((find s (matchesCohort classId examType examYear)).map
        (fun c => positionAt (publishMarks s f clock classId examType examYear).1 c.1)).Perm
      (List.range' 1 n) ∧
    (∀ i j a b, s[i]? = some a → s[j]? = some b →
      matchesCohort classId examType examYear a = true →
      matchesCohort classId examType examYear b = true →
      (1 ≤ positionAt (publishMarks s f clock classId examType examYear).1 i ∧
        positionAt (publishMarks s f clock classId examType examYear).1 i ≤ n) ∧
      (i ≠ j →
        positionAt (publishMarks s f clock classId examType examYear).1 i
          ≠ positionAt (publishMarks s f clock classId examType examYear).1 j) ∧
      (positionAt (publishMarks s f clock classId examType examYear).1 i
          < positionAt (publishMarks s f clock classId examType examYear).1 j →
        b.percentage ≤ a.percentage) ∧
      (i < j → a.percentage = b.percentage →
        positionAt (publishMarks s f clock classId examType examYear).1 i
          < positionAt (publishMarks s f clock classId examType examYear).1 j) ∧
      ((publishMarks s f clock classId examType examYear).1[i]?.map MarkDoc.percentage
        = some (preSave a).percentage)) ∧
    [0, 1, 2, 3].map (positionAt (publishMarks rankingStore noFaults clock 7 "annual" 2024).1)
      = [1, 2, 3, 4] := by
  obtain ⟨hl, hne, hn, hw⟩ := publishMarks_published s f clock classId examType examYear n hsucc
  obtain ⟨_, h2, _, _⟩ := publishMarks_of_ok s f clock classId examType examYear hl hne hw
  have hperm := sortByPercentage_perm (find s (matchesCohort classId examType examYear))
  have hlen : (sortByPercentage (find s (matchesCohort classId examType examYear))).length = n := by
    rw [hperm.length_eq, hn]
  have hK : ∀ k (hk : k < (sortByPercentage
        (find s (matchesCohort classId examType examYear))).length),
      positionAt (publishMarks s f clock classId examType examYear).1
        ((sortByPercentage (find s (matchesCohort classId examType examYear)))[k]).1 = k + 1 := by
    intro k hk
    simp [positionAt, h2 k hk, preSave_position, preSave_stampUpdatedAt, stampPublished]
  have hP1 : (sortByPercentage (find s (matchesCohort classId examType examYear))).Pairwise
      (fun x y => positionAt (publishMarks s f clock classId examType examYear).1 x.1
        < positionAt (publishMarks s f clock classId examType examYear).1 y.1) := by
    rw [List.pairwise_iff_getElem]
    intro i j hi hj hij
    rw [hK i hi, hK j hj]
    omega
  have hP2 := sortByPercentage_sorted (find s (matchesCohort classId examType examYear))
  have hsym : Symmetric (fun x y : Nat × MarkDoc =>
      (x.1 ≠ y.1 → positionAt (publishMarks s f clock classId examType examYear).1 x.1
          ≠ positionAt (publishMarks s f clock classId examType examYear).1 y.1) ∧
      (positionAt (publishMarks s f clock classId examType examYear).1 x.1
          < positionAt (publishMarks s f clock classId examType examYear).1 y.1 →
        y.2.percentage ≤ x.2.percentage) ∧
      (positionAt (publishMarks s f clock classId examType examYear).1 y.1
          < positionAt (publishMarks s f clock classId examType examYear).1 x.1 →
        x.2.percentage ≤ y.2.percentage)) := by
    intro x y h
    exact ⟨fun hne h' => h.1 (Ne.symm hne) h'.symm, h.2.2, h.2.1⟩
  have hall := List.Pairwise.forall_of_forall hsym
    (by
      intro x _
      exact ⟨fun h => absurd rfl h, fun h => absurd h (lt_irrefl _),
        fun h => absurd h (lt_irrefl _)⟩)
    ((hP1.and hP2).imp (by
      intro x y h
      exact ⟨fun _ => ne_of_lt h.1, fun _ => (rankedBefore_iff x y).mp h.2,
        fun h' => absurd h.1 (not_lt.mpr (le_of_lt h'))⟩))
  refine ⟨by omega, ?_, ?_, ?_⟩
  · have heq : (sortByPercentage (find s (matchesCohort classId examType examYear))).map
        (fun c => positionAt (publishMarks s f clock classId examType examYear).1 c.1)
        = List.range' 1 n := by
      apply List.ext_getElem
      · simp [hlen]
      · intro i h1 h2
        simp only [List.getElem_map, List.getElem_range']
        rw [hK i (by simpa using h1)]
        omega
    rw [← heq]
    exact hperm.symm.map _
  · intro i j a b ha hb hca hcb
    have hxa : (i, a) ∈ sortByPercentage (find s (matchesCohort classId examType examYear)) :=
      hperm.mem_iff.mpr ((mem_find s _ (i, a)).mpr ⟨ha, hca⟩)
    have hxb : (j, b) ∈ sortByPercentage (find s (matchesCohort classId examType examYear)) :=
      hperm.mem_iff.mpr ((mem_find s _ (j, b)).mpr ⟨hb, hcb⟩)
    have hR := hall hxa hxb
    obtain ⟨k, hk, hkm⟩ := List.getElem_of_mem hxa
    have hpos := hK k hk
    rw [hkm] at hpos
    have hsaved := h2 k hk
    rw [hkm] at hsaved
    refine ⟨⟨by simp only at hpos; omega, by simp only at hpos; omega⟩, hR.1, hR.2.1, ?_, ?_⟩
    · intro hij hab
      have hsub := sortByPercentage_stable _ (i, a) (j, b)
        (pair_sublist_find s _ i j a b hij ha hb hca hcb) (le_of_eq hab.symm)
      have := hP1.sublist hsub
      simpa using this
    · simp only at hsaved
      rw [hsaved]
      simp only [Option.map_some', Option.some.injEq]
      rw [preSave_stampUpdatedAt]
      rfl
  · have hne' : (find rankingStore (matchesCohort 7 "annual" 2024)).length ≠ 0 := by
      rw [← (sortByPercentage_perm _).length_eq, rankingStore_order]
      simp
    obtain ⟨_, hr, _, _⟩ := publishMarks_of_ok rankingStore noFaults clock 7 "annual" 2024
      rfl hne' (fun _ _ => rfl)
    simp only [rankingStore_order] at hr
    have h0 := hr 0 (by simp)
    have h1 := hr 1 (by simp)
    have h2 := hr 2 (by simp)
    have h3 := hr 3 (by simp)
    simp only [List.getElem_cons_zero, List.getElem_cons_succ] at h0 h1 h2 h3
    simp [positionAt, h0, h1, h2, h3, preSave_position, preSave_stampUpdatedAt,
      stampPublished]

/-- C19, as the claim states it, fails: in the store with percentages 90, 90,
70, 50 the only `save` that throws is the first one, for the record ranked
first; the request answers 500 and the three other records are neither
ranked nor published: the store is what it was. -/
theorem publishMarks_failed_save_blocks_rest :
    publishMarks rankingStore firstWriteFails (fun _ => 0) 7 "annual" 2024
      = (rankingStore, .serverError "save failed") ∧
    (∀ k, k ≠ 0 → firstWriteFails.write k = none) ∧
    (∀ m ∈ (publishMarks rankingStore firstWriteFails (fun _ => 0) 7 "annual" 2024).1,
      m.isPublished = false ∧ m.position = 0) := by
  have hrun : publishMarks rankingStore firstWriteFails (fun _ => 0) 7 "annual" 2024
      = (rankingStore, .serverError "save failed") := by
    have hlen : (find rankingStore (matchesCohort 7 "annual" 2024)).length ≠ 0 := by
      rw [← (sortByPercentage_perm _).length_eq, rankingStore_order]
      simp
    unfold publishMarks
    simp only [firstWriteFails, hlen, if_false, rankingStore_order, publishLoop]
    simp
  refine ⟨hrun, ?_, ?_⟩
  · intro k hk
    simp [firstWriteFails, hk]
  · rw [hrun]
    intro m hm
    simp only [rankingStore, List.mem_cons, List.mem_singleton, List.not_mem_nil, or_false] at hm
    rcases hm with rfl | rfl | rfl | rfl <;> exact ⟨rfl, rfl⟩

/-- C19, amended: `publishMarks` saves the records of the cohort one at a time
in rank order, and the first `save` that throws ends the request with a 500
answer: the records ranked before it are saved ranked and published, the
record whose save threw and every record ranked after it are left as they
were, and so are the records outside the cohort. -/
theorem publishMarks_stops_at_failed_save (s : Store) (f : Faults) (clock : Nat → Nat)
    (classId : ObjectId) (examType : String) (examYear : Int) (k : Nat) (msg : String)
    (hl : f.lookup 0 = none)
    (hk : k < (sortByPercentage (find s (matchesCohort classId examType examYear))).length)
    (hok : ∀ j, j < k → f.write j = none)
    (hfail : f.write k = some msg) :
    (publishMarks s f clock classId examType examYear).2 = .serverError msg ∧
    (publishMarks s f clock classId examType examYear).2.status = 500 ∧
    (∀ j (hj : j < (sortByPercentage
          (find s (matchesCohort classId examType examYear))).length), j < k →
      (publishMarks s f clock classId examType examYear).1[
          ((sortByPercentage (find s (matchesCohort classId examType examYear)))[j]).1]?
        = some (preSave (stampUpdatedAt (f.now j)
            (some ((sortByPercentage (find s (matchesCohort classId examType examYear)))[j]).2)
            (stampPublished clock j
              ((sortByPercentage (find s (matchesCohort classId examType examYear)))[j]).2)))) ∧
    (∀ j (hj : j < (sortByPercentage
          (find s (matchesCohort classId examType examYear))).length), k ≤ j →
      (publishMarks s f clock classId examType examYear).1[
          ((sortByPercentage (find s (matchesCohort classId examType examYear)))[j]).1]?
        = s[((sortByPercentage (find s (matchesCohort classId examType examYear)))[j]).1]?) ∧
    (∀ i, (∀ m ∈ find s (matchesCohort classId examType examYear), m.1 ≠ i) →
      (publishMarks s f clock classId examType examYear).1[i]? = s[i]?) := by
  have hperm := sortByPercentage_perm (find s (matchesCohort classId examType examYear))
  have hnd : ((sortByPercentage (find s (matchesCohort classId examType examYear))).map
      Prod.fst).Nodup :=
    ((hperm.map Prod.fst).nodup_iff).mpr (find_nodup s _)
  have hlt : ∀ m ∈ sortByPercentage (find s (matchesCohort classId examType examYear)),
      m.1 < s.length := by
    intro m hm
    have hm' := (mem_find s _ m).mp (hperm.mem_iff.mp hm)
    by_contra hge
    have hnone : s[m.1]? = none := List.getElem?_eq_none (not_lt.mp hge)
    rw [hnone] at hm'
    exact absurd hm'.1 (by simp)
  have hne : (find s (matchesCohort classId examType examYear)).length ≠ 0 := by
    rw [← hperm.length_eq]
    omega
  have hloop := publishLoop_fault f clock s
    (sortByPercentage (find s (matchesCohort classId examType examYear))) 0 k msg hk
    (by intro j hj; rw [Nat.zero_add]; exact hok j hj)
    (by rw [Nat.zero_add]; exact hfail)
  have hrun : publishMarks s f clock classId examType examYear
      = ((publishLoop f clock s
            ((sortByPercentage (find s (matchesCohort classId examType examYear))).take k) 0).1,
         .serverError msg) := by
    unfold publishMarks
    simp only [hl, hne, if_false]
    rw [hloop]
  have hlenTake : ((sortByPercentage
      (find s (matchesCohort classId examType examYear))).take k).length = k := by
    rw [List.length_take]
    omega
  have hndTake : (((sortByPercentage
      (find s (matchesCohort classId examType examYear))).take k).map Prod.fst).Nodup :=
    hnd.sublist ((List.take_sublist _ _).map Prod.fst)
  obtain ⟨_, hsaved⟩ := publishLoop_saved f clock s
    ((sortByPercentage (find s (matchesCohort classId examType examYear))).take k) 0
    (by intro j hj; rw [Nat.zero_add]; exact hok j (by rw [hlenTake] at hj; exact hj))
    hndTake
    (fun m hm => hlt m (List.mem_of_mem_take hm))
  rw [hrun]
  refine ⟨rfl, rfl, ?_, ?_, ?_⟩
  · intro j hj hjk
    have := hsaved j (by rw [hlenTake]; exact hjk)
    simpa [((mem_find s _ _).mp (hperm.mem_iff.mp (List.getElem_mem hj))).1] using this
  · intro j hj hkj
    apply publishLoop_untouched
    intro m hm heq
    obtain ⟨a, ha, ham⟩ := List.mem_take_iff_getElem.mp hm
    have ha' : a < k := lt_of_lt_of_le ha (min_le_left _ _)
    have hal : a < ((sortByPercentage
        (find s (matchesCohort classId examType examYear))).map Prod.fst).length := by
      simpa using lt_of_lt_of_le ha (min_le_right _ _)
    have hjl : j < ((sortByPercentage
        (find s (matchesCohort classId examType examYear))).map Prod.fst).length := by
      simpa using hj
    have heq' : ((sortByPercentage
        (find s (matchesCohort classId examType examYear))).map Prod.fst)[a]
        = ((sortByPercentage
        (find s (matchesCohort classId examType examYear))).map Prod.fst)[j] := by
      simp only [List.getElem_map]
      rw [ham]
      exact heq
    have hinj : a = j := (List.Nodup.getElem_inj_iff hnd).mp heq'
    omega
  · intro i hi
    apply publishLoop_untouched
    intro m hm
    exact hi m (hperm.mem_iff.mp (List.mem_of_mem_take hm))

/-! ## Store lookups: helper lemmas -/

theorem find?_enumFrom_eq_some (p : MarkDoc → Bool) (s : Store) (n pl : Nat) (m : MarkDoc) :
    (s.enumFrom n).find? (fun x => p x.2) = some (pl, m) ↔
      n ≤ pl ∧ s[pl - n]? = some m ∧ p m = true ∧
      ∀ j, j < pl - n → ∀ x, s[j]? = some x → p x = false := by
  induction s generalizing n with
  | nil => simp
  | cons a rest ih =>
    simp only [List.enumFrom_cons, List.find?_cons]
    by_cases hpa : p a = true
    · simp only [hpa, Option.some.injEq, Prod.mk.injEq]
      constructor
      · rintro ⟨rfl, rfl⟩
        refine ⟨le_refl _, by simp, hpa, ?_⟩
        intro j hj
        omega
      · rintro ⟨hle, hget, hpm, hbefore⟩
        by_cases h0 : pl - n = 0
        · rw [h0] at hget
          simp only [List.getElem?_cons_zero, Option.some.injEq] at hget
          exact ⟨by omega, hget⟩
        · have := hbefore 0 (by omega) a (by simp)
          rw [hpa] at this
          exact absurd this (by simp)
    · have hpa' : p a = false := by simpa using hpa
      simp only [hpa']
      rw [ih (n + 1)]
      constructor
      · rintro ⟨hle, hget, hpm, hbefore⟩
        refine ⟨by omega, ?_, hpm, ?_⟩
        · rw [show pl - n = (pl - (n + 1)) + 1 by omega]
          simpa using hget
        · intro j hj x hx
          cases j with
          | zero =>
            simp only [List.getElem?_cons_zero, Option.some.injEq] at hx
            rw [← hx]
            exact hpa'
          | succ j =>
            simp only [List.getElem?_cons_succ] at hx
            exact hbefore j (by omega) x hx
      · rintro ⟨hle, hget, hpm, hbefore⟩
        have hne : pl - n ≠ 0 := by
          intro h0
          rw [h0] at hget
          simp only [List.getElem?_cons_zero, Option.some.injEq] at hget
          rw [hget] at hpa'
          rw [hpa'] at hpm
          exact absurd hpm (by simp)
        refine ⟨by omega, ?_, hpm, ?_⟩
        · rw [show pl - n = (pl - (n + 1)) + 1 by omega] at hget
          simpa using hget
        · intro j hj x hx
          exact hbefore (j + 1) (by omega) x (by simpa using hx)

theorem findOne_eq_some (s : Store) (p : MarkDoc → Bool) (pl : Nat) (m : MarkDoc) :
    findOne s p = some (pl, m) ↔
      s[pl]? = some m ∧ p m = true ∧ ∀ j, j < pl → ∀ x, s[j]? = some x → p x = false := by
  have := find?_enumFrom_eq_some p s 0 pl m
  simpa [findOne, List.enum] using this

theorem findOne_eq_none (s : Store) (p : MarkDoc → Bool) :
    findOne s p = none ↔ ∀ x ∈ s, p x = false := by
  simp only [findOne, List.find?_eq_none]
  constructor
  · intro h x hx
    obtain ⟨i, hi⟩ := List.mem_iff_getElem?.mp hx
    have := h (i, x) (List.mem_enum_iff_getElem?.mpr hi)
    simpa using this
  · intro h x hx
    have := h x.2 (List.snd_mem_of_mem_enum hx)
    simp [this]

theorem findOne_set_other (s : Store) (q : MarkDoc → Bool) (pl : Nat) (d : MarkDoc)
    (hd : q d = false) (hold : ∀ x, s[pl]? = some x → q x = false) :
    findOne (s.set pl d) q = findOne s q := by
  cases h : findOne s q with
  | none =>
    rw [findOne_eq_none] at h ⊢
    intro x hx
    rcases List.mem_or_eq_of_mem_set hx with hx' | rfl
    · exact h x hx'
    · exact hd
  | some r =>
    obtain ⟨pl', m⟩ := r
    rw [findOne_eq_some] at h ⊢
    obtain ⟨hget, hpm, hbefore⟩ := h
    have hne : pl ≠ pl' := by
      rintro rfl
      have := hold m hget
      rw [hpm] at this
      exact absurd this (by simp)
    refine ⟨by rw [List.getElem?_set_ne hne]; exact hget, hpm, ?_⟩
    intro j hj x hx
    by_cases hjp : pl = j
    · subst hjp
      rw [List.getElem?_set] at hx
      split at hx
      · split at hx
        · simp only [Option.some.injEq] at hx
          rw [← hx]
          exact hd
        · simp at hx
      · exact absurd rfl ‹_›
    · rw [List.getElem?_set_ne hjp] at hx
      exact hbefore j hj x hx

theorem findOne_append_other (s : Store) (q : MarkDoc → Bool) (d : MarkDoc)
    (hd : q d = false) :
    findOne (s ++ [d]) q = findOne s q := by
  cases h : findOne s q with
  | none =>
    rw [findOne_eq_none] at h ⊢
    intro x hx
    rcases List.mem_append.mp hx with hx' | hx'
    · exact h x hx'
    · rw [List.mem_singleton.mp hx']
      exact hd
  | some r =>
    obtain ⟨pl, m⟩ := r
    rw [findOne_eq_some] at h ⊢
    obtain ⟨hget, hpm, hbefore⟩ := h
    have hlt : pl < s.length := by
      by_contra hge
      rw [List.getElem?_eq_none (not_lt.mp hge)] at hget
      exact absurd hget (by simp)
    refine ⟨by rw [List.getElem?_append_left hlt]; exact hget, hpm, ?_⟩
    intro j hj x hx
    rw [List.getElem?_append_left (by omega)] at hx
    exact hbefore j hj x hx

theorem findOne_set_same (s : Store) (p : MarkDoc → Bool) (pl : Nat) (m d : MarkDoc)
    (h : findOne s p = some (pl, m)) (hd : p d = true) :
    findOne (s.set pl d) p = some (pl, d) := by
  rw [findOne_eq_some] at h ⊢
  obtain ⟨hget, _, hbefore⟩ := h
  have hlt : pl < s.length := by
    by_contra hge
    rw [List.getElem?_eq_none (not_lt.mp hge)] at hget
    exact absurd hget (by simp)
  refine ⟨by simp [hlt], hd, ?_⟩
  intro j hj x hx
  rw [List.getElem?_set_ne (by omega)] at hx
  exact hbefore j hj x hx

theorem findOne_append_new (s : Store) (p : MarkDoc → Bool) (d : MarkDoc)
    (h : findOne s p = none) (hd : p d = true) :
    findOne (s ++ [d]) p = some (s.length, d) := by
  rw [findOne_eq_none] at h
  rw [findOne_eq_some]
  refine ⟨by simp, hd, ?_⟩
  intro j hj x hx
  rw [List.getElem?_append_left hj] at hx
  exact h x (List.mem_iff_getElem?.mpr ⟨j, hx⟩)

/-! ## Bulk save: helper lemmas -/

theorem matchesKey_preSave (sid cid : ObjectId) (et : String) (ey : Int) (d : MarkDoc) :
    matchesKey sid cid et ey (preSave d) = matchesKey sid cid et ey d := rfl

theorem matchesKey_newMark (sid cid : ObjectId) (et : String) (ey : Int)
    (subjects : List SubjectMark) (user : ObjectId) :
    matchesKey sid cid et ey (preSave (newMark sid cid et ey subjects user)) = true := by
  simp [matchesKey, matchesCohort, preSave, newMark]

theorem matchesKey_created (sid cid : ObjectId) (et : String) (ey : Int)
    (subjects : List SubjectMark) (user now : Nat) :
    matchesKey sid cid et ey
      (preSave (stampCreated now (newMark sid cid et ey subjects user))) = true := by
  simp [matchesKey, matchesCohort, preSave, newMark, stampCreated]

theorem matchesKey_stampUpdatedAt (sid cid : ObjectId) (et : String) (ey : Int)
    (now : Nat) (l : Option MarkDoc) (d : MarkDoc) :
    matchesKey sid cid et ey (preSave (stampUpdatedAt now l d)) = matchesKey sid cid et ey d := by
  rw [preSave_stampUpdatedAt]
  rfl

theorem matchesKey_other (sid sid' cid : ObjectId) (et : String) (ey : Int) (d : MarkDoc)
    (hne : sid ≠ sid') (h : matchesKey sid cid et ey d = true) :
    matchesKey sid' cid et ey d = false := by
  simp only [matchesKey, Bool.and_eq_true, decide_eq_true_eq] at h
  simp only [matchesKey, Bool.and_eq_false_iff, decide_eq_false_iff_not]
  left
  rw [h.1]
  exact hne

theorem create_of_findOne_none (s : Store) (sid cid : ObjectId) (et : String) (ey : Int)
    (subjects : List SubjectMark) (user : ObjectId)
    (now : Nat) (h : findOne s (matchesKey sid cid et ey) = none) :
    create s now (newMark sid cid et ey subjects user)
      = .ok (s ++ [preSave (stampCreated now (newMark sid cid et ey subjects user))]) := by
  rw [findOne_eq_none] at h
  have hany : s.any (matchesKey sid cid et ey) = false := by
    rw [List.any_eq_false]
    intro x hx
    simp [h x hx]
  simp [create, newMark, hany]

theorem bulkIteration_skip (f : Faults) (user cid : ObjectId) (et : String) (ey : Int)
    (i : Nat) (st : BulkState) (entry : BulkEntry) (h : entry.studentId = none) :
    bulkIteration f user cid et ey i st entry = st := by
  simp [bulkIteration, h]

theorem bulkIteration_clean (f : Faults) (user cid : ObjectId) (et : String) (ey : Int)
    (i : Nat) (st : BulkState) (entry : BulkEntry) (sid : ObjectId)
    (h : entry.studentId = some sid) (hl : f.lookup i = none) (hw : f.write i = none) :
    (bulkIteration f user cid et ey i st entry).savedCount = st.savedCount + 1 ∧
    (bulkIteration f user cid et ey i st entry).errors = st.errors ∧
    ∃ pl m, findOne (bulkIteration f user cid et ey i st entry).store
        (matchesKey sid cid et ey) = some (pl, m) ∧
      m.subjects = (entry.subjects.getD []).map derivedSubject ∧
      recordDerived m = recordDerived (preSave (newMark sid cid et ey
        (entry.subjects.getD []) user)) := by
  cases hf : findOne st.store (matchesKey sid cid et ey) with
  | some r =>
    obtain ⟨pl, existing⟩ := r
    have hk : matchesKey sid cid et ey existing = true := ((findOne_eq_some _ _ _ _).mp hf).2.1
    have hrun : bulkIteration f user cid et ey i st entry
        = { st with
            store := save st.store (f.now i) pl
              { existing with subjects := entry.subjects.getD [], updatedBy := some user }
            savedCount := st.savedCount + 1 } := by
      simp [bulkIteration, h, hl, hw, hf]
    rw [hrun]
    refine ⟨rfl, rfl, pl, _, findOne_set_same _ _ pl existing _ hf ?_, ?_, ?_⟩
    · rw [matchesKey_stampUpdatedAt]
      exact hk
    · rw [preSave_stampUpdatedAt]
      show (preSave _).subjects = _
      rw [preSave_subjects]
    · rw [preSave_stampUpdatedAt]
      simp [recordDerived, preSave, newMark]
  | none =>
    have hrun : bulkIteration f user cid et ey i st entry
        = { st with
            store := st.store ++ [preSave (stampCreated (f.now i)
              (newMark sid cid et ey (entry.subjects.getD []) user))]
            savedCount := st.savedCount + 1 } := by
      simp [bulkIteration, h, hl, hw, hf, create_of_findOne_none _ _ _ _ _ _ _ _ hf]
    rw [hrun]
    refine ⟨rfl, rfl, st.store.length, _,
      findOne_append_new _ _ _ hf (matchesKey_created _ _ _ _ _ _ _), ?_, rfl⟩
    rw [preSave_subjects]
    rfl

theorem bulkIteration_fault (f : Faults) (user cid : ObjectId) (et : String) (ey : Int)
    (i : Nat) (st : BulkState) (entry : BulkEntry) (sid : ObjectId)
    (h : entry.studentId = some sid) (hf : f.lookup i ≠ none ∨ f.write i ≠ none) :
    (bulkIteration f user cid et ey i st entry).store = st.store ∧
    (bulkIteration f user cid et ey i st entry).savedCount = st.savedCount ∧
    ∃ msg, (bulkIteration f user cid et ey i st entry).errors = st.errors ++ [(sid, msg)] := by
  cases hl : f.lookup i with
  | some msg =>
    have hrun : bulkIteration f user cid et ey i st entry
        = { st with errors := st.errors ++ [(sid, msg)] } := by
      simp [bulkIteration, h, hl]
    rw [hrun]
    exact ⟨rfl, rfl, msg, rfl⟩
  | none =>
    cases hw : f.write i with
    | none =>
      rcases hf with hf | hf
      · exact absurd hl hf
      · exact absurd hw hf
    | some msg =>
      have hrun : bulkIteration f user cid et ey i st entry
          = { st with errors := st.errors ++ [(sid, msg)] } := by
        unfold bulkIteration
        simp only [h, hl, hw]
        cases findOne st.store (matchesKey sid cid et ey) with
        | none => rfl
        | some r => rfl
      rw [hrun]
      exact ⟨rfl, rfl, msg, rfl⟩

theorem bulkIteration_store (f : Faults) (user cid : ObjectId) (et : String) (ey : Int)
    (i : Nat) (st : BulkState) (entry : BulkEntry) (sid : ObjectId)
    (h : entry.studentId = some sid) :
    (bulkIteration f user cid et ey i st entry).store = st.store ∨
    (∃ pl existing, findOne st.store (matchesKey sid cid et ey) = some (pl, existing) ∧
      (bulkIteration f user cid et ey i st entry).store
        = save st.store (f.now i) pl
            { existing with subjects := entry.subjects.getD [], updatedBy := some user }) ∨
    (findOne st.store (matchesKey sid cid et ey) = none ∧
      (bulkIteration f user cid et ey i st entry).store
        = st.store ++ [preSave (stampCreated (f.now i)
            (newMark sid cid et ey (entry.subjects.getD []) user))]) := by
  by_cases hc : f.lookup i = none ∧ f.write i = none
  · obtain ⟨hl, hw⟩ := hc
    cases hf : findOne st.store (matchesKey sid cid et ey) with
    | some r =>
      obtain ⟨pl, existing⟩ := r
      right; left
      exact ⟨pl, existing, rfl, by simp [bulkIteration, h, hl, hw, hf]⟩
    | none =>
      right; right
      exact ⟨rfl, by
        simp [bulkIteration, h, hl, hw, hf, create_of_findOne_none _ _ _ _ _ _ _ _ hf]⟩
  · left
    have hf : f.lookup i ≠ none ∨ f.write i ≠ none := by
      by_contra hcon
      push_neg at hcon
      exact hc hcon
    exact (bulkIteration_fault f user cid et ey i st entry sid h hf).1

theorem bulkIteration_other (f : Faults) (user cid : ObjectId) (et : String) (ey : Int)
    (i : Nat) (st : BulkState) (entry : BulkEntry) (sid' : ObjectId)
    (h : entry.studentId ≠ some sid') :
    findOne (bulkIteration f user cid et ey i st entry).store (matchesKey sid' cid et ey)
      = findOne st.store (matchesKey sid' cid et ey) := by
  cases hs : entry.studentId with
  | none => rw [bulkIteration_skip _ _ _ _ _ _ _ _ hs]
  | some sid =>
    have hne : sid ≠ sid' := by
      intro he
      rw [hs, he] at h
      exact h rfl
    rcases bulkIteration_store f user cid et ey i st entry sid hs with
      hst | ⟨pl, existing, hf, hst⟩ | ⟨hf, hst⟩
    · rw [hst]
    · rw [hst]
      obtain ⟨hget, hk, _⟩ := (findOne_eq_some _ _ _ _).mp hf
      apply findOne_set_other
      · rw [matchesKey_stampUpdatedAt]
        exact matchesKey_other sid sid' cid et ey _ hne hk
      · intro x hx
        rw [hget] at hx
        simp only [Option.some.injEq] at hx
        rw [← hx]
        exact matchesKey_other sid sid' cid et ey _ hne hk
    · rw [hst]
      apply findOne_append_other
      exact matchesKey_other sid sid' cid et ey _ hne (matchesKey_created _ _ _ _ _ _ _)

theorem bulkIteration_count (f : Faults) (user cid : ObjectId) (et : String) (ey : Int)
    (i : Nat) (st : BulkState) (entry : BulkEntry) :
    (bulkIteration f user cid et ey i st entry).savedCount
        + (bulkIteration f user cid et ey i st entry).errors.length
      = st.savedCount + st.errors.length + (if entry.studentId.isSome then 1 else 0) := by
  cases hs : entry.studentId with
  | none => simp [bulkIteration_skip _ _ _ _ _ _ _ _ hs]
  | some sid =>
    by_cases hc : f.lookup i = none ∧ f.write i = none
    · obtain ⟨h1, h2, _⟩ := bulkIteration_clean f user cid et ey i st entry sid hs hc.1 hc.2
      rw [h1, h2]
      simp
      omega
    · have hf : f.lookup i ≠ none ∨ f.write i ≠ none := by
        by_contra hcon
        push_neg at hcon
        exact hc hcon
      obtain ⟨_, h2, msg, h3⟩ := bulkIteration_fault f user cid et ey i st entry sid hs hf
      rw [h2, h3]
      simp
      omega

theorem objectLoop_nil (f : Faults) (user cid : ObjectId) (et : String) (ey : Int)
    (i : Nat) (st : BulkState) :
    objectLoop f user cid et ey i st [] = st := rfl

theorem objectLoop_cons (f : Faults) (user cid : ObjectId) (et : String) (ey : Int)
    (i : Nat) (st : BulkState) (entry : BulkEntry) (rest : List BulkEntry) :
    objectLoop f user cid et ey i st (entry :: rest)
      = objectLoop f user cid et ey (i + 1) (bulkIteration f user cid et ey i st entry) rest :=
  rfl

theorem bulkLoop_map_some (f : Faults) (user cid : ObjectId) (et : String) (ey : Int)
    (i : Nat) (st : BulkState) (entries : List BulkEntry) :
    bulkLoop f user cid et ey i st (entries.map some)
      = (objectLoop f user cid et ey i st entries, none) := by
  induction entries generalizing i st with
  | nil => rfl
  | cons entry rest ih =>
    rw [objectLoop_cons, ← ih]
    rfl

theorem bulkLoop_null (f : Faults) (user cid : ObjectId) (et : String) (ey : Int)
    (i : Nat) (st : BulkState) (before : List BulkEntry) (rest : List (Option BulkEntry)) :
    bulkLoop f user cid et ey i st (before.map some ++ none :: rest)
      = (objectLoop f user cid et ey i st before, some nullEntryMessage) := by
  induction before generalizing i st with
  | nil => rfl
  | cons entry more ih =>
    rw [objectLoop_cons, ← ih]
    rfl

theorem objectLoop_count (f : Faults) (user cid : ObjectId) (et : String) (ey : Int)
    (i : Nat) (st : BulkState) (entries : List BulkEntry) :
    (objectLoop f user cid et ey i st entries).savedCount
        + (objectLoop f user cid et ey i st entries).errors.length
      = st.savedCount + st.errors.length
        + entries.countP (fun e => e.studentId.isSome) := by
  induction entries generalizing i st with
  | nil => simp [objectLoop_nil]
  | cons entry rest ih =>
    simp only [objectLoop_cons]
    rw [ih, bulkIteration_count, List.countP_cons]
    omega

theorem objectLoop_append (f : Faults) (user cid : ObjectId) (et : String) (ey : Int)
    (i : Nat) (st : BulkState) (l₁ l₂ : List BulkEntry) :
    objectLoop f user cid et ey i st (l₁ ++ l₂)
      = objectLoop f user cid et ey (i + l₁.length) (objectLoop f user cid et ey i st l₁) l₂ := by
  induction l₁ generalizing i st with
  | nil => simp [objectLoop_nil]
  | cons entry rest ih =>
    rw [List.cons_append]
    simp only [objectLoop_cons, List.length_cons]
    rw [ih, show i + 1 + rest.length = i + (rest.length + 1) by omega]

theorem objectLoop_clean (f : Faults) (user cid : ObjectId) (et : String) (ey : Int)
    (i : Nat) (st : BulkState) (entries : List BulkEntry)
    (hids : ∀ e ∈ entries, e.studentId ≠ none)
    (hclean : ∀ j, j < entries.length → f.lookup (i + j) = none ∧ f.write (i + j) = none) :
    (objectLoop f user cid et ey i st entries).savedCount = st.savedCount + entries.length ∧
    (objectLoop f user cid et ey i st entries).errors = st.errors := by
  induction entries generalizing i st with
  | nil => simp [objectLoop_nil]
  | cons entry rest ih =>
    simp only [objectLoop_cons]
    obtain ⟨sid, hs⟩ := Option.ne_none_iff_exists'.mp (hids entry (List.mem_cons_self _ _))
    have h0 := hclean 0 (by simp)
    obtain ⟨h1, h2, _⟩ := bulkIteration_clean f user cid et ey i st entry sid hs h0.1 h0.2
    obtain ⟨ih1, ih2⟩ := ih (i + 1) (bulkIteration f user cid et ey i st entry)
      (fun e he => hids e (List.mem_cons_of_mem _ he))
      (by
        intro j hj
        have := hclean (j + 1) (by simpa using hj)
        rwa [show i + (j + 1) = i + 1 + j by omega] at this)
    rw [ih1, ih2, h1, h2]
    exact ⟨by simp only [List.length_cons]; omega, rfl⟩

theorem bulkIteration_mono (f : Faults) (user cid : ObjectId) (et : String) (ey : Int)
    (i : Nat) (st : BulkState) (entry : BulkEntry) (sid' : ObjectId)
    (h : (findOne st.store (matchesKey sid' cid et ey)).isSome = true) :
    (findOne (bulkIteration f user cid et ey i st entry).store
      (matchesKey sid' cid et ey)).isSome = true := by
  by_cases hs : entry.studentId = some sid'
  · rcases bulkIteration_store f user cid et ey i st entry sid' hs with
      hst | ⟨pl, existing, hf, hst⟩ | ⟨hf, hst⟩
    · rw [hst]
      exact h
    · rw [hst, save, findOne_set_same _ _ pl existing _ hf
        (by rw [matchesKey_stampUpdatedAt]; exact ((findOne_eq_some _ _ _ _).mp hf).2.1)]
      rfl
    · rw [hf] at h
      exact absurd h (by simp)
  · rw [bulkIteration_other f user cid et ey i st entry sid' hs]
    exact h

theorem objectLoop_mono (f : Faults) (user cid : ObjectId) (et : String) (ey : Int)
    (i : Nat) (st : BulkState) (entries : List BulkEntry) (sid' : ObjectId)
    (h : (findOne st.store (matchesKey sid' cid et ey)).isSome = true) :
    (findOne (objectLoop f user cid et ey i st entries).store
      (matchesKey sid' cid et ey)).isSome = true := by
  induction entries generalizing i st with
  | nil => exact h
  | cons entry rest ih =>
    simp only [objectLoop_cons]
    exact ih _ _ (bulkIteration_mono f user cid et ey i st entry sid' h)

theorem objectLoop_present (f : Faults) (user cid : ObjectId) (et : String) (ey : Int)
    (i : Nat) (st : BulkState) (entries : List BulkEntry) (idx : Nat) (e : BulkEntry)
    (sid : ObjectId) (he : entries[idx]? = some e) (hs : e.studentId = some sid)
    (hl : f.lookup (i + idx) = none) (hw : f.write (i + idx) = none) :
    (findOne (objectLoop f user cid et ey i st entries).store
      (matchesKey sid cid et ey)).isSome = true := by
  induction entries generalizing i st idx with
  | nil => simp at he
  | cons entry rest ih =>
    simp only [objectLoop_cons]
    cases idx with
    | zero =>
      simp only [List.getElem?_cons_zero, Option.some.injEq] at he
      subst he
      obtain ⟨_, _, pl, m, hf, _⟩ := bulkIteration_clean f user cid et ey i st entry sid hs
        (by simpa using hl) (by simpa using hw)
      apply objectLoop_mono
      rw [hf]
      rfl
    | succ idx =>
      simp only [List.getElem?_cons_succ] at he
      exact ih (i + 1) _ idx he
        (by rwa [show i + 1 + idx = i + (idx + 1) by omega])
        (by rwa [show i + 1 + idx = i + (idx + 1) by omega])

theorem objectLoop_keep (f : Faults) (user cid : ObjectId) (et : String) (ey : Int)
    (i : Nat) (st : BulkState) (entries : List BulkEntry) (sid : ObjectId)
    (h : ∀ j e, entries[j]? = some e → e.studentId = some sid →
      f.lookup (i + j) ≠ none ∨ f.write (i + j) ≠ none) :
    findOne (objectLoop f user cid et ey i st entries).store (matchesKey sid cid et ey)
      = findOne st.store (matchesKey sid cid et ey) := by
  induction entries generalizing i st with
  | nil => rfl
  | cons entry rest ih =>
    simp only [objectLoop_cons]
    rw [ih (i + 1) _ (by
      intro j e he hs
      have := h (j + 1) e (by simpa using he) hs
      rwa [show i + (j + 1) = i + 1 + j by omega] at this)]
    by_cases hs : entry.studentId = some sid
    · have := h 0 entry (by simp) hs
      rw [(bulkIteration_fault f user cid et ey i st entry sid hs (by simpa using this)).1]
    · exact bulkIteration_other f user cid et ey i st entry sid hs

theorem objectLoop_persist (f : Faults) (user cid : ObjectId) (et : String) (ey : Int)
    (i : Nat) (st : BulkState) (entries : List BulkEntry) (idx : Nat) (e : BulkEntry)
    (sid : ObjectId) (he : entries[idx]? = some e) (hs : e.studentId = some sid)
    (hl : f.lookup (i + idx) = none) (hw : f.write (i + idx) = none)
    (hlater : ∀ j e', idx < j → entries[j]? = some e' → e'.studentId = some sid →
      f.lookup (i + j) ≠ none ∨ f.write (i + j) ≠ none) :
    ∃ pl m, findOne (objectLoop f user cid et ey i st entries).store
        (matchesKey sid cid et ey) = some (pl, m) ∧
      m.subjects = (e.subjects.getD []).map derivedSubject ∧
      recordDerived m = recordDerived (preSave (newMark sid cid et ey
        (e.subjects.getD []) user)) := by
  induction entries generalizing i st idx with
  | nil => simp at he
  | cons entry rest ih =>
    simp only [objectLoop_cons]
    cases idx with
    | zero =>
      simp only [List.getElem?_cons_zero, Option.some.injEq] at he
      subst he
      obtain ⟨_, _, pl, m, hf, hsub, hder⟩ := bulkIteration_clean f user cid et ey i st entry
        sid hs (by simpa using hl) (by simpa using hw)
      refine ⟨pl, m, ?_, hsub, hder⟩
      rw [objectLoop_keep f user cid et ey (i + 1) _ rest sid (by
        intro j e' he' hs'
        have := hlater (j + 1) e' (by omega) (by simpa using he') hs'
        rwa [show i + (j + 1) = i + 1 + j by omega] at this)]
      exact hf
    | succ idx =>
      simp only [List.getElem?_cons_succ] at he
      exact ih (i + 1) _ idx he
        (by rwa [show i + 1 + idx = i + (idx + 1) by omega])
        (by rwa [show i + 1 + idx = i + (idx + 1) by omega])
        (by
          intro j e' hj he' hs'
          have := hlater (j + 1) e' (by omega) (by simpa using he') hs'
          rwa [show i + (j + 1) = i + 1 + j by omega] at this)

theorem saveBulkMarks_run (s : Store) (f : Faults) (user cid : ObjectId) (et : String)
    (ey : Int) (entries : List BulkEntry) (het : et ≠ "") (hey : ey ≠ 0) :
    saveBulkMarks s f user (some cid) (some et) (some ey) (some (entries.map some))
      = ((objectLoop f user cid et ey 0
            { store := s, savedCount := 0, errors := [] } entries).store,
         .bulkSaved
           (objectLoop f user cid et ey 0
              { store := s, savedCount := 0, errors := [] } entries).savedCount
           (objectLoop f user cid et ey 0
              { store := s, savedCount := 0, errors := [] } entries).errors) := by
  simp [saveBulkMarks, truthyString, truthyYear, het, hey, bulkLoop_map_some]

theorem objectLoop_noFaults_index (user cid : ObjectId) (et : String) (ey : Int)
    (i j : Nat) (st : BulkState) (entries : List BulkEntry) :
    objectLoop noFaults user cid et ey i st entries
      = objectLoop noFaults user cid et ey j st entries := by
  induction entries generalizing i j st with
  | nil => rfl
  | cons entry rest ih =>
    simp only [objectLoop_cons]
    have h : bulkIteration noFaults user cid et ey i st entry
        = bulkIteration noFaults user cid et ey j st entry := by
      simp [bulkIteration, noFaults]
    rw [h]
    exact ih (i + 1) (j + 1) _

theorem objectLoop_noFaults_filter (user cid : ObjectId) (et : String) (ey : Int)
    (i : Nat) (st : BulkState) (entries : List BulkEntry) :
    objectLoop noFaults user cid et ey i st (entries.filter (fun e => e.studentId.isSome))
      = objectLoop noFaults user cid et ey i st entries := by
  induction entries generalizing i st with
  | nil => rfl
  | cons entry rest ih =>
    cases hs : entry.studentId with
    | none =>
      rw [List.filter_cons_of_neg (by simp [hs])]
      simp only [objectLoop_cons]
      rw [bulkIteration_skip _ _ _ _ _ _ _ _ hs, ih,
        objectLoop_noFaults_index user cid et ey i (i + 1)]
    | some sid =>
      rw [List.filter_cons_of_pos (by simp [hs])]
      simp only [objectLoop_cons]
      rw [ih]

/-! ## Bulk save -/

/-- C17: in a valid `saveBulkMarks` request whose N entries all have a
studentId, when a store call throws for entry k and for no other entry, the
answer is a 200 with savedCount N-1 and an errors list of one element that
carries the studentId of entry k; every other entry, before or after k, has
a record under its key in the store, and when no later entry other than k
names the same student that record holds the entry's subjects as the hook
aggregates them. -/
theorem saveBulkMarks_isolates_failure (s : Store) (f : Faults) (user cid : ObjectId)
    (et : String) (ey : Int) (entries : List BulkEntry) (k : Nat)
    (het : et ≠ "") (hey : ey ≠ 0)
    (hids : ∀ e ∈ entries, e.studentId ≠ none)
    (hk : k < entries.length)
    (hfail : f.lookup k ≠ none ∨ f.write k ≠ none)
    (hothers : ∀ j, j < entries.length → j ≠ k → f.lookup j = none ∧ f.write j = none) :
    ∃ sidk msg,
      (entries[k]?.bind BulkEntry.studentId) = some sidk ∧
      (saveBulkMarks s f user (some cid) (some et) (some ey) (some (entries.map some))).2
        = .bulkSaved (entries.length - 1) [(sidk, msg)] ∧
      (saveBulkMarks s f user (some cid) (some et) (some ey) (some (entries.map some))).2.status = 200 ∧
      ∀ idx e sid, idx ≠ k → entries[idx]? = some e → e.studentId = some sid →
        (findOne (saveBulkMarks s f user (some cid) (some et) (some ey) (some (entries.map some))).1
          (matchesKey sid cid et ey)).isSome = true ∧
        ((∀ j e', idx < j → j ≠ k → entries[j]? = some e' → e'.studentId ≠ some sid) →
          ∃ pl m,
            findOne (saveBulkMarks s f user (some cid) (some et) (some ey) (some (entries.map some))).1
              (matchesKey sid cid et ey) = some (pl, m) ∧
            m.subjects = (e.subjects.getD []).map derivedSubject ∧
            recordDerived m = recordDerived (preSave (newMark sid cid et ey
              (e.subjects.getD []) user))) := by
  rw [saveBulkMarks_run s f user cid et ey entries het hey]
  obtain ⟨sidk, hsidk⟩ := Option.ne_none_iff_exists'.mp (hids entries[k] (List.getElem_mem hk))
  have hsplit : entries = entries.take k ++ entries[k] :: entries.drop (k + 1) := by
    rw [← List.drop_eq_getElem_cons hk, List.take_append_drop]
  have hlenTake : (entries.take k).length = k := by
    rw [List.length_take]
    omega
  -- the entries before k
  obtain ⟨hc1, he1⟩ := objectLoop_clean f user cid et ey 0
    { store := s, savedCount := 0, errors := [] } (entries.take k)
    (fun e he => hids e (List.mem_of_mem_take he))
    (by
      intro j hj
      rw [hlenTake] at hj
      rw [Nat.zero_add]
      exact hothers j (by omega) (by omega))
  -- entry k
  obtain ⟨_, hck, msg, hek⟩ := bulkIteration_fault f user cid et ey k
    (objectLoop f user cid et ey 0 { store := s, savedCount := 0, errors := [] } (entries.take k))
    entries[k] sidk hsidk hfail
  -- the entries after k
  obtain ⟨hc2, he2⟩ := objectLoop_clean f user cid et ey (k + 1)
    (bulkIteration f user cid et ey k
      (objectLoop f user cid et ey 0 { store := s, savedCount := 0, errors := [] }
        (entries.take k)) entries[k])
    (entries.drop (k + 1))
    (fun e he => hids e (List.mem_of_mem_drop he))
    (by
      intro j hj
      rw [List.length_drop] at hj
      exact hothers (k + 1 + j) (by omega) (by omega))
  have hloop : objectLoop f user cid et ey 0 { store := s, savedCount := 0, errors := [] } entries
      = objectLoop f user cid et ey (k + 1)
          (bulkIteration f user cid et ey k
            (objectLoop f user cid et ey 0 { store := s, savedCount := 0, errors := [] }
              (entries.take k)) entries[k])
          (entries.drop (k + 1)) := by
    conv_lhs => rw [hsplit]
    rw [objectLoop_append, hlenTake, Nat.zero_add]
    rfl
  refine ⟨sidk, msg, ?_, ?_, rfl, ?_⟩
  · rw [List.getElem?_eq_getElem hk]
    exact hsidk
  · rw [hloop, hc2, he2, hck, hek, hc1, he1, hlenTake, List.length_drop]
    simp only [List.nil_append, Nat.zero_add]
    congr 1
    omega
  · intro idx e sid hidx he hs
    have hidxlt : idx < entries.length := by
      by_contra hge
      rw [List.getElem?_eq_none (not_lt.mp hge)] at he
      exact absurd he (by simp)
    obtain ⟨hl, hw⟩ := hothers idx hidxlt hidx
    refine ⟨objectLoop_present f user cid et ey 0 _ entries idx e sid he hs
      (by rwa [Nat.zero_add]) (by rwa [Nat.zero_add]), ?_⟩
    intro hlater
    refine objectLoop_persist f user cid et ey 0 _ entries idx e sid he hs
      (by rwa [Nat.zero_add]) (by rwa [Nat.zero_add]) ?_
    intro j e' hj he' hs'
    rw [Nat.zero_add]
    by_cases hjk : j = k
    · rw [hjk]
      exact hfail
    · exact absurd hs' (hlater j e' hj hjk he')

/-- C18, as the claim states it, fails: `null` is an element of `marksData`
without studentId, and it is not skipped: on the batch of a `null` followed by
a row for student 1 the request answers 500, so there is no savedCount and no
errors list, and the row behind the `null` is not saved, while the row alone
is saved. -/
theorem saveBulkMarks_null_entry_fails :
    saveBulkMarks [] noFaults 99 (some 7) (some "annual") (some 2024) (some nullFirstBatch)
      = ([], .serverError nullEntryMessage) ∧
    (saveBulkMarks [] noFaults 99 (some 7) (some "annual") (some 2024)
        (some nullFirstBatch)).2.status = 500 ∧
    (∀ savedCount errors,
      (saveBulkMarks [] noFaults 99 (some 7) (some "annual") (some 2024)
        (some nullFirstBatch)).2 ≠ .bulkSaved savedCount errors) ∧
    (saveBulkMarks [] noFaults 99 (some 7) (some "annual") (some 2024)
        (some (nullFirstBatch.drop 1))).2 = .bulkSaved 1 [] ∧
    (saveBulkMarks [] noFaults 99 (some 7) (some "annual") (some 2024)
        (some (nullFirstBatch.drop 1))).1.length = 1 := by
  have h : saveBulkMarks [] noFaults 99 (some 7) (some "annual") (some 2024)
      (some nullFirstBatch) = ([], .serverError nullEntryMessage) := by
    simp [saveBulkMarks, truthyString, truthyYear, nullFirstBatch, bulkLoop]
  refine ⟨h, by rw [h]; rfl, by rw [h]; intro _ _ hc; exact absurd hc (by simp), ?_, ?_⟩ <;>
    simp [saveBulkMarks, truthyString, truthyYear, nullFirstBatch, bulkLoop,
      bulkIteration, noFaults, findOne, List.enum, List.enumFrom, create]

/-- C18, amended: in `saveBulkMarks` an entry that is not `null` and has no
studentId leaves the store, the count and the errors as they were, whichever
store calls would throw: none is made; in every valid request without a
`null` element savedCount plus the number of errors is the number of entries
that have a studentId, and dropping the entries without studentId from such a
batch changes neither the store nor the answer. A `null` element ends the
request with a 500 answer: the entries before it are processed as if the
batch ended there, the entries after it are not processed. -/
theorem saveBulkMarks_skips_missing_studentId (s : Store) (f : Faults) (user cid : ObjectId)
    (et : String) (ey : Int) (entries : List BulkEntry) (rest : List (Option BulkEntry))
    (het : et ≠ "") (hey : ey ≠ 0) :
    (∀ (i : Nat) (st : BulkState) (entry : BulkEntry), entry.studentId = none →
      bulkIteration f user cid et ey i st entry = st) ∧
    (∃ savedCount errors,
      (saveBulkMarks s f user (some cid) (some et) (some ey) (some (entries.map some))).2
        = .bulkSaved savedCount errors ∧
      savedCount + errors.length = entries.countP (fun e => e.studentId.isSome)) ∧
    saveBulkMarks s noFaults user (some cid) (some et) (some ey)
        (some ((entries.filter (fun e => e.studentId.isSome)).map some))
      = saveBulkMarks s noFaults user (some cid) (some et) (some ey)
          (some (entries.map some)) ∧
    (saveBulkMarks s f user (some cid) (some et) (some ey)
        (some (entries.map some ++ none :: rest))).2 = .serverError nullEntryMessage ∧
    (saveBulkMarks s f user (some cid) (some et) (some ey)
        (some (entries.map some ++ none :: rest))).2.status = 500 ∧
    (saveBulkMarks s f user (some cid) (some et) (some ey)
        (some (entries.map some ++ none :: rest))).1
      = (saveBulkMarks s f user (some cid) (some et) (some ey)
          (some (entries.map some))).1 := by
  have hnull : saveBulkMarks s f user (some cid) (some et) (some ey)
      (some (entries.map some ++ none :: rest))
      = ((objectLoop f user cid et ey 0
            { store := s, savedCount := 0, errors := [] } entries).store,
         .serverError nullEntryMessage) := by
    simp [saveBulkMarks, truthyString, truthyYear, het, hey, bulkLoop_null]
  refine ⟨fun i st entry h => bulkIteration_skip f user cid et ey i st entry h, ?_, ?_, ?_, ?_,
    ?_⟩
  · rw [saveBulkMarks_run s f user cid et ey entries het hey]
    refine ⟨_, _, rfl, ?_⟩
    have := objectLoop_count f user cid et ey 0
      { store := s, savedCount := 0, errors := [] } entries
    simpa using this
  · rw [saveBulkMarks_run s noFaults user cid et ey entries het hey,
      saveBulkMarks_run s noFaults user cid et ey _ het hey, objectLoop_noFaults_filter]
  · rw [hnull]
  · rw [hnull]
    rfl
  · rw [hnull, saveBulkMarks_run s f user cid et ey entries het hey]

/-! ## Uniqueness of the key: helper lemmas -/

theorem matchesKey_iff (sid cid : ObjectId) (et : String) (ey : Int) (m : MarkDoc) :
    matchesKey sid cid et ey m = true ↔ markKey m = (sid, cid, et, ey) := by
  simp [matchesKey, matchesCohort, markKey, and_assoc]

theorem map_markKey_set (s : Store) (pl : Nat) (d : MarkDoc)
    (h : ∀ x, s[pl]? = some x → markKey d = markKey x) :
    (s.set pl d).map markKey = s.map markKey := by
  apply List.ext_getElem?
  intro n
  by_cases hn : pl = n
  · subst hn
    simp only [List.getElem?_map, List.getElem?_set]
    by_cases hlt : pl < s.length
    · simp only [hlt, if_true]
      have hx : s[pl]? = some s[pl] := List.getElem?_eq_getElem hlt
      rw [hx]
      simp [h _ hx]
    · simp [hlt, List.getElem?_eq_none (not_lt.mp hlt)]
  · simp [List.getElem?_set_ne hn]

theorem markKey_stampUpdatedAt (now : Nat) (l : Option MarkDoc) (d : MarkDoc) :
    markKey (preSave (stampUpdatedAt now l d)) = markKey d := by
  rw [preSave_stampUpdatedAt]
  rfl

theorem keysUnique_save (s : Store) (now pl : Nat) (m d : MarkDoc)
    (hget : s[pl]? = some m) (hkey : markKey d = markKey m) (h : KeysUnique s) :
    KeysUnique (save s now pl d) := by
  unfold KeysUnique save
  rw [map_markKey_set]
  · exact h
  · intro x hx
    rw [hget] at hx
    simp only [Option.some.injEq] at hx
    rw [← hx, markKey_stampUpdatedAt]
    exact hkey

theorem keysUnique_create (s s' : Store) (now : Nat) (d : MarkDoc)
    (hc : create s now d = .ok s') (h : KeysUnique s) : KeysUnique s' := by
  unfold create at hc
  by_cases hany : s.any (matchesKey d.student d.«class» d.examType d.examYear) = true
  · simp [hany] at hc
  · simp only [hany, Bool.false_eq_true, if_false, Except.ok.injEq] at hc
    subst hc
    unfold KeysUnique
    rw [List.map_append, List.map_singleton]
    apply List.Nodup.append h (List.nodup_singleton _)
    intro k hk hk'
    rw [List.mem_singleton] at hk'
    subst hk'
    rw [List.mem_map] at hk
    obtain ⟨x, hx, hxk⟩ := hk
    apply hany
    rw [List.any_eq_true]
    exact ⟨x, hx, (matchesKey_iff _ _ _ _ x).mpr hxk⟩

theorem keysUnique_bulkIteration (f : Faults) (user cid : ObjectId) (et : String) (ey : Int)
    (i : Nat) (st : BulkState) (entry : BulkEntry) (h : KeysUnique st.store) :
    KeysUnique (bulkIteration f user cid et ey i st entry).store := by
  cases hs : entry.studentId with
  | none => rw [bulkIteration_skip _ _ _ _ _ _ _ _ hs]; exact h
  | some sid =>
    rcases bulkIteration_store f user cid et ey i st entry sid hs with
      hst | ⟨pl, existing, hf, hst⟩ | ⟨hf, hst⟩
    · rw [hst]; exact h
    · rw [hst]
      exact keysUnique_save _ _ pl existing _ ((findOne_eq_some _ _ _ _).mp hf).1 rfl h
    · rw [hst]
      exact keysUnique_create _ _ _ _ (create_of_findOne_none _ sid cid et ey _ user _ hf) h

theorem keysUnique_bulkLoop (f : Faults) (user cid : ObjectId) (et : String) (ey : Int)
    (i : Nat) (st : BulkState) (entries : List (Option BulkEntry))
    (h : KeysUnique st.store) :
    KeysUnique (bulkLoop f user cid et ey i st entries).1.store := by
  induction entries generalizing i st with
  | nil => exact h
  | cons entry rest ih =>
    cases entry with
    | none => exact h
    | some e =>
      simp only [bulkLoop]
      exact ih _ _ (keysUnique_bulkIteration f user cid et ey i st e h)

theorem keysUnique_saveBulkMarks (s : Store) (f : Faults) (user : ObjectId)
    (classId : Option ObjectId) (examType : Option String) (examYear : Option Int)
    (marksData : Option (List (Option BulkEntry))) (h : KeysUnique s) :
    KeysUnique (saveBulkMarks s f user classId examType examYear marksData).1 := by
  unfold saveBulkMarks
  split
  · next cid et ey entries _ _ =>
    have hk := keysUnique_bulkLoop f user cid et ey 0
      { store := s, savedCount := 0, errors := [] } entries h
    simp only
    split <;> exact hk
  · exact h

theorem saveMark_cases (s : Store) (f : Faults) (user : ObjectId)
    (studentId classId : Option ObjectId) (examType : Option String)
    (examYear : Option Int) (subjects : List SubjectMark) :
    (saveMark s f user studentId classId examType examYear subjects).1 = s ∨
    ∃ sid cid et ey,
      studentId = some sid ∧ classId = some cid ∧
      truthyString examType = some et ∧ truthyYear examYear = some ey ∧
      f.lookup 0 = none ∧ f.write 0 = none ∧
      ((∃ pl mark, findOne s (matchesKey sid cid et ey) = some (pl, mark) ∧
          (saveMark s f user studentId classId examType examYear subjects).1
            = save s (f.now 0) pl { mark with subjects := subjects, updatedBy := some user }) ∨
       (findOne s (matchesKey sid cid et ey) = none ∧
          (saveMark s f user studentId classId examType examYear subjects).1
            = s ++ [preSave (stampCreated (f.now 0)
                (newMark sid cid et ey subjects user))])) := by
  unfold saveMark
  cases studentId with
  | none => left; rfl
  | some sid =>
    cases classId with
    | none => left; rfl
    | some cid =>
      cases h1 : truthyString examType with
      | none => left; rfl
      | some et =>
        cases h2 : truthyYear examYear with
        | none => left; rfl
        | some ey =>
          simp only
          cases hl : f.lookup 0 with
          | some msg => left; rfl
          | none =>
            cases hw : f.write 0 with
            | some msg =>
              left
              cases hf : findOne s (matchesKey sid cid et ey) with
              | none => rfl
              | some r => rfl
            | none =>
              right
              refine ⟨sid, cid, et, ey, rfl, rfl, rfl, rfl, rfl, rfl, ?_⟩
              cases hf : findOne s (matchesKey sid cid et ey) with
              | some r =>
                obtain ⟨pl, mark⟩ := r
                left
                refine ⟨pl, mark, rfl, ?_⟩
                simp only
                cases f.lookup 1 <;> rfl
              | none =>
                right
                refine ⟨rfl, ?_⟩
                simp only [create_of_findOne_none _ sid cid et ey subjects user _ hf]
                cases f.lookup 1 <;> rfl

theorem keysUnique_saveMark (s : Store) (f : Faults) (user : ObjectId)
    (studentId classId : Option ObjectId) (examType : Option String)
    (examYear : Option Int) (subjects : List SubjectMark) (h : KeysUnique s) :
    KeysUnique (saveMark s f user studentId classId examType examYear subjects).1 := by
  rcases saveMark_cases s f user studentId classId examType examYear subjects with
    hs | ⟨sid, cid, et, ey, _, _, _, _, _, _, ⟨pl, mark, hf, hs⟩ | ⟨hf, hs⟩⟩
  · rw [hs]; exact h
  · rw [hs]
    exact keysUnique_save _ _ pl mark _ ((findOne_eq_some _ _ _ _).mp hf).1 rfl h
  · rw [hs]
    exact keysUnique_create _ _ _ _ (create_of_findOne_none _ sid cid et ey subjects user _ hf) h

theorem map_markKey_publishLoop (f : Faults) (clock : Nat → Nat) (s : Store)
    (ms : List (Nat × MarkDoc)) (i : Nat)
    (h : ∀ m ∈ ms, ∀ k, (s.map markKey)[m.1]? = some k → k = markKey m.2) :
    (publishLoop f clock s ms i).1.map markKey = s.map markKey := by
  induction ms generalizing s i with
  | nil => rfl
  | cons m rest ih =>
    unfold publishLoop
    cases hw : f.write i with
    | some msg => rfl
    | none =>
      simp only
      have hstep : (save s (f.now i) m.1 (stampPublished clock i m.2)).map markKey
          = s.map markKey := by
        unfold save
        apply map_markKey_set
        intro x hx
        have := h m (List.mem_cons_self _ _) (markKey x) (by simp [hx])
        rw [this, markKey_stampUpdatedAt]
        rfl
      rw [ih _ _ (by
        intro m' hm' k hk
        rw [hstep] at hk
        exact h m' (List.mem_cons_of_mem _ hm') k hk), hstep]

theorem map_markKey_publishMarks (s : Store) (f : Faults) (clock : Nat → Nat)
    (classId : ObjectId) (examType : String) (examYear : Int) :
    (publishMarks s f clock classId examType examYear).1.map markKey = s.map markKey := by
  unfold publishMarks
  cases hl : f.lookup 0 with
  | some msg => rfl
  | none =>
    simp only
    by_cases hz : (find s (matchesCohort classId examType examYear)).length = 0
    · simp [hz]
    · simp only [hz, if_false]
      have hkeys := map_markKey_publishLoop f clock s
        (sortByPercentage (find s (matchesCohort classId examType examYear))) 0
        (by
          intro m hm k hk
          have hm' := (mem_find s _ m).mp ((sortByPercentage_perm _).mem_iff.mp hm)
          rw [List.getElem?_map, hm'.1] at hk
          simpa using hk.symm)
      cases hr : (publishLoop f clock s
          (sortByPercentage (find s (matchesCohort classId examType examYear))) 0).2 with
      | some msg => simpa [hr] using hkeys
      | none => simpa [hr] using hkeys

theorem map_markKey_unpublishMarks (s : Store) (f : Faults)
    (classId : ObjectId) (examType : String) (examYear : Int) :
    (unpublishMarks s f classId examType examYear).1.map markKey = s.map markKey := by
  unfold unpublishMarks
  cases hw : f.write 0 with
  | some msg => rfl
  | none =>
    simp only [List.map_map]
    apply List.map_congr_left
    intro m _
    by_cases hc : matchesCohort classId examType examYear m = true
    · simp [hc, updateUnpublished, resetPublished, markKey]
    · simp [hc]

theorem keysUnique_deleteMark (s : Store) (f : Faults) (id : Nat) (h : KeysUnique s) :
    KeysUnique (deleteMark s f id).1 := by
  unfold deleteMark
  cases hw : f.write 0 with
  | some msg => exact h
  | none =>
    simp only
    by_cases hlt : id < s.length
    · simp only [hlt, if_true]
      exact h.sublist ((List.eraseIdx_sublist s id).map markKey)
    · simp only [hlt, if_false]
      exact h

theorem keysUnique_run (s : Store) (op : Op) (h : KeysUnique s) : KeysUnique (op.run s) := by
  cases op with
  | saveMark f user sid cid et ey subjects => exact keysUnique_saveMark s f user sid cid et ey subjects h
  | saveBulkMarks f user cid et ey entries => exact keysUnique_saveBulkMarks s f user cid et ey entries h
  | publishMarks f clock cid et ey =>
    unfold Op.run KeysUnique
    rw [map_markKey_publishMarks]
    exact h
  | unpublishMarks f cid et ey =>
    unfold Op.run KeysUnique
    rw [map_markKey_unpublishMarks]
    exact h
  | deleteMark f id => exact keysUnique_deleteMark s f id h

theorem keysUnique_runAll (s : Store) (ops : List Op) (h : KeysUnique s) :
    KeysUnique (runAll s ops) := by
  induction ops generalizing s with
  | nil => exact h
  | cons op rest ih => exact ih (op.run s) (keysUnique_run s op h)

theorem countP_matchesKey_le_one (s : Store) (sid cid : ObjectId) (et : String) (ey : Int)
    (h : KeysUnique s) : s.countP (matchesKey sid cid et ey) ≤ 1 := by
  induction s with
  | nil => simp
  | cons a rest ih =>
    unfold KeysUnique at h ih
    rw [List.map_cons, List.nodup_cons] at h
    rw [List.countP_cons]
    by_cases hp : matchesKey sid cid et ey a = true
    · have hz : rest.countP (matchesKey sid cid et ey) = 0 := by
        rw [List.countP_eq_zero]
        intro x hx hpx
        apply h.1
        rw [List.mem_map]
        exact ⟨x, hx, by rw [(matchesKey_iff _ _ _ _ x).mp hpx, (matchesKey_iff _ _ _ _ a).mp hp]⟩
      simp [hz, hp]
    · have := ih h.2
      simp [hp, this]

/-! ## Uniqueness of the key -/

/-- C13: every store reached from the empty store by requests to `saveMark`,
`saveBulkMarks`, `publishMarks`, `unpublishMarks` and `deleteMark`, whichever
of their store calls throw, holds at most one record per
(student, class, examType, examYear); a bulk batch that names the same
student twice leaves one record for that student, the second entry updating
what the first created. -/
theorem reachable_keys_unique (ops : List Op) :
    KeysUnique (runAll [] ops) ∧
    (∀ sid cid et ey, (runAll [] ops).countP (matchesKey sid cid et ey) ≤ 1) ∧
    (saveBulkMarks [] noFaults 99 (some 7) (some "annual") (some 2024)
        (some (repeatedStudentBatch.map some))).1.length = 1 ∧
    (saveBulkMarks [] noFaults 99 (some 7) (some "annual") (some 2024)
        (some (repeatedStudentBatch.map some))).2 = .bulkSaved 2 [] := by
  have h : KeysUnique (runAll [] ops) := keysUnique_runAll [] ops (by simp [KeysUnique])
  refine ⟨h, fun sid cid et ey => countP_matchesKey_le_one _ sid cid et ey h, ?_, ?_⟩
  · simp [saveBulkMarks, truthyString, truthyYear, repeatedStudentBatch, bulkLoop,
      bulkIteration, noFaults, findOne, List.enum, List.enumFrom, create, save,
      matchesKey, matchesCohort, newMark, preSave, stampCreated, stampUpdatedAt]
  · simp [saveBulkMarks, truthyString, truthyYear, repeatedStudentBatch, bulkLoop,
      bulkIteration, noFaults, findOne, List.enum, List.enumFrom, create, save,
      matchesKey, matchesCohort, newMark, preSave, stampCreated, stampUpdatedAt]

/-! ## Upsert -/

theorem saveMark_of_ok (s : Store) (f : Faults) (user sid cid : ObjectId) (et : String)
    (ey : Int) (subjects : List SubjectMark) (het : et ≠ "") (hey : ey ≠ 0)
    (hl : f.lookup 0 = none) (hw : f.write 0 = none) :
    (∃ pl mark, findOne s (matchesKey sid cid et ey) = some (pl, mark) ∧
        (saveMark s f user (some sid) (some cid) (some et) (some ey) subjects).1
          = save s (f.now 0) pl { mark with subjects := subjects, updatedBy := some user }) ∨
    (findOne s (matchesKey sid cid et ey) = none ∧
        (saveMark s f user (some sid) (some cid) (some et) (some ey) subjects).1
          = s ++ [preSave (stampCreated (f.now 0)
              (newMark sid cid et ey subjects user))]) := by
  cases hf : findOne s (matchesKey sid cid et ey) with
  | some r =>
    obtain ⟨pl, mark⟩ := r
    left
    refine ⟨pl, mark, rfl, ?_⟩
    simp only [saveMark, truthyString, truthyYear, het, hey, if_false, hl, hw, hf]
    cases f.lookup 1 <;> rfl
  | none =>
    right
    refine ⟨rfl, ?_⟩
    simp only [saveMark, truthyString, truthyYear, het, hey, if_false, hl, hw, hf,
      create_of_findOne_none _ sid cid et ey subjects user _ hf]
    cases f.lookup 1 <;> rfl

theorem saveMark_stored (s : Store) (f : Faults) (user sid cid : ObjectId) (et : String)
    (ey : Int) (subjects : List SubjectMark) (het : et ≠ "") (hey : ey ≠ 0)
    (hl : f.lookup 0 = none) (hw : f.write 0 = none) :
    ∃ pl m,
      findOne (saveMark s f user (some sid) (some cid) (some et) (some ey) subjects).1
        (matchesKey sid cid et ey) = some (pl, m) ∧
      m.subjects = subjects.map derivedSubject ∧
      recordDerived m = recordDerived (preSave (newMark sid cid et ey subjects user)) ∧
      ((findOne s (matchesKey sid cid et ey)).isSome = true →
        (saveMark s f user (some sid) (some cid) (some et) (some ey) subjects).1.length
          = s.length ∧
        ∃ old, findOne s (matchesKey sid cid et ey) = some (pl, old)) := by
  rcases saveMark_of_ok s f user sid cid et ey subjects het hey hl hw with
    ⟨pl, mark, hf, hs⟩ | ⟨hf, hs⟩
  · rw [hs]
    refine ⟨pl, _, findOne_set_same _ _ pl mark _ hf ?_, ?_, ?_, ?_⟩
    · rw [matchesKey_stampUpdatedAt]
      exact ((findOne_eq_some _ _ _ _).mp hf).2.1
    · rw [preSave_stampUpdatedAt]
      show (preSave _).subjects = _
      rw [preSave_subjects]
    · rw [preSave_stampUpdatedAt]
      simp [recordDerived, preSave, newMark]
    · intro _
      exact ⟨by simp [save], mark, hf⟩
  · rw [hs]
    refine ⟨s.length, _, findOne_append_new _ _ _ hf (matchesKey_created _ _ _ _ _ _ _), ?_,
      rfl, ?_⟩
    · rw [preSave_subjects]
      rfl
    · intro hsome
      rw [hf] at hsome
      exact absurd hsome (by simp)

/-- C14: `saveMark` is idempotent by key: on a store with unique keys, two
calls with the same valid arguments whose store calls do not throw leave
exactly one record for the key; the second call finds the record of the first
and updates it in place, the store keeps its size; and the record's subjects,
totalObtained, totalFullMarks, percentage, gpa and grade after the second
call are those after the first. -/
theorem saveMark_idempotent (s : Store) (f₁ f₂ : Faults) (user sid cid : ObjectId)
    (et : String) (ey : Int) (subjects : List SubjectMark)
    (hU : KeysUnique s) (het : et ≠ "") (hey : ey ≠ 0)
    (hl₁ : f₁.lookup 0 = none) (hw₁ : f₁.write 0 = none)
    (hl₂ : f₂.lookup 0 = none) (hw₂ : f₂.write 0 = none) :
    ((saveMark
        (saveMark s f₁ user (some sid) (some cid) (some et) (some ey) subjects).1
        f₂ user (some sid) (some cid) (some et) (some ey) subjects).1).countP
      (matchesKey sid cid et ey) = 1 ∧
    (saveMark
        (saveMark s f₁ user (some sid) (some cid) (some et) (some ey) subjects).1
        f₂ user (some sid) (some cid) (some et) (some ey) subjects).1.length
      = (saveMark s f₁ user (some sid) (some cid) (some et) (some ey) subjects).1.length ∧
    ∃ pl m₁ m₂,
      findOne (saveMark s f₁ user (some sid) (some cid) (some et) (some ey) subjects).1
        (matchesKey sid cid et ey) = some (pl, m₁) ∧
      findOne (saveMark
          (saveMark s f₁ user (some sid) (some cid) (some et) (some ey) subjects).1
          f₂ user (some sid) (some cid) (some et) (some ey) subjects).1
        (matchesKey sid cid et ey) = some (pl, m₂) ∧
      m₂.subjects = m₁.subjects ∧
      recordDerived m₂ = recordDerived m₁ := by
  obtain ⟨pl₁, m₁, hf₁, hs₁, hd₁, _⟩ :=
    saveMark_stored s f₁ user sid cid et ey subjects het hey hl₁ hw₁
  obtain ⟨pl₂, m₂, hf₂, hs₂, hd₂, hupd⟩ :=
    saveMark_stored (saveMark s f₁ user (some sid) (some cid) (some et) (some ey) subjects).1
      f₂ user sid cid et ey subjects het hey hl₂ hw₂
  obtain ⟨hlen, old, hold⟩ := hupd (by rw [hf₁]; rfl)
  have hpl : pl₂ = pl₁ := by
    rw [hf₁] at hold
    simp only [Option.some.injEq, Prod.mk.injEq] at hold
    exact hold.1.symm
  subst hpl
  refine ⟨?_, hlen, pl₂, m₁, m₂, hf₁, hf₂, by rw [hs₂, hs₁], by rw [hd₂, hd₁]⟩
  have hle := countP_matchesKey_le_one _ sid cid et ey
    (keysUnique_saveMark _ f₂ user (some sid) (some cid) (some et) (some ey) subjects
      (keysUnique_saveMark s f₁ user (some sid) (some cid) (some et) (some ey) subjects hU))
  have hpos : 0 < (saveMark
        (saveMark s f₁ user (some sid) (some cid) (some et) (some ey) subjects).1
        f₂ user (some sid) (some cid) (some et) (some ey) subjects).1.countP
      (matchesKey sid cid et ey) := by
    rw [List.countP_pos_iff]
    obtain ⟨hget, hp, _⟩ := (findOne_eq_some _ _ _ _).mp hf₂
    exact ⟨m₂, List.mem_iff_getElem?.mpr ⟨pl₂, hget⟩, hp⟩
  omega

/-! ## Witnesses for the store and the controllers -/

theorem rankingStore_cohort (student : ObjectId) (obtained : ℚ) :
    matchesCohort 7 "annual" 2024 (cohortDoc student obtained) = true := by
  simp [matchesCohort, cohortDoc, preSave, newMark]

theorem rankingStore_published (clock : Nat → Nat) :
    (publishMarks rankingStore noFaults clock 7 "annual" 2024).2 = .published 4 := by
  have hlen : (find rankingStore (matchesCohort 7 "annual" 2024)).length = 4 := by
    rw [← (sortByPercentage_perm _).length_eq, rankingStore_order]
    rfl
  have h := (publishMarks_of_ok rankingStore noFaults clock 7 "annual" 2024 rfl
    (by rw [hlen]; decide) (fun _ _ => rfl)).1
  rw [h, hlen]

/-- Witness of C11: the third record of the store with percentages 90, 90,
70, 50 after a successful publication. -/
theorem publishMarks_result_witness :
    ∃ k m',
      (publishMarks rankingStore noFaults (fun _ => 0) 7 "annual" 2024).1[2]? = some m' ∧
      m' = preSave (stampUpdatedAt (noFaults.now k) (some (cohortDoc 3 70))
        (stampPublished (fun _ => 0) k (cohortDoc 3 70))) ∧
      matchesCohort 7 "annual" 2024 m' = true ∧
      m'.isPublished = true ∧
      m'.subjects = (cohortDoc 3 70).subjects.map derivedSubject ∧
      (m'.result = "Fail" ↔ ∃ sub ∈ m'.subjects, sub.grade = "F") ∧
      (m'.result = "Pass" ↔ ¬ ∃ sub ∈ m'.subjects, sub.grade = "F") ∧
      (∀ sub ∈ m'.subjects, sub.isAbsent = true → sub.grade = "F") ∧
      (∀ g : String,
        (preSave (stampPublished (fun _ => 0) k { cohortDoc 3 70 with grade := g })).result
          = m'.result) :=
  publishMarks_result rankingStore noFaults (fun _ => 0) 7 "annual" 2024 4
    (rankingStore_published _) 2 (cohortDoc 3 70) rfl (rankingStore_cohort 3 70)

/-- Witness of C12: the store with percentages 90, 90, 70, 50. -/
theorem publishMarks_positions_witness :
    (publishMarks rankingStore noFaults (fun _ => 0) 7 "annual" 2024).2 = .published 4 ∧
    ((find rankingStore (matchesCohort 7 "annual" 2024)).map
        (fun c => positionAt
          (publishMarks rankingStore noFaults (fun _ => 0) 7 "annual" 2024).1 c.1)).Perm
      (List.range' 1 4) :=
  ⟨rankingStore_published _,
   (publishMarks_positions rankingStore noFaults (fun _ => 0) 7 "annual" 2024 4
      (rankingStore_published _)).2.1⟩

/-- Witness of C14: the same mark saved twice into the empty store. -/
theorem saveMark_idempotent_witness :
    ((saveMark
        (saveMark [] noFaults 99 (some 1) (some 7) (some "annual") (some 2024)
          [scoredSubject 85]).1
        noFaults 99 (some 1) (some 7) (some "annual") (some 2024)
          [scoredSubject 85]).1).countP
      (matchesKey 1 7 "annual" 2024) = 1 :=
  (saveMark_idempotent [] noFaults noFaults 99 1 7 "annual" 2024 [scoredSubject 85]
    (by simp [KeysUnique]) (by decide) (by decide) rfl rfl rfl rfl).1

/-- Witness of C17: a batch of three students into the empty store, the write
for the second one throwing. -/
theorem saveBulkMarks_isolates_failure_witness :
    ∃ sidk msg,
      (saveBulkMarks [] secondWriteFails 99 (some 7) (some "annual") (some 2024)
          (some (threeStudentBatch.map some))).2
        = .bulkSaved (threeStudentBatch.length - 1) [(sidk, msg)] :=
  let ⟨sidk, msg, _, h, _⟩ :=
    saveBulkMarks_isolates_failure [] secondWriteFails 99 7 "annual" 2024
      threeStudentBatch 1 (by decide) (by decide)
      (by simp [threeStudentBatch])
      (by simp [threeStudentBatch])
      (Or.inr (by simp [secondWriteFails]))
      (by
        intro j _ hj
        simp [secondWriteFails, hj])
  ⟨sidk, msg, h⟩

/-- Witness of C18: a batch whose second row has no studentId. -/
theorem saveBulkMarks_skips_missing_studentId_witness :
    ∃ savedCount errors,
      (saveBulkMarks [] secondWriteFails 99 (some 7) (some "annual") (some 2024)
          (some (sparseBatch.map some))).2 = .bulkSaved savedCount errors ∧
      savedCount + errors.length = sparseBatch.countP (fun e => e.studentId.isSome) :=
  (saveBulkMarks_skips_missing_studentId [] secondWriteFails 99 7 "annual" 2024 sparseBatch []
    (by decide) (by decide)).2.1

/-- Witness of the amended C19: in the store with percentages 90, 90, 70, 50
the second `save` throws. -/
theorem publishMarks_stops_at_failed_save_witness :
    (publishMarks rankingStore secondWriteFails (fun _ => 0) 7 "annual" 2024).2
      = .serverError "save failed" :=
  (publishMarks_stops_at_failed_save rankingStore secondWriteFails (fun _ => 0)
    7 "annual" 2024 1 "save failed" rfl
    (by rw [rankingStore_order]; decide)
    (by
      intro j hj
      have hj0 : j = 0 := by omega
      simp [secondWriteFails, hj0])
    (by simp [secondWriteFails])).1

/-- Witness of C20: the empty store, and the store with percentages 90, 90,
70, 50. -/
theorem publishMarks_empty_or_count_witness :
    (publishMarks [] noFaults (fun _ => 0) 7 "annual" 2024).2 = .notFound ∧
    (publishMarks rankingStore noFaults (fun _ => 0) 7 "annual" 2024).2
      = .published (rankingStore.countP (matchesCohort 7 "annual" 2024)) :=
  ⟨((publishMarks_empty_or_count [] noFaults (fun _ => 0) 7 "annual" 2024 rfl).1
      (by simp)).1,
   ((publishMarks_empty_or_count rankingStore noFaults (fun _ => 0) 7 "annual" 2024 rfl).2
      ⟨cohortDoc 1 90, by simp [rankingStore], rankingStore_cohort 1 90⟩
      (fun _ => rfl)).1⟩

/-! ## The examples of the specification -/

theorem exampleSubjects_saved :
    (preSave (newMark 1 7 "annual" 2024 exampleSubjects 99)).totalObtained = 150 ∧
    (preSave (newMark 1 7 "annual" 2024 exampleSubjects 99)).totalFullMarks = 200 ∧
    (preSave (newMark 1 7 "annual" 2024 exampleSubjects 99)).percentage = 75 ∧
    (preSave (newMark 1 7 "annual" 2024 exampleSubjects 99)).subjects.map SubjectMark.grade
      = ["A+", "A-"] ∧
    (preSave (newMark 1 7 "annual" 2024 exampleSubjects 99)).subjects.map SubjectMark.gradePoint
      = [some 5, some (7 / 2)] ∧
    (preSave (newMark 1 7 "annual" 2024 exampleSubjects 99)).grade = "A" ∧
    (preSave (newMark 1 7 "annual" 2024 exampleSubjects 99)).gpa = 17 / 4 := by
  refine ⟨?_, ?_, ?_, ?_, ?_, ?_, ?_⟩ <;>
    norm_num [newMark, exampleSubjects, scoredSubject, preSave, forEachSubjects, forEachBody,
      subjectFull, subjectObtained, subjectPct, parseFloat, jsOr, gradeFromPct,
      percentage_150_of_200, gpa_17_halves_of_2]

theorem rollUpSubjects_saved :
    (preSave (newMark 1 7 "annual" 2024 rollUpSubjects 99)).subjects.map SubjectMark.grade
      = ["A+", "F"] ∧
    (preSave (newMark 1 7 "annual" 2024 rollUpSubjects 99)).subjects.map SubjectMark.isAbsent
      = [false, false] ∧
    (preSave (newMark 1 7 "annual" 2024 rollUpSubjects 99)).percentage = 55 ∧
    (preSave (newMark 1 7 "annual" 2024 rollUpSubjects 99)).grade = "B" := by
  refine ⟨?_, ?_, ?_, ?_⟩ <;>
    norm_num [newMark, rollUpSubjects, scoredSubject, preSave, forEachSubjects, forEachBody,
      subjectFull, subjectObtained, subjectPct, parseFloat, jsOr, gradeFromPct,
      percentage_110_of_200, gpa_5_of_2]

theorem preSave_any_failed (doc : MarkDoc) :
    (preSave doc).subjects.any (fun s => decide (s.grade = "F"))
      = (forEachSubjects
          { totalObtained := 0, totalFullMarks := 0, gpSum := 0, hasFailed := false }
          doc.subjects).1.hasFailed := by
  rw [forEachSubjects_hasFailed, preSave_subjects, List.any_map]
  simp [Function.comp_def]

theorem preSave_stampPublished (clock : Nat → Nat) (i : Nat) (doc : MarkDoc) :
    preSave (stampPublished clock i doc)
      = { preSave doc with
          isPublished := true
          publishedAt := some (clock i)
          position := i + 1
          result := if (preSave doc).subjects.any (fun s => decide (s.grade = "F")) = true
                    then "Fail" else "Pass" } := by
  rw [preSave_any_failed]
  simp [preSave, stampPublished]

theorem publishMarks_one (m : MarkDoc) (clock : Nat → Nat) (classId : ObjectId)
    (examType : String) (examYear : Int)
    (h : matchesCohort classId examType examYear m = true) :
    publishMarks [m] noFaults clock classId examType examYear
      = ([preSave (stampUpdatedAt 0 (some m) (stampPublished clock 0 m))], .published 1) := by
  simp [publishMarks, noFaults, find, List.enum, List.enumFrom, h, sortByPercentage,
    publishLoop, save]

/-- C24, as the claim states it, fails: in the end-to-end example English has
65 of 100, which `gradeFromPct` grades "A-" with grade point 3.5, not "A", and
the gpa is 4.25, not 4.5. -/
theorem example_english_not_A :
    (preSave (newMark 1 7 "annual" 2024 exampleSubjects 99)).subjects.map SubjectMark.grade
      ≠ ["A+", "A"] ∧
    (preSave (newMark 1 7 "annual" 2024 exampleSubjects 99)).gpa ≠ 9 / 2 := by
  obtain ⟨_, _, _, hg, _, _, hgpa⟩ := exampleSubjects_saved
  rw [hg, hgpa]
  constructor
  · decide
  · norm_num

/-- C24, amended: the record of the end-to-end example, Math 85 of 100 and
English 65 of 100 in theory and nothing else, aggregates to totalObtained 150,
totalFullMarks 200, percentage 75, subject grades "A+" and "A-" with grade
points 5 and 3.5, record-level grade "A" and gpa (5 + 3.5) / 2 = 4.25. -/
theorem example_end_to_end :
    exampleSubjects.map rawFields
      = [(some 100, some 0, some 0, some 85, some 0, some 0, false),
         (some 100, some 0, some 0, some 65, some 0, some 0, false)] ∧
    (preSave (newMark 1 7 "annual" 2024 exampleSubjects 99)).totalObtained = 150 ∧
    (preSave (newMark 1 7 "annual" 2024 exampleSubjects 99)).totalFullMarks = 200 ∧
    (preSave (newMark 1 7 "annual" 2024 exampleSubjects 99)).percentage = 75 ∧
    (preSave (newMark 1 7 "annual" 2024 exampleSubjects 99)).subjects.map SubjectMark.grade
      = ["A+", "A-"] ∧
    (preSave (newMark 1 7 "annual" 2024 exampleSubjects 99)).subjects.map SubjectMark.gradePoint
      = [some 5, some (7 / 2)] ∧
    (preSave (newMark 1 7 "annual" 2024 exampleSubjects 99)).grade = "A" ∧
    (preSave (newMark 1 7 "annual" 2024 exampleSubjects 99)).gpa = 17 / 4 ∧
    ((5 : ℚ) + 7 / 2) / 2 = 17 / 4 := by
  obtain ⟨h1, h2, h3, h4, h5, h6, h7⟩ := exampleSubjects_saved
  refine ⟨?_, h1, h2, h3, h4, h5, h6, h7, by norm_num⟩
  simp [exampleSubjects, scoredSubject, rawFields]

/-- C25: the record-level grade is no roll-up of the subject grades: the
record with the two present subjects 100 of 100 and 10 of 100 has the derived
subject grades "A+" and "F", percentage 55 and record-level grade "B"; the
controller of `publishMarks` computes "Pass" from that grade, and the record
it saves has result "Fail". -/
theorem grade_is_no_roll_up :
    (preSave (newMark 1 7 "annual" 2024 rollUpSubjects 99)).subjects.map SubjectMark.grade
      = ["A+", "F"] ∧
    (preSave (newMark 1 7 "annual" 2024 rollUpSubjects 99)).subjects.map SubjectMark.isAbsent
      = [false, false] ∧
    (preSave (newMark 1 7 "annual" 2024 rollUpSubjects 99)).percentage = 55 ∧
    (preSave (newMark 1 7 "annual" 2024 rollUpSubjects 99)).grade = "B" ∧
    (stampPublished (fun _ => 0) 0
      (preSave (newMark 1 7 "annual" 2024 rollUpSubjects 99))).result = "Pass" ∧
    (publishMarks [preSave (newMark 1 7 "annual" 2024 rollUpSubjects 99)] noFaults
        (fun _ => 0) 7 "annual" 2024).2 = .published 1 ∧
    (publishMarks [preSave (newMark 1 7 "annual" 2024 rollUpSubjects 99)] noFaults
        (fun _ => 0) 7 "annual" 2024).1.map MarkDoc.result = ["Fail"] ∧
    (publishMarks [preSave (newMark 1 7 "annual" 2024 rollUpSubjects 99)] noFaults
        (fun _ => 0) 7 "annual" 2024).1.map MarkDoc.grade = ["B"] := by
  obtain ⟨h1, h2, h3, h4⟩ := rollUpSubjects_saved
  have hc : matchesCohort 7 "annual" 2024
      (preSave (newMark 1 7 "annual" 2024 rollUpSubjects 99)) = true := by
    simp [matchesCohort, preSave, newMark]
  rw [publishMarks_one _ _ _ _ _ hc]
  refine ⟨h1, h2, h3, h4, ?_, rfl, ?_, ?_⟩
  · simp [stampPublished, h4]
  · simp only [List.map_cons, List.map_nil, List.cons.injEq, and_true]
    rw [preSave_stampUpdatedAt]
    show (preSave (stampPublished (fun _ => 0) 0
      (preSave (newMark 1 7 "annual" 2024 rollUpSubjects 99)))).result = "Fail"
    rw [preSave_stampPublished, preSave_preSave]
    have hmem : "F" ∈ (preSave (newMark 1 7 "annual" 2024 rollUpSubjects 99)).subjects.map
        SubjectMark.grade := by
      rw [h1]
      decide
    obtain ⟨sub, hsub, hgrade⟩ := List.mem_map.mp hmem
    have hany : (preSave (newMark 1 7 "annual" 2024 rollUpSubjects 99)).subjects.any
        (fun s => decide (s.grade = "F")) = true := by
      rw [List.any_eq_true]
      exact ⟨sub, hsub, by simp [hgrade]⟩
    simp [hany]
  · simp only [List.map_cons, List.map_nil, List.cons.injEq, and_true]
    rw [preSave_stampUpdatedAt]
    show (preSave (stampPublished (fun _ => 0) 0
      (preSave (newMark 1 7 "annual" 2024 rollUpSubjects 99)))).grade = "B"
    rw [preSave_stampPublished, preSave_preSave]
    exact h4

/-! ## Records without subjects -/

/-- C29: a record whose subjects are empty aggregates to totalObtained 0,
totalFullMarks 0, percentage 0, gpa 0 and record-level grade "F"; a
successful `publishMarks` leaves such a record of the cohort published with
result "Pass" and grade "F"; and a bulk entry without subjects creates such a
record. -/
theorem empty_subjects_pass_with_grade_F (doc : MarkDoc) (s : Store) (f : Faults)
    (clock : Nat → Nat) (classId : ObjectId) (examType : String) (examYear : Int) (n : Nat) :
    (doc.subjects = [] →
      (preSave doc).totalObtained = 0 ∧ (preSave doc).totalFullMarks = 0 ∧
      (preSave doc).percentage = 0 ∧ (preSave doc).gpa = 0 ∧ (preSave doc).grade = "F") ∧
    ((publishMarks s f clock classId examType examYear).2 = .published n →
      ∀ (j : Nat) (m : MarkDoc), s[j]? = some m →
        matchesCohort classId examType examYear m = true →
        m.subjects = [] →
        ∃ m' : MarkDoc, (publishMarks s f clock classId examType examYear).1[j]? = some m' ∧
          m'.isPublished = true ∧ m'.result = "Pass" ∧ m'.grade = "F" ∧ m'.subjects = []) ∧
    (saveBulkMarks [] noFaults 99 (some 7) (some "annual") (some 2024)
        (some (emptySubjectsBatch.map some))).1.map MarkDoc.subjects = [[]] := by
  have hempty : ∀ d : MarkDoc, d.subjects = [] →
      (preSave d).totalObtained = 0 ∧ (preSave d).totalFullMarks = 0 ∧
      (preSave d).percentage = 0 ∧ (preSave d).gpa = 0 ∧ (preSave d).grade = "F" ∧
      (preSave d).subjects = [] := by
    intro d hd
    refine ⟨?_, ?_, ?_, ?_, ?_, ?_⟩ <;>
      norm_num [preSave, hd, forEachSubjects, gradeFromPct]
  refine ⟨?_, ?_, ?_⟩
  · intro hd
    obtain ⟨h1, h2, h3, h4, h5, _⟩ := hempty doc hd
    exact ⟨h1, h2, h3, h4, h5⟩
  · intro hsucc j m hm hc hsub
    obtain ⟨k, _, _, hk⟩ :=
      publishMarks_record s f clock classId examType examYear n hsucc j m hm hc
    obtain ⟨_, _, _, _, h5, h6⟩ := hempty m hsub
    rw [preSave_stampUpdatedAt] at hk
    refine ⟨_, hk, rfl, ?_, ?_, ?_⟩
    · show (preSave (stampPublished clock k m)).result = "Pass"
      rw [preSave_stampPublished]
      simp [h6]
    · show (preSave (stampPublished clock k m)).grade = "F"
      rw [preSave_stampPublished]
      exact h5
    · show (preSave (stampPublished clock k m)).subjects = []
      rw [preSave_stampPublished]
      exact h6
  · simp [saveBulkMarks, truthyString, truthyYear, emptySubjectsBatch, bulkLoop,
      bulkIteration, noFaults, findOne, List.enum, List.enumFrom, create,
      newMark, preSave, forEachSubjects, stampCreated]

/-- Witness of C29: the store that holds one record without subjects. -/
theorem empty_subjects_pass_with_grade_F_witness :
    ∃ m' : MarkDoc, (publishMarks [preSave (newMark 3 7 "annual" 2024 [] 99)] noFaults
          (fun _ => 0)
          7 "annual" 2024).1[0]? = some m' ∧
      m'.isPublished = true ∧ m'.result = "Pass" ∧ m'.grade = "F" ∧ m'.subjects = [] :=
  (empty_subjects_pass_with_grade_F (newMark 3 7 "annual" 2024 [] 99)
      [preSave (newMark 3 7 "annual" 2024 [] 99)] noFaults (fun _ => 0) 7 "annual" 2024 1).2.1
    (by rw [publishMarks_one _ _ _ _ _ (by simp [matchesCohort, preSave, newMark])])
    0 (preSave (newMark 3 7 "annual" 2024 [] 99)) rfl
    (by simp [matchesCohort, preSave, newMark])
    (by simp [preSave, newMark, forEachSubjects])

/-! ## Validation of a single submission -/

/-- C26: `saveMark` answers 400 when studentId or classId is missing or when
examType or examYear is missing or falsy (the empty string, the number 0),
whichever store calls would throw: none is made and the store is what it was;
when the four are there and truthy the answer is not a 400 and the upsert
runs: with its store calls succeeding the store holds the record of the key
with the subjects submitted, as the hook aggregates them. -/
theorem saveMark_validation (s : Store) (f : Faults) (user : ObjectId)
    (studentId classId : Option ObjectId) (examType : Option String)
    (examYear : Option Int) (subjects : List SubjectMark) :
    ((studentId = none ∨ classId = none ∨ truthyString examType = none
        ∨ truthyYear examYear = none) →
      saveMark s f user studentId classId examType examYear subjects = (s, .badRequest) ∧
      (saveMark s f user studentId classId examType examYear subjects).2.status = 400) ∧
    (∀ sid cid et ey, studentId = some sid → classId = some cid →
      truthyString examType = some et → truthyYear examYear = some ey →
      (saveMark s f user studentId classId examType examYear subjects).2 ≠ .badRequest ∧
      (f.lookup 0 = none → f.write 0 = none →
        ∃ pl m,
          findOne (saveMark s f user studentId classId examType examYear subjects).1
            (matchesKey sid cid et ey) = some (pl, m) ∧
          m.subjects = subjects.map derivedSubject)) ∧
    (truthyString examType = none ↔ examType = none ∨ examType = some "") ∧
    (truthyYear examYear = none ↔ examYear = none ∨ examYear = some 0) := by
  refine ⟨?_, ?_, ?_, ?_⟩
  · intro h
    have hrun : saveMark s f user studentId classId examType examYear subjects
        = (s, .badRequest) := by
      unfold saveMark
      rcases h with h | h | h | h
      · rw [h]
      · rw [h]
        cases studentId <;> rfl
      · rw [h]
        cases studentId <;> cases classId <;> rfl
      · rw [h]
        cases studentId <;> cases classId <;> cases truthyString examType <;> rfl
    rw [hrun]
    exact ⟨rfl, rfl⟩
  · intro sid cid et ey hs hc het hey
    subst hs hc
    have het' : ∃ v, examType = some v ∧ v ≠ "" ∧ v = et := by
      cases examType with
      | none => simp [truthyString] at het
      | some v =>
        by_cases hv : v = ""
        · simp [truthyString, hv] at het
        · simp only [truthyString, hv, if_false, Option.some.injEq] at het
          exact ⟨v, rfl, hv, het⟩
    have hey' : ∃ v, examYear = some v ∧ v ≠ 0 ∧ v = ey := by
      cases examYear with
      | none => simp [truthyYear] at hey
      | some v =>
        by_cases hv : v = 0
        · simp [truthyYear, hv] at hey
        · simp only [truthyYear, hv, if_false, Option.some.injEq] at hey
          exact ⟨v, rfl, hv, hey⟩
    obtain ⟨v, rfl, hv, rfl⟩ := het'
    obtain ⟨w, rfl, hw, rfl⟩ := hey'
    constructor
    · unfold saveMark
      simp only [het, hey]
      cases f.lookup 0 with
      | some msg => simp
      | none =>
        simp only
        cases findOne s (matchesKey sid cid v w) with
        | some r =>
          simp only
          cases f.write 0 with
          | some msg => simp
          | none =>
            simp only
            cases f.lookup 1 <;> simp
        | none =>
          simp only
          cases f.write 0 with
          | some msg => simp
          | none =>
            simp only
            cases create s (f.now 0) (newMark sid cid v w subjects user) with
            | error msg => simp
            | ok s1 =>
              simp only
              cases f.lookup 1 <;> simp
    · intro hl hwr
      obtain ⟨pl, m, hf, hsub, _⟩ := saveMark_stored s f user sid cid v w subjects hv hw hl hwr
      exact ⟨pl, m, hf, hsub⟩
  · cases examType with
    | none => simp [truthyString]
    | some v =>
      by_cases hv : v = "" <;> simp [truthyString, hv]
  · cases examYear with
    | none => simp [truthyYear]
    | some v =>
      by_cases hv : v = 0 <;> simp [truthyYear, hv]

/-- Witness of C26: a submission without studentId, and a complete one into
the empty store. -/
theorem saveMark_validation_witness :
    saveMark rankingStore firstWriteFails 99 none (some 7) (some "annual") (some 2024)
        [scoredSubject 85] = (rankingStore, .badRequest) ∧
    (saveMark [] noFaults 99 (some 1) (some 7) (some "annual") (some 2024)
        [scoredSubject 85]).2 ≠ .badRequest :=
  ⟨((saveMark_validation rankingStore firstWriteFails 99 none (some 7) (some "annual")
        (some 2024) [scoredSubject 85]).1 (Or.inl rfl)).1,
   ((saveMark_validation [] noFaults 99 (some 1) (some 7) (some "annual") (some 2024)
        [scoredSubject 85]).2.1 1 7 "annual" 2024 rfl rfl rfl rfl).1⟩

/-! ## Unpublish -/

theorem unpublishMarks_store (s : Store) (f : Faults)
    (classId : ObjectId) (examType : String) (examYear : Int) :
    (unpublishMarks s f classId examType examYear).1 = s ∨
    (f.write 0 = none ∧
      (unpublishMarks s f classId examType examYear).1
        = s.map (fun m =>
            if matchesCohort classId examType examYear m then updateUnpublished (f.now 0) m
            else m)) := by
  unfold unpublishMarks
  cases hw : f.write 0 with
  | some msg => left; rfl
  | none => right; exact ⟨rfl, rfl⟩

theorem unpublishMarks_of_ok (s : Store) (f : Faults)
    (classId : ObjectId) (examType : String) (examYear : Int) (hw : f.write 0 = none) :
    (unpublishMarks s f classId examType examYear).1
      = s.map (fun m =>
          if matchesCohort classId examType examYear m then updateUnpublished (f.now 0) m
          else m) := by
  unfold unpublishMarks
  simp [hw]

theorem matchesCohort_resetPublished (classId : ObjectId) (examType : String)
    (examYear : Int) (m : MarkDoc) :
    matchesCohort classId examType examYear (resetPublished m)
      = matchesCohort classId examType examYear m := rfl

theorem matchesCohort_updateUnpublished (classId : ObjectId) (examType : String)
    (examYear : Int) (now : Nat) (m : MarkDoc) :
    matchesCohort classId examType examYear (updateUnpublished now m)
      = matchesCohort classId examType examYear m := rfl

theorem unpublishMarks_reset (s : Store) (f : Faults)
    (classId : ObjectId) (examType : String) (examYear : Int) (hw : f.write 0 = none)
    (m : MarkDoc) (hm : m ∈ (unpublishMarks s f classId examType examYear).1)
    (hc : matchesCohort classId examType examYear m = true) :
    m.position = 0 ∧ m.isPublished = false ∧ m.publishedAt = none ∧
    m.result = "Not Published" := by
  rw [unpublishMarks_of_ok s f classId examType examYear hw, List.mem_map] at hm
  obtain ⟨x, _, hx⟩ := hm
  by_cases hcx : matchesCohort classId examType examYear x = true
  · simp only [hcx, if_true] at hx
    subst hx
    exact ⟨rfl, rfl, rfl, rfl⟩
  · simp only [hcx, Bool.false_eq_true, if_false] at hx
    subst hx
    exact absurd hc hcx

theorem unpublishMarks_frame_record (s : Store) (f : Faults)
    (classId : ObjectId) (examType : String) (examYear : Int)
    (j : Nat) (m : MarkDoc) (hm : s[j]? = some m) :
    (matchesCohort classId examType examYear m = false →
      (unpublishMarks s f classId examType examYear).1[j]? = some m) ∧
    (f.write 0 ≠ none → (unpublishMarks s f classId examType examYear).1[j]? = some m) ∧
    (f.write 0 = none → matchesCohort classId examType examYear m = true →
      (unpublishMarks s f classId examType examYear).1[j]?
        = some (updateUnpublished (f.now 0) m)) := by
  rcases unpublishMarks_store s f classId examType examYear with hs | ⟨hw, hs⟩
  · rw [hs]
    refine ⟨fun _ => hm, fun _ => hm, ?_⟩
    intro hw' hc
    have h2 := unpublishMarks_of_ok s f classId examType examYear hw'
    rw [hs] at h2
    have h3 := congrArg (fun l => l[j]?) h2
    simp only [List.getElem?_map, hm, Option.map_some', hc, if_true] at h3
    rw [hm, h3]
  · rw [hs]
    refine ⟨?_, fun h => absurd hw h, ?_⟩
    · intro hc
      simp [List.getElem?_map, hm, hc]
    · intro _ hc
      simp [List.getElem?_map, hm, hc]

/-- C30, as the claim states it, fails: a record created at time 0 has
updatedAt 0; an `unpublishMarks` on its cohort at time 5 leaves it with
updatedAt 5, a path that is none of isPublished, publishedAt, result and
position. -/
theorem unpublishMarks_sets_updatedAt :
    (saveMark [] noFaults 99 (some 1) (some 7) (some "annual") (some 2024)
        [scoredSubject 90]).1.map MarkDoc.updatedAt = [some 0] ∧
    (unpublishMarks
        (saveMark [] noFaults 99 (some 1) (some 7) (some "annual") (some 2024)
          [scoredSubject 90]).1
        (noFaultsAt 5) 7 "annual" 2024).1.map MarkDoc.updatedAt = [some 5] ∧
    (unpublishMarks
        (saveMark [] noFaults 99 (some 1) (some 7) (some "annual") (some 2024)
          [scoredSubject 90]).1
        (noFaultsAt 5) 7 "annual" 2024).2 = .unpublished 1 := by
  refine ⟨?_, ?_, ?_⟩ <;>
    simp [saveMark, truthyString, truthyYear, noFaults, noFaultsAt, findOne, List.enum,
      List.enumFrom, create, stampCreated, newMark, preSave, unpublishMarks,
      updateUnpublished, resetPublished, matchesCohort, matchesKey]

/-- C30, amended: `unpublishMarks` adds and removes no record, leaves every
record outside the cohort as it was, and a record of the cohort differs from
what it was at most in isPublished, publishedAt, result, position and the
timestamp updatedAt: its student, class, examType, examYear, subjects,
totalObtained, totalFullMarks, percentage, gpa, grade, createdBy, updatedBy
and createdAt are kept; when the update does not throw the five paths hold
false, null, "Not Published", 0 and the time of the update. -/
theorem unpublishMarks_frame (s : Store) (f : Faults)
    (classId : ObjectId) (examType : String) (examYear : Int) :
    (unpublishMarks s f classId examType examYear).1.length = s.length ∧
    ∀ (j : Nat) (m : MarkDoc), s[j]? = some m →
      (matchesCohort classId examType examYear m = false →
        (unpublishMarks s f classId examType examYear).1[j]? = some m) ∧
      ∃ m' : MarkDoc,
        (unpublishMarks s f classId examType examYear).1[j]? = some m' ∧
        { m' with
          isPublished := m.isPublished, publishedAt := m.publishedAt
          result := m.result, position := m.position, updatedAt := m.updatedAt } = m ∧
        m'.student = m.student ∧ m'.«class» = m.«class» ∧ m'.examType = m.examType ∧
        m'.examYear = m.examYear ∧ m'.subjects = m.subjects ∧
        recordDerived m' = recordDerived m ∧
        m'.createdBy = m.createdBy ∧ m'.updatedBy = m.updatedBy ∧
        m'.createdAt = m.createdAt ∧
        (f.write 0 = none → matchesCohort classId examType examYear m = true →
          m' = updateUnpublished (f.now 0) m ∧
          m'.isPublished = false ∧ m'.publishedAt = none ∧ m'.result = "Not Published" ∧
          m'.position = 0 ∧ m'.updatedAt = some (f.now 0)) := by
  refine ⟨?_, ?_⟩
  · rcases unpublishMarks_store s f classId examType examYear with hs | ⟨_, hs⟩
    · rw [hs]
    · rw [hs, List.length_map]
  · intro j m hm
    obtain ⟨h1, h2, h3⟩ := unpublishMarks_frame_record s f classId examType examYear j m hm
    refine ⟨h1, ?_⟩
    by_cases hw : f.write 0 = none
    · by_cases hc : matchesCohort classId examType examYear m = true
      · exact ⟨_, h3 hw hc, rfl, rfl, rfl, rfl, rfl, rfl, rfl, rfl, rfl, rfl,
          fun _ _ => ⟨rfl, rfl, rfl, rfl, rfl, rfl⟩⟩
      · exact ⟨m, h1 (by simpa using hc), rfl, rfl, rfl, rfl, rfl, rfl, rfl, rfl, rfl, rfl,
          fun _ h => absurd h hc⟩
    · exact ⟨m, h2 hw, rfl, rfl, rfl, rfl, rfl, rfl, rfl, rfl, rfl, rfl,
        fun h => absurd h hw⟩

theorem matchesCohort_of_markKey (classId : ObjectId) (examType : String) (examYear : Int)
    (student : ObjectId) (m : MarkDoc)
    (h : markKey m = (student, classId, examType, examYear)) :
    matchesCohort classId examType examYear m = true := by
  simp only [markKey, Prod.mk.injEq] at h
  simp [matchesCohort, h.2.1, h.2.2.1, h.2.2.2]

theorem markKey_of_matchesCohort (classId : ObjectId) (examType : String) (examYear : Int)
    (m : MarkDoc) (h : matchesCohort classId examType examYear m = true) :
    markKey m = (m.student, classId, examType, examYear) := by
  simp only [matchesCohort, Bool.and_eq_true, decide_eq_true_eq] at h
  simp [markKey, h.1.1, h.1.2, h.2]

/-- C21, as the claim states it, fails: after `publishMarks` and
`unpublishMarks` on the store with percentages 90, 90, 70, 50 the cohort has
records, and the result of each is "Not Published", the value of the schema,
which is not the string "Not-Published". -/
theorem unpublished_result_not_hyphenated :
    (∃ m ∈ (unpublishMarks
          (publishMarks rankingStore noFaults (fun _ => 0) 7 "annual" 2024).1
          noFaults 7 "annual" 2024).1,
      matchesCohort 7 "annual" 2024 m = true) ∧
    ∀ m ∈ (unpublishMarks
          (publishMarks rankingStore noFaults (fun _ => 0) 7 "annual" 2024).1
          noFaults 7 "annual" 2024).1,
      matchesCohort 7 "annual" 2024 m = true →
      m.result = "Not Published" ∧ m.result ≠ "Not-Published" := by
  constructor
  · have hk : (1, 7, "annual", (2024 : Int)) ∈ (unpublishMarks
        (publishMarks rankingStore noFaults (fun _ => 0) 7 "annual" 2024).1
        noFaults 7 "annual" 2024).1.map markKey := by
      rw [map_markKey_unpublishMarks, map_markKey_publishMarks]
      simp [rankingStore, cohortDoc, markKey, preSave, newMark]
    obtain ⟨m, hm, hkey⟩ := List.mem_map.mp hk
    exact ⟨m, hm, matchesCohort_of_markKey 7 "annual" 2024 1 m hkey⟩
  · intro m hm hc
    have h := (unpublishMarks_reset _ noFaults 7 "annual" 2024 rfl m hm hc).2.2.2
    rw [h]
    exact ⟨rfl, by decide⟩

/-- C21, amended: after `publishMarks` followed by an `unpublishMarks` on the
same cohort key whose update does not throw, every record of the cohort is
still there and has position 0, isPublished false, publishedAt null and
result "Not Published". -/
theorem unpublish_after_publish_resets (s : Store) (f₁ f₂ : Faults) (clock : Nat → Nat)
    (classId : ObjectId) (examType : String) (examYear : Int)
    (hw : f₂.write 0 = none) :
    (∀ m ∈ (unpublishMarks (publishMarks s f₁ clock classId examType examYear).1
          f₂ classId examType examYear).1,
      matchesCohort classId examType examYear m = true →
      m.position = 0 ∧ m.isPublished = false ∧ m.publishedAt = none ∧
      m.result = "Not Published") ∧
    (unpublishMarks (publishMarks s f₁ clock classId examType examYear).1
        f₂ classId examType examYear).1.map markKey = s.map markKey ∧
    (∀ (j : Nat) (m : MarkDoc), s[j]? = some m →
      matchesCohort classId examType examYear m = true →
      ∃ m' : MarkDoc,
        (unpublishMarks (publishMarks s f₁ clock classId examType examYear).1
          f₂ classId examType examYear).1[j]? = some m' ∧
        markKey m' = markKey m ∧
        m'.position = 0 ∧ m'.isPublished = false ∧ m'.publishedAt = none ∧
        m'.result = "Not Published") := by
  have hkeys : (unpublishMarks (publishMarks s f₁ clock classId examType examYear).1
      f₂ classId examType examYear).1.map markKey = s.map markKey := by
    rw [map_markKey_unpublishMarks, map_markKey_publishMarks]
  refine ⟨fun m hm hc => unpublishMarks_reset _ f₂ classId examType examYear hw m hm hc,
    hkeys, ?_⟩
  intro j m hm hc
  have hj := congrArg (fun l => l[j]?) hkeys
  simp only [List.getElem?_map, hm, Option.map_some'] at hj
  cases hm' : (unpublishMarks (publishMarks s f₁ clock classId examType examYear).1
      f₂ classId examType examYear).1[j]? with
  | none => simp [hm'] at hj
  | some m' =>
    simp only [hm', Option.map_some', Option.some.injEq] at hj
    have hc' : matchesCohort classId examType examYear m' = true := by
      apply matchesCohort_of_markKey classId examType examYear m.student
      rw [hj]
      exact markKey_of_matchesCohort classId examType examYear m hc
    obtain ⟨h1, h2, h3, h4⟩ := unpublishMarks_reset _ f₂ classId examType examYear hw m'
      (List.mem_iff_getElem?.mpr ⟨j, hm'⟩) hc'
    exact ⟨m', rfl, hj, h1, h2, h3, h4⟩

/-- Witness of the amended C21: the first record of the store with percentages
90, 90, 70, 50. -/
theorem unpublish_after_publish_resets_witness :
    ∃ m' : MarkDoc,
      (unpublishMarks (publishMarks rankingStore noFaults (fun _ => 0) 7 "annual" 2024).1
        noFaults 7 "annual" 2024).1[0]? = some m' ∧
      markKey m' = markKey (cohortDoc 1 90) ∧
      m'.position = 0 ∧ m'.isPublished = false ∧ m'.publishedAt = none ∧
      m'.result = "Not Published" :=
  (unpublish_after_publish_resets rankingStore noFaults noFaults (fun _ => 0)
    7 "annual" 2024 rfl).2.2 0 (cohortDoc 1 90) rfl (rankingStore_cohort 1 90)

/-! ## What a student may read -/

theorem accepts_student_published (q : MarkQuery) (own : ObjectId) (m : MarkDoc)
    (hs : q.student = some own) (hp : q.isPublished = some true)
    (h : q.accepts m = true) : m.student = own ∧ m.isPublished = true := by
  unfold MarkQuery.accepts at h
  rw [hs, hp] at h
  simp only [Option.all_some, Bool.and_eq_true, decide_eq_true_eq] at h
  exact ⟨h.1.1.1.1, h.2⟩

theorem mem_find_snd (s : Store) (p : MarkDoc → Bool) (m : MarkDoc)
    (h : m ∈ (find s p).map Prod.snd) : m ∈ s ∧ p m = true := by
  obtain ⟨x, hx, rfl⟩ := List.mem_map.mp h
  obtain ⟨hget, hp⟩ := (mem_find s p x).mp hx
  exact ⟨List.mem_iff_getElem?.mpr ⟨x.1, hget⟩, hp⟩

/-- C27: for a caller whose role is student, every document that
`getStudentMarks` and `getResultSheetData` answer with is a document of the
store whose student is the caller's own student record and whose isPublished
is true; the answer is the same whatever studentId the path or the query
names; and a caller without student record gets 404 and no marks. -/
theorem student_reads_own_published_marks (s : Store) (f : Faults)
    (ownStudent : Option ObjectId) (studentId otherId : ObjectId)
    (queryStudent otherQuery : Option ObjectId)
    (examType : Option String) (examYear : Option Int)
    (classId : ObjectId) (sheetType : String) (sheetYear : Int) :
    (∀ m ∈ (getStudentMarks s f "student" ownStudent studentId examType examYear).data,
      m ∈ s ∧ some m.student = ownStudent ∧ m.isPublished = true) ∧
    (∀ m ∈ (getResultSheetData s f "student" ownStudent classId sheetType sheetYear
        queryStudent).data,
      m ∈ s ∧ some m.student = ownStudent ∧ m.isPublished = true) ∧
    getStudentMarks s f "student" ownStudent studentId examType examYear
      = getStudentMarks s f "student" ownStudent otherId examType examYear ∧
    getResultSheetData s f "student" ownStudent classId sheetType sheetYear queryStudent
      = getResultSheetData s f "student" ownStudent classId sheetType sheetYear otherQuery ∧
    (ownStudent = none → f.lookup 0 = none →
      getStudentMarks s f "student" ownStudent studentId examType examYear = .notFound ∧
      getResultSheetData s f "student" ownStudent classId sheetType sheetYear queryStudent
        = .notFound ∧
      MarksResponse.notFound.status = 404 ∧ MarksResponse.notFound.data = []) ∧
    (ownStudent = none →
      (getStudentMarks s f "student" ownStudent studentId examType examYear).data = [] ∧
      (getResultSheetData s f "student" ownStudent classId sheetType sheetYear
        queryStudent).data = []) := by
  refine ⟨?_, ?_, ?_, ?_, ?_, ?_⟩
  · intro m hm
    unfold getStudentMarks at hm
    simp only [if_true] at hm
    cases hl : f.lookup 0 with
    | some msg => simp [hl, MarksResponse.data] at hm
    | none =>
      cases ho : ownStudent with
      | none => simp [hl, ho, MarksResponse.data] at hm
      | some own =>
        simp only [hl, ho] at hm
        cases hl1 : f.lookup 1 with
        | some msg => simp [hl1, MarksResponse.data] at hm
        | none =>
          simp only [hl1, MarksResponse.data] at hm
          have hm' := (List.mem_reverse.mp ((List.perm_insertionSort _ _).mem_iff.mp hm))
          obtain ⟨hs, hacc⟩ := mem_find_snd _ _ _ hm'
          have hq := accepts_student_published _ own m
            (by cases truthyString examType <;> cases truthyYear examYear <;> rfl)
            (by cases truthyString examType <;> cases truthyYear examYear <;> rfl) hacc
          exact ⟨hs, by rw [hq.1], hq.2⟩
  · intro m hm
    unfold getResultSheetData at hm
    simp only [if_true] at hm
    cases hl : f.lookup 0 with
    | some msg => simp [hl, MarksResponse.data] at hm
    | none =>
      cases ho : ownStudent with
      | none => simp [hl, ho, MarksResponse.data] at hm
      | some own =>
        simp only [hl, ho] at hm
        cases hl1 : f.lookup 1 with
        | some msg => simp [hl1, MarksResponse.data] at hm
        | none =>
          simp only [hl1, MarksResponse.data] at hm
          have hm' := (List.perm_insertionSort _ _).mem_iff.mp hm
          obtain ⟨hs, hacc⟩ := mem_find_snd _ _ _ hm'
          have hq := accepts_student_published _ own m rfl rfl hacc
          exact ⟨hs, by rw [hq.1], hq.2⟩
  · unfold getStudentMarks
    simp only [if_true]
  · unfold getResultSheetData
    simp only [if_true]
  · intro ho hl
    subst ho
    refine ⟨?_, ?_, rfl, rfl⟩
    · simp [getStudentMarks, hl]
    · simp [getResultSheetData, hl]
  · intro ho
    subst ho
    constructor
    · unfold getStudentMarks
      simp only [if_true]
      cases f.lookup 0 <;> rfl
    · unfold getResultSheetData
      simp only [if_true]
      cases f.lookup 0 <;> rfl

/-- Witness of C27: a caller without student record, and the student of
record 1 asking for the marks of student 2. -/
theorem student_reads_own_published_marks_witness :
    getStudentMarks rankingStore noFaults "student" none 2 none none = .notFound ∧
    getStudentMarks rankingStore noFaults "student" (some 1) 2 none none
      = getStudentMarks rankingStore noFaults "student" (some 1) 1 none none :=
  ⟨((student_reads_own_published_marks rankingStore noFaults none 2 1 none none none none
        7 "annual" 2024).2.2.2.2.1 rfl rfl).1,
   (student_reads_own_published_marks rankingStore noFaults (some 1) 2 1 none none none none
        7 "annual" 2024).2.2.1⟩

/-! ## Properties of every record of a reachable store: helper lemmas -/

theorem forall_mem_save (P : MarkDoc → Prop)
    (hStamp : ∀ m (c u : Option Nat), P m → P { m with createdAt := c, updatedAt := u })
    (s : Store) (now pl : Nat) (d : MarkDoc)
    (hs : ∀ x ∈ s, P x) (hd : P (preSave d)) : ∀ x ∈ save s now pl d, P x := by
  intro x hx
  rcases List.mem_or_eq_of_mem_set hx with h | h
  · exact hs x h
  · rw [h, preSave_stampUpdatedAt]
    exact hStamp (preSave d) (preSave d).createdAt _ hd

theorem forall_mem_created (P : MarkDoc → Prop)
    (hStamp : ∀ m (c u : Option Nat), P m → P { m with createdAt := c, updatedAt := u })
    (now : Nat) (d : MarkDoc) (hd : P (preSave d)) : P (preSave (stampCreated now d)) :=
  hStamp (preSave d) (some now) (some now) hd

theorem forall_mem_saveMark (P : MarkDoc → Prop)
    (hStamp : ∀ m (c u : Option Nat), P m → P { m with createdAt := c, updatedAt := u })
    (hNew : ∀ sid cid et ey subjects user, P (preSave (newMark sid cid et ey subjects user)))
    (hUpd : ∀ m subjects user, P m →
      P (preSave { m with subjects := subjects, updatedBy := some user }))
    (s : Store) (f : Faults) (user : ObjectId)
    (studentId classId : Option ObjectId) (examType : Option String)
    (examYear : Option Int) (subjects : List SubjectMark) (hs : ∀ x ∈ s, P x) :
    ∀ x ∈ (saveMark s f user studentId classId examType examYear subjects).1, P x := by
  rcases saveMark_cases s f user studentId classId examType examYear subjects with
    h | ⟨sid, cid, et, ey, _, _, _, _, _, _, ⟨pl, mark, hf, h⟩ | ⟨hf, h⟩⟩
  · rw [h]; exact hs
  · rw [h]
    have hmark : mark ∈ s :=
      List.mem_iff_getElem?.mpr ⟨pl, ((findOne_eq_some _ _ _ _).mp hf).1⟩
    exact forall_mem_save P hStamp s _ pl _ hs (hUpd mark subjects user (hs mark hmark))
  · rw [h]
    intro x hx
    rcases List.mem_append.mp hx with hx' | hx'
    · exact hs x hx'
    · rw [List.mem_singleton.mp hx']
      exact forall_mem_created P hStamp _ _ (hNew _ _ _ _ _ _)

theorem forall_mem_bulkIteration (P : MarkDoc → Prop)
    (hStamp : ∀ m (c u : Option Nat), P m → P { m with createdAt := c, updatedAt := u })
    (hNew : ∀ sid cid et ey subjects user, P (preSave (newMark sid cid et ey subjects user)))
    (hUpd : ∀ m subjects user, P m →
      P (preSave { m with subjects := subjects, updatedBy := some user }))
    (f : Faults) (user cid : ObjectId) (et : String) (ey : Int)
    (i : Nat) (st : BulkState) (entry : BulkEntry) (hs : ∀ x ∈ st.store, P x) :
    ∀ x ∈ (bulkIteration f user cid et ey i st entry).store, P x := by
  cases hsid : entry.studentId with
  | none => rw [bulkIteration_skip _ _ _ _ _ _ _ _ hsid]; exact hs
  | some sid =>
    rcases bulkIteration_store f user cid et ey i st entry sid hsid with
      h | ⟨pl, existing, hf, h⟩ | ⟨hf, h⟩
    · rw [h]; exact hs
    · rw [h]
      have hex : existing ∈ st.store :=
        List.mem_iff_getElem?.mpr ⟨pl, ((findOne_eq_some _ _ _ _).mp hf).1⟩
      exact forall_mem_save P hStamp _ _ pl _ hs (hUpd existing _ user (hs existing hex))
    · rw [h]
      intro x hx
      rcases List.mem_append.mp hx with hx' | hx'
      · exact hs x hx'
      · rw [List.mem_singleton.mp hx']
        exact forall_mem_created P hStamp _ _ (hNew _ _ _ _ _ _)

theorem forall_mem_bulkLoop (P : MarkDoc → Prop)
    (hStamp : ∀ m (c u : Option Nat), P m → P { m with createdAt := c, updatedAt := u })
    (hNew : ∀ sid cid et ey subjects user, P (preSave (newMark sid cid et ey subjects user)))
    (hUpd : ∀ m subjects user, P m →
      P (preSave { m with subjects := subjects, updatedBy := some user }))
    (f : Faults) (user cid : ObjectId) (et : String) (ey : Int)
    (i : Nat) (st : BulkState) (entries : List (Option BulkEntry))
    (hs : ∀ x ∈ st.store, P x) :
    ∀ x ∈ (bulkLoop f user cid et ey i st entries).1.store, P x := by
  induction entries generalizing i st with
  | nil => exact hs
  | cons entry rest ih =>
    cases entry with
    | none => exact hs
    | some e =>
      simp only [bulkLoop]
      exact ih _ _ (forall_mem_bulkIteration P hStamp hNew hUpd f user cid et ey i st e hs)

theorem forall_mem_publishLoop (P : MarkDoc → Prop)
    (hStamp : ∀ m (c u : Option Nat), P m → P { m with createdAt := c, updatedAt := u })
    (hPub : ∀ clock i m, P m → P (preSave (stampPublished clock i m)))
    (f : Faults) (clock : Nat → Nat) (s : Store) (ms : List (Nat × MarkDoc)) (i : Nat)
    (hs : ∀ x ∈ s, P x) (hms : ∀ m ∈ ms, P m.2) :
    ∀ x ∈ (publishLoop f clock s ms i).1, P x := by
  induction ms generalizing s i with
  | nil => exact hs
  | cons m rest ih =>
    unfold publishLoop
    cases hw : f.write i with
    | some msg => exact hs
    | none =>
      simp only
      apply ih
      · exact forall_mem_save P hStamp s _ m.1 _ hs
          (hPub clock i m.2 (hms m (List.mem_cons_self _ _)))
      · exact fun x hx => hms x (List.mem_cons_of_mem _ hx)

theorem forall_mem_publishMarks (P : MarkDoc → Prop)
    (hStamp : ∀ m (c u : Option Nat), P m → P { m with createdAt := c, updatedAt := u })
    (hPub : ∀ clock i m, P m → P (preSave (stampPublished clock i m)))
    (s : Store) (f : Faults) (clock : Nat → Nat)
    (classId : ObjectId) (examType : String) (examYear : Int) (hs : ∀ x ∈ s, P x) :
    ∀ x ∈ (publishMarks s f clock classId examType examYear).1, P x := by
  have hloop := forall_mem_publishLoop P hStamp hPub f clock s
    (sortByPercentage (find s (matchesCohort classId examType examYear))) 0 hs
    (by
      intro m hm
      have hm' := (mem_find s _ m).mp ((sortByPercentage_perm _).mem_iff.mp hm)
      exact hs m.2 (List.mem_iff_getElem?.mpr ⟨m.1, hm'.1⟩))
  unfold publishMarks
  cases hl : f.lookup 0 with
  | some msg => exact hs
  | none =>
    simp only
    by_cases hz : (find s (matchesCohort classId examType examYear)).length = 0
    · simp only [hz, if_true]
      exact hs
    · simp only [hz, if_false]
      cases hr : (publishLoop f clock s
          (sortByPercentage (find s (matchesCohort classId examType examYear))) 0).2 with
      | some msg => simpa [hr] using hloop
      | none => simpa [hr] using hloop

theorem forall_mem_saveBulkMarks (P : MarkDoc → Prop)
    (hStamp : ∀ m (c u : Option Nat), P m → P { m with createdAt := c, updatedAt := u })
    (hNew : ∀ sid cid et ey subjects user, P (preSave (newMark sid cid et ey subjects user)))
    (hUpd : ∀ m subjects user, P m →
      P (preSave { m with subjects := subjects, updatedBy := some user }))
    (s : Store) (f : Faults) (user : ObjectId)
    (classId : Option ObjectId) (examType : Option String) (examYear : Option Int)
    (marksData : Option (List (Option BulkEntry))) (hs : ∀ x ∈ s, P x) :
    ∀ x ∈ (saveBulkMarks s f user classId examType examYear marksData).1, P x := by
  unfold saveBulkMarks
  split
  · next cid et ey entries _ _ =>
    have hk := forall_mem_bulkLoop P hStamp hNew hUpd f user cid et ey 0
      { store := s, savedCount := 0, errors := [] } entries hs
    simp only
    split <;> exact hk
  · exact hs

theorem forall_mem_unpublishMarks (P : MarkDoc → Prop)
    (hStamp : ∀ m (c u : Option Nat), P m → P { m with createdAt := c, updatedAt := u })
    (hReset : ∀ m, P m → P (resetPublished m))
    (s : Store) (f : Faults) (classId : ObjectId) (examType : String) (examYear : Int)
    (hs : ∀ x ∈ s, P x) :
    ∀ x ∈ (unpublishMarks s f classId examType examYear).1, P x := by
  rcases unpublishMarks_store s f classId examType examYear with h | ⟨_, h⟩
  · rw [h]; exact hs
  · rw [h]
    intro x hx
    obtain ⟨y, hy, rfl⟩ := List.mem_map.mp hx
    by_cases hc : matchesCohort classId examType examYear y = true
    · simp only [hc, if_true]
      exact hStamp (resetPublished y) (resetPublished y).createdAt _ (hReset y (hs y hy))
    · simp only [hc, Bool.false_eq_true, if_false]
      exact hs y hy

theorem forall_mem_deleteMark (P : MarkDoc → Prop)
    (s : Store) (f : Faults) (id : Nat) (hs : ∀ x ∈ s, P x) :
    ∀ x ∈ (deleteMark s f id).1, P x := by
  unfold deleteMark
  cases f.write 0 with
  | some msg => exact hs
  | none =>
    simp only
    by_cases hlt : id < s.length
    · simp only [hlt, if_true]
      exact fun x hx => hs x (List.mem_of_mem_eraseIdx hx)
    · simp only [hlt, if_false]
      exact hs

theorem forall_mem_run (P : MarkDoc → Prop)
    (hStamp : ∀ m (c u : Option Nat), P m → P { m with createdAt := c, updatedAt := u })
    (hNew : ∀ sid cid et ey subjects user, P (preSave (newMark sid cid et ey subjects user)))
    (hUpd : ∀ m subjects user, P m →
      P (preSave { m with subjects := subjects, updatedBy := some user }))
    (hPub : ∀ clock i m, P m → P (preSave (stampPublished clock i m)))
    (hReset : ∀ m, P m → P (resetPublished m))
    (s : Store) (op : Op) (hs : ∀ x ∈ s, P x) : ∀ x ∈ op.run s, P x := by
  cases op with
  | saveMark f user sid cid et ey subjects =>
    exact forall_mem_saveMark P hStamp hNew hUpd s f user sid cid et ey subjects hs
  | saveBulkMarks f user cid et ey entries =>
    exact forall_mem_saveBulkMarks P hStamp hNew hUpd s f user cid et ey entries hs
  | publishMarks f clock cid et ey =>
    exact forall_mem_publishMarks P hStamp hPub s f clock cid et ey hs
  | unpublishMarks f cid et ey =>
    exact forall_mem_unpublishMarks P hStamp hReset s f cid et ey hs
  | deleteMark f id =>
    exact forall_mem_deleteMark P s f id hs

theorem forall_mem_runAll (P : MarkDoc → Prop)
    (hStamp : ∀ m (c u : Option Nat), P m → P { m with createdAt := c, updatedAt := u })
    (hNew : ∀ sid cid et ey subjects user, P (preSave (newMark sid cid et ey subjects user)))
    (hUpd : ∀ m subjects user, P m →
      P (preSave { m with subjects := subjects, updatedBy := some user }))
    (hPub : ∀ clock i m, P m → P (preSave (stampPublished clock i m)))
    (hReset : ∀ m, P m → P (resetPublished m))
    (s : Store) (ops : List Op) (hs : ∀ x ∈ s, P x) : ∀ x ∈ runAll s ops, P x := by
  induction ops generalizing s with
  | nil => exact hs
  | cons op rest ih =>
    exact ih (op.run s) (forall_mem_run P hStamp hNew hUpd hPub hReset s op hs)

theorem draftOrPublished_preSave (m : MarkDoc) (h : DraftOrPublished m) :
    DraftOrPublished (preSave m) := by
  rcases h with ⟨h1, h2, h3⟩ | ⟨h1, h2, _⟩
  · left
    refine ⟨h1, h2, ?_⟩
    rw [preSave_result]
    simp [h1, h3]
  · right
    refine ⟨h1, h2, ?_⟩
    rw [preSave_result]
    simp only [h1, if_true]
    by_cases hany : (preSave m).subjects.any (fun s => decide (s.grade = "F")) = true
    · right; simp [hany]
    · left; simp [hany]

theorem draftOrPublished_new (sid cid : ObjectId) (et : String) (ey : Int)
    (subjects : List SubjectMark) (user : ObjectId) :
    DraftOrPublished (preSave (newMark sid cid et ey subjects user)) :=
  draftOrPublished_preSave _ (Or.inl ⟨rfl, rfl, rfl⟩)

theorem draftOrPublished_update (m : MarkDoc) (subjects : List SubjectMark) (user : ObjectId)
    (h : DraftOrPublished m) :
    DraftOrPublished (preSave { m with subjects := subjects, updatedBy := some user }) :=
  draftOrPublished_preSave _ h

theorem draftOrPublished_publish (clock : Nat → Nat) (i : Nat) (m : MarkDoc) :
    DraftOrPublished (preSave (stampPublished clock i m)) := by
  apply draftOrPublished_preSave
  right
  refine ⟨rfl, by simp [stampPublished], ?_⟩
  by_cases hg : m.grade = "F"
  · right; simp [stampPublished, hg]
  · left; simp [stampPublished, hg]

theorem draftOrPublished_reset (m : MarkDoc) : DraftOrPublished (resetPublished m) :=
  Or.inl ⟨rfl, rfl, rfl⟩

/-! ## States of a record -/

/-- C23: in every store reached from the empty store by requests to
`saveMark`, `saveBulkMarks`, `publishMarks`, `unpublishMarks` and
`deleteMark`, whichever of their store calls throw, each record is a draft or
published: isPublished is false exactly when position is 0, exactly when
result is "Not Published", and a published record has a position of at least
1 and result "Pass" or "Fail"; a record as `Mark.create` stores it is a
draft. -/
theorem reachable_draft_or_published (ops : List Op) :
    (∀ m ∈ runAll [] ops,
      DraftOrPublished m ∧
      (m.isPublished = false ↔ m.position = 0) ∧
      (m.position = 0 ↔ m.result = "Not Published") ∧
      (m.isPublished = true → 1 ≤ m.position ∧ (m.result = "Pass" ∨ m.result = "Fail"))) ∧
    (∀ (sid cid : ObjectId) (et : String) (ey : Int) (subjects : List SubjectMark)
        (user : ObjectId) (now : Nat),
      (preSave (stampCreated now (newMark sid cid et ey subjects user))).isPublished = false ∧
      (preSave (stampCreated now (newMark sid cid et ey subjects user))).position = 0 ∧
      (preSave (stampCreated now (newMark sid cid et ey subjects user))).result
        = "Not Published" ∧
      (preSave (stampCreated now (newMark sid cid et ey subjects user))).publishedAt = none) := by
  constructor
  · intro m hm
    have h : DraftOrPublished m :=
      forall_mem_runAll DraftOrPublished (fun _ _ _ h => h)
        draftOrPublished_new draftOrPublished_update
        (fun clock i m _ => draftOrPublished_publish clock i m)
        (fun m _ => draftOrPublished_reset m) [] ops (by simp) m hm
    refine ⟨h, ?_, ?_, ?_⟩
    · rcases h with ⟨h1, h2, _⟩ | ⟨h1, h2, _⟩
      · simp [h1, h2]
      · constructor
        · intro hf
          rw [h1] at hf
          exact absurd hf (by simp)
        · intro hp
          omega
    · rcases h with ⟨_, h2, h3⟩ | ⟨_, h2, h3⟩
      · simp [h2, h3]
      · constructor
        · intro hp
          omega
        · intro hr
          rcases h3 with h3 | h3 <;> rw [h3] at hr <;> exact absurd hr (by decide)
    · intro hpub
      rcases h with ⟨h1, _, _⟩ | ⟨_, h2, h3⟩
      · rw [h1] at hpub
        exact absurd hpub (by simp)
      · exact ⟨h2, h3⟩
  · intro sid cid et ey subjects user now
    refine ⟨rfl, rfl, ?_, rfl⟩
    rw [preSave_result]
    rfl

/-! ## Publishing twice: helper lemmas -/

theorem preSave_resetPublished (m : MarkDoc) (h : preSave m = m) :
    preSave (resetPublished m) = resetPublished m := by
  have h1 : preSave (resetPublished m) = resetPublished (preSave m) := by
    simp [preSave, resetPublished]
  rw [h1, h]

theorem preSave_timestamps (m : MarkDoc) (c u : Option Nat) (h : preSave m = m) :
    preSave { m with createdAt := c, updatedAt := u }
      = { m with createdAt := c, updatedAt := u } := by
  have h1 : preSave { m with createdAt := c, updatedAt := u }
      = { preSave m with createdAt := c, updatedAt := u } := rfl
  rw [h1, h]

theorem reachable_fixpoint (ops : List Op) : ∀ m ∈ runAll [] ops, preSave m = m :=
  forall_mem_runAll (fun m => preSave m = m)
    (fun m c u h => preSave_timestamps m c u h)
    (fun _ _ _ _ _ _ => preSave_preSave _)
    (fun _ _ _ _ => preSave_preSave _)
    (fun _ _ _ _ => preSave_preSave _)
    (fun m h => preSave_resetPublished m h) [] ops (by simp)

theorem publishMarks_place (s : Store) (f : Faults) (clock : Nat → Nat)
    (classId : ObjectId) (examType : String) (examYear : Int) (n : Nat)
    (hsucc : (publishMarks s f clock classId examType examYear).2 = .published n)
    (j : Nat) (m : MarkDoc) (hm : s[j]? = some m) :
    (matchesCohort classId examType examYear m = false →
      (publishMarks s f clock classId examType examYear).1[j]? = some m) ∧
    (matchesCohort classId examType examYear m = true →
      ∃ k, k < n ∧
        (sortByPercentage (find s (matchesCohort classId examType examYear)))[k]?
          = some (j, m) ∧
        (publishMarks s f clock classId examType examYear).1[j]?
          = some (preSave (stampUpdatedAt (f.now k) (some m) (stampPublished clock k m)))) := by
  constructor
  · intro hc
    obtain ⟨hl, hne, _, hw⟩ := publishMarks_published s f clock classId examType examYear n hsucc
    obtain ⟨_, _, h3, _⟩ := publishMarks_of_ok s f clock classId examType examYear hl hne hw
    rw [h3 j, hm]
    intro x hx hxj
    obtain ⟨hget, hp⟩ := (mem_find s _ x).mp hx
    rw [hxj, hm] at hget
    simp only [Option.some.injEq] at hget
    rw [← hget, hc] at hp
    exact absurd hp (by simp)
  · intro hc
    exact publishMarks_record s f clock classId examType examYear n hsucc j m hm hc

theorem matchesCohort_publish (classId : ObjectId) (examType : String) (examYear : Int)
    (clock : Nat → Nat) (k : Nat) (m : MarkDoc) :
    matchesCohort classId examType examYear (preSave (stampPublished clock k m))
      = matchesCohort classId examType examYear m := rfl

theorem find_publishMarks (s : Store) (f : Faults) (clock : Nat → Nat)
    (classId : ObjectId) (examType : String) (examYear : Int) (n : Nat)
    (hsucc : (publishMarks s f clock classId examType examYear).2 = .published n) :
    find (publishMarks s f clock classId examType examYear).1
        (matchesCohort classId examType examYear)
      = (find s (matchesCohort classId examType examYear)).map
          (fun x => (x.1,
            ((publishMarks s f clock classId examType examYear).1[x.1]?).getD x.2)) := by
  obtain ⟨hl, hne, _, hw⟩ := publishMarks_published s f clock classId examType examYear n hsucc
  obtain ⟨_, _, _, hlen⟩ := publishMarks_of_ok s f clock classId examType examYear hl hne hw
  have henum : (publishMarks s f clock classId examType examYear).1.enum
      = s.enum.map (fun x => (x.1,
          ((publishMarks s f clock classId examType examYear).1[x.1]?).getD x.2)) := by
    apply List.ext_getElem?
    intro i
    rw [List.getElem?_enum, List.getElem?_map, List.getElem?_enum]
    cases hi : s[i]? with
    | none =>
      have hge : s.length ≤ i := by
        by_contra hlt
        rw [List.getElem?_eq_getElem (not_le.mp hlt)] at hi
        exact absurd hi (by simp)
      rw [List.getElem?_eq_none (by rw [hlen]; exact hge)]
      rfl
    | some a =>
      have hp := publishMarks_place s f clock classId examType examYear n hsucc i a hi
      by_cases hc : matchesCohort classId examType examYear a = true
      · obtain ⟨k, _, _, hk⟩ := hp.2 hc
        simp [hk]
      · have hk := hp.1 (by simpa using hc)
        simp [hk]
  unfold find
  rw [henum, List.filter_map]
  congr 1
  apply List.filter_congr
  intro x hx
  have hget : s[x.1]? = some x.2 := List.mem_enum_iff_getElem?.mp hx
  have hp := publishMarks_place s f clock classId examType examYear n hsucc x.1 x.2 hget
  simp only [Function.comp]
  by_cases hc : matchesCohort classId examType examYear x.2 = true
  · obtain ⟨k, _, _, hk⟩ := hp.2 hc
    rw [hk]
    simp only [Option.getD_some]
    rw [preSave_stampUpdatedAt]
    exact matchesCohort_publish classId examType examYear clock k x.2
  · have hk := hp.1 (by simpa using hc)
    rw [hk]
    rfl

theorem sort_publishMarks (s : Store) (f : Faults) (clock : Nat → Nat)
    (classId : ObjectId) (examType : String) (examYear : Int) (n : Nat)
    (hfix : ∀ m ∈ s, preSave m = m)
    (hsucc : (publishMarks s f clock classId examType examYear).2 = .published n) :
    sortByPercentage (find (publishMarks s f clock classId examType examYear).1
        (matchesCohort classId examType examYear))
      = (sortByPercentage (find s (matchesCohort classId examType examYear))).map
          (fun x => (x.1,
            ((publishMarks s f clock classId examType examYear).1[x.1]?).getD x.2)) := by
  rw [find_publishMarks s f clock classId examType examYear n hsucc]
  have hpct : ∀ a ∈ find s (matchesCohort classId examType examYear),
      (((publishMarks s f clock classId examType examYear).1[a.1]?).getD a.2).percentage
        = a.2.percentage := by
    intro a ha
    obtain ⟨hget, hc⟩ := (mem_find s _ a).mp ha
    obtain ⟨k, _, _, hk⟩ :=
      (publishMarks_place s f clock classId examType examYear n hsucc a.1 a.2 hget).2 hc
    rw [hk]
    simp only [Option.getD_some]
    rw [preSave_stampUpdatedAt]
    show (preSave (stampPublished clock k a.2)).percentage = a.2.percentage
    rw [preSave_stampPublished]
    show (preSave a.2).percentage = a.2.percentage
    rw [hfix a.2 (List.mem_iff_getElem?.mpr ⟨a.1, hget⟩)]
  unfold sortByPercentage
  rw [List.map_insertionSort rankedBefore rankedBefore]
  intro a ha b hb
  rw [rankedBefore_iff, rankedBefore_iff]
  simp only
  rw [hpct a ha, hpct b hb]

theorem publish_of_published (c₁ c₂ : Nat → Nat) (k : Nat) (m : MarkDoc) (u : Option Nat) :
    preSave (stampPublished c₂ k { preSave (stampPublished c₁ k m) with updatedAt := u })
      = { preSave (stampPublished c₁ k m) with
          publishedAt := some (c₂ k), updatedAt := u } := by
  have h : preSave (stampPublished c₂ k { preSave (stampPublished c₁ k m) with updatedAt := u })
      = { preSave (stampPublished c₂ k (preSave (stampPublished c₁ k m))) with
          updatedAt := u } := rfl
  rw [h, preSave_stampPublished c₂, preSave_preSave, preSave_stampPublished c₁]

theorem publishMarks_single (m : MarkDoc) (f : Faults) (clock : Nat → Nat)
    (classId : ObjectId) (examType : String) (examYear : Int)
    (hl : f.lookup 0 = none) (hw : f.write 0 = none)
    (h : matchesCohort classId examType examYear m = true) :
    publishMarks [m] f clock classId examType examYear
      = ([preSave (stampUpdatedAt (f.now 0) (some m) (stampPublished clock 0 m))],
         .published 1) := by
  simp [publishMarks, hl, hw, find, List.enum, List.enumFrom, h, sortByPercentage,
    publishLoop, save]

theorem publishMarks_twice_record (s : Store) (f₁ f₂ : Faults) (c₁ c₂ : Nat → Nat)
    (classId : ObjectId) (examType : String) (examYear : Int) (n : Nat)
    (hfix : ∀ m ∈ s, preSave m = m)
    (hfirst : (publishMarks s f₁ c₁ classId examType examYear).2 = .published n)
    (hl₂ : f₂.lookup 0 = none) (hw₂ : ∀ k, f₂.write k = none) :
    (publishMarks (publishMarks s f₁ c₁ classId examType examYear).1 f₂ c₂
        classId examType examYear).2 = .published n ∧
    ∀ (j : Nat) (m₁ : MarkDoc),
      (publishMarks s f₁ c₁ classId examType examYear).1[j]? = some m₁ →
      (matchesCohort classId examType examYear m₁ = false →
        (publishMarks (publishMarks s f₁ c₁ classId examType examYear).1 f₂ c₂
          classId examType examYear).1[j]? = some m₁) ∧
      (matchesCohort classId examType examYear m₁ = true →
        ∃ u : Option Nat,
          (publishMarks (publishMarks s f₁ c₁ classId examType examYear).1 f₂ c₂
            classId examType examYear).1[j]?
            = some { m₁ with publishedAt := some (c₂ (m₁.position - 1)), updatedAt := u } ∧
          m₁.isPublished = true ∧ 1 ≤ m₁.position) := by
  obtain ⟨hl₁, hne₁, hn, hw₁⟩ :=
    publishMarks_published s f₁ c₁ classId examType examYear n hfirst
  obtain ⟨_, _, _, hlen₁⟩ := publishMarks_of_ok s f₁ c₁ classId examType examYear hl₁ hne₁ hw₁
  have hfind := find_publishMarks s f₁ c₁ classId examType examYear n hfirst
  have hsort := sort_publishMarks s f₁ c₁ classId examType examYear n hfix hfirst
  have hlen₂ : (find (publishMarks s f₁ c₁ classId examType examYear).1
      (matchesCohort classId examType examYear)).length = n := by
    rw [hfind, List.length_map, hn]
  obtain ⟨hresp, hsaved, huntouched, _⟩ :=
    publishMarks_of_ok (publishMarks s f₁ c₁ classId examType examYear).1 f₂ c₂
      classId examType examYear hl₂ (by rw [hlen₂, hn]; exact hne₁) (fun k _ => hw₂ k)
  refine ⟨by rw [hresp, hlen₂], ?_⟩
  intro j m₁ hm₁
  have hj : j < s.length := by
    by_contra hge
    rw [List.getElem?_eq_none (by rw [hlen₁]; exact not_lt.mp hge)] at hm₁
    exact absurd hm₁ (by simp)
  have hm : s[j]? = some s[j] := List.getElem?_eq_getElem hj
  have hplace := publishMarks_place s f₁ c₁ classId examType examYear n hfirst j s[j] hm
  by_cases hc : matchesCohort classId examType examYear s[j] = true
  · obtain ⟨k, hk, hord, hs₁⟩ := hplace.2 hc
    rw [hs₁] at hm₁
    simp only [Option.some.injEq] at hm₁
    have hc₁ : matchesCohort classId examType examYear m₁ = true := by
      rw [← hm₁, preSave_stampUpdatedAt]
      exact hc
    refine ⟨fun h => absurd hc₁ (by simp [h]), fun _ => ?_⟩
    have hord₂ : (sortByPercentage (find (publishMarks s f₁ c₁ classId examType examYear).1
        (matchesCohort classId examType examYear)))[k]? = some (j, m₁) := by
      rw [hsort, List.getElem?_map, hord]
      simp [hs₁, hm₁]
    obtain ⟨hk₂, hget₂⟩ := List.getElem?_eq_some.mp hord₂
    have h₂ := hsaved k hk₂
    rw [hget₂] at h₂
    simp only at h₂
    rw [preSave_stampUpdatedAt] at h₂
    have hm₁' : m₁ = { preSave (stampPublished c₁ k s[j]) with
        updatedAt := (stampUpdatedAt (f₁.now k) (some s[j])
          (stampPublished c₁ k s[j])).updatedAt } := by
      rw [← hm₁, preSave_stampUpdatedAt]
    have hpos : m₁.position = k + 1 := by
      rw [hm₁']
      rfl
    have hpub : preSave (stampPublished c₂ k m₁)
        = { m₁ with publishedAt := some (c₂ k) } := by
      rw [hm₁', publish_of_published]
    have hk' : m₁.position - 1 = k := by omega
    refine ⟨(stampUpdatedAt (f₂.now k) (some m₁) (stampPublished c₂ k m₁)).updatedAt, ?_,
      by rw [hm₁']; rfl, by omega⟩
    rw [h₂, hpub, hk']
  · have hs₁ := hplace.1 (by simpa using hc)
    rw [hs₁] at hm₁
    simp only [Option.some.injEq] at hm₁
    subst hm₁
    have h₂ := huntouched j (by
      intro x hx hxj
      obtain ⟨hget, hp⟩ := (mem_find _ _ x).mp hx
      rw [hxj, hs₁] at hget
      simp only [Option.some.injEq] at hget
      rw [← hget] at hp
      exact hc hp)
    rw [hs₁] at h₂
    exact ⟨fun _ => h₂, fun h => absurd h hc⟩

/-! ## Publishing twice -/

/-- C22, as the claim states it, fails: a cohort of one record is published at
time 0 and, its subjects unchanged, again at time 5; the second call succeeds
and keeps position, result and isPublished, but the record differs from what
it was in updatedAt as well as in publishedAt: the second save modified
publishedAt, so the timestamps of the schema moved updatedAt from 0 to 5. -/
theorem republish_moves_updatedAt :
    (publishMarks [cohortDoc 1 90] noFaults (fun _ => 0) 7 "annual" 2024).2 = .published 1 ∧
    (publishMarks (publishMarks [cohortDoc 1 90] noFaults (fun _ => 0) 7 "annual" 2024).1
        (noFaultsAt 5) (fun _ => 5) 7 "annual" 2024).2 = .published 1 ∧
    (publishMarks [cohortDoc 1 90] noFaults (fun _ => 0) 7 "annual" 2024).1.map
        (fun m => (m.position, m.result, m.isPublished, m.publishedAt, m.updatedAt))
      = [(1, "Pass", true, some 0, some 0)] ∧
    (publishMarks (publishMarks [cohortDoc 1 90] noFaults (fun _ => 0) 7 "annual" 2024).1
        (noFaultsAt 5) (fun _ => 5) 7 "annual" 2024).1.map
        (fun m => (m.position, m.result, m.isPublished, m.publishedAt, m.updatedAt))
      = [(1, "Pass", true, some 5, some 5)] := by
  have h1 := publishMarks_single (cohortDoc 1 90) noFaults (fun _ => 0) 7 "annual" 2024
    rfl rfl (rankingStore_cohort 1 90)
  have h2 := publishMarks_single
    (preSave (stampUpdatedAt (noFaults.now 0) (some (cohortDoc 1 90))
      (stampPublished (fun _ => 0) 0 (cohortDoc 1 90))))
    (noFaultsAt 5) (fun _ => 5) 7 "annual" 2024 rfl rfl
    (by rw [preSave_stampUpdatedAt]; exact rankingStore_cohort 1 90)
  rw [h1, h2]
  refine ⟨rfl, rfl, ?_, ?_⟩ <;>
    norm_num [noFaults, noFaultsAt, stampUpdatedAt, stampPublished, cohortDoc, newMark,
      scoredSubject, preSave, forEachSubjects, forEachBody, subjectFull, subjectObtained,
      subjectPct, parseFloat, jsOr, gradeFromPct, percentage_90_of_100] <;>
    exact fun h => absurd h (by decide)

/-- C22, amended: publishing is idempotent on a cohort up to the two times a
save records: in a store whose records are as the hook leaves them (every
reachable store is), after a successful `publishMarks` a second
`publishMarks` on the same key whose store calls do not throw succeeds with
the same count, and every record has the position, result and isPublished it
had after the first call, records of the cohort being published: a record
differs from what it was at most in publishedAt and in the timestamp
updatedAt, and a record outside the cohort not at all. -/
theorem publishMarks_twice (s : Store) (f₁ f₂ : Faults) (c₁ c₂ : Nat → Nat)
    (classId : ObjectId) (examType : String) (examYear : Int) (n : Nat)
    (hfix : ∀ m ∈ s, preSave m = m)
    (hfirst : (publishMarks s f₁ c₁ classId examType examYear).2 = .published n)
    (hl₂ : f₂.lookup 0 = none) (hw₂ : ∀ k, f₂.write k = none) :
    (∀ ops : List Op, ∀ m ∈ runAll [] ops, preSave m = m) ∧
    0 < n ∧
    (publishMarks (publishMarks s f₁ c₁ classId examType examYear).1 f₂ c₂
        classId examType examYear).2 = .published n ∧
    ∀ (j : Nat) (m₁ : MarkDoc),
      (publishMarks s f₁ c₁ classId examType examYear).1[j]? = some m₁ →
      ∃ m₂ : MarkDoc,
        (publishMarks (publishMarks s f₁ c₁ classId examType examYear).1 f₂ c₂
          classId examType examYear).1[j]? = some m₂ ∧
        { m₂ with publishedAt := m₁.publishedAt, updatedAt := m₁.updatedAt } = m₁ ∧
        m₂.position = m₁.position ∧ m₂.result = m₁.result ∧
        m₂.isPublished = m₁.isPublished ∧
        (matchesCohort classId examType examYear m₁ = true → m₂.isPublished = true) ∧
        (matchesCohort classId examType examYear m₁ = false → m₂ = m₁) := by
  obtain ⟨hl₁, hne₁, hn, _⟩ :=
    publishMarks_published s f₁ c₁ classId examType examYear n hfirst
  obtain ⟨hresp, hrec⟩ := publishMarks_twice_record s f₁ f₂ c₁ c₂ classId examType examYear n
    hfix hfirst hl₂ hw₂
  refine ⟨reachable_fixpoint, by omega, hresp, ?_⟩
  intro j m₁ hm₁
  obtain ⟨hout, hin⟩ := hrec j m₁ hm₁
  by_cases hc : matchesCohort classId examType examYear m₁ = true
  · obtain ⟨u, h₂, hpub, _⟩ := hin hc
    exact ⟨_, h₂, rfl, rfl, rfl, rfl, fun _ => hpub, fun h => absurd hc (by simp [h])⟩
  · exact ⟨m₁, hout (by simpa using hc), rfl, rfl, rfl, rfl, fun h => absurd h hc,
      fun _ => rfl⟩

/-- Witness of C22: the store with percentages 90, 90, 70, 50 published
twice. -/
theorem publishMarks_twice_witness :
    (publishMarks (publishMarks rankingStore noFaults (fun _ => 0) 7 "annual" 2024).1
        noFaults (fun i => i + 1) 7 "annual" 2024).2 = .published 4 :=
  (publishMarks_twice rankingStore noFaults noFaults (fun _ => 0) (fun i => i + 1)
    7 "annual" 2024 4
    (by
      intro m hm
      simp only [rankingStore, List.mem_cons, List.mem_singleton, List.not_mem_nil,
        or_false] at hm
      rcases hm with rfl | rfl | rfl | rfl <;> exact preSave_preSave _)
    (rankingStore_published _) rfl (fun _ => rfl)).2.2.1

/-! ## Updating a published record -/

theorem rankingStore_publish (clock : Nat → Nat) :
    (publishMarks rankingStore noFaults clock 7 "annual" 2024).1
      = [preSave (stampUpdatedAt 0 (some (cohortDoc 1 90))
           (stampPublished clock 0 (cohortDoc 1 90))),
         preSave (stampUpdatedAt 0 (some (cohortDoc 2 90))
           (stampPublished clock 1 (cohortDoc 2 90))),
         preSave (stampUpdatedAt 0 (some (cohortDoc 3 70))
           (stampPublished clock 2 (cohortDoc 3 70))),
         preSave (stampUpdatedAt 0 (some (cohortDoc 4 50))
           (stampPublished clock 3 (cohortDoc 4 50)))] := by
  have hlen : (find rankingStore (matchesCohort 7 "annual" 2024)).length = 4 := by
    rw [← (sortByPercentage_perm _).length_eq, rankingStore_order]
    rfl
  simp only [publishMarks, noFaults, hlen, rankingStore_order]
  simp [publishLoop, save, rankingStore]

theorem rankingStore_publish_findOne (clock : Nat → Nat) :
    findOne (publishMarks rankingStore noFaults clock 7 "annual" 2024).1
        (matchesKey 4 7 "annual" 2024)
      = some (3, preSave (stampUpdatedAt 0 (some (cohortDoc 4 50))
          (stampPublished clock 3 (cohortDoc 4 50)))) := by
  rw [rankingStore_publish, findOne_eq_some]
  refine ⟨rfl, ?_, ?_⟩
  · rw [matchesKey_stampUpdatedAt]
    simp [matchesKey, matchesCohort, preSave, stampPublished, cohortDoc, newMark]
  · intro j hj x hx
    have hj3 : j = 0 ∨ j = 1 ∨ j = 2 := by omega
    rcases hj3 with rfl | rfl | rfl <;>
      · simp only [List.getElem?_cons_zero, List.getElem?_cons_succ, Option.some.injEq] at hx
        subst hx
        rw [matchesKey_stampUpdatedAt]
        simp [matchesKey, matchesCohort, preSave, stampPublished, cohortDoc, newMark]

theorem preSave_update (mark : MarkDoc) (subs : List SubjectMark) (user : ObjectId)
    (hpub : mark.isPublished = true) :
    (preSave { mark with subjects := subs, updatedBy := some user }).subjects
        = subs.map derivedSubject ∧
    recordDerived (preSave { mark with subjects := subs, updatedBy := some user })
        = recordDerived (preSave (newMark mark.student mark.«class» mark.examType
            mark.examYear subs user)) ∧
    (preSave { mark with subjects := subs, updatedBy := some user }).result
        = (if (subs.map derivedSubject).any (fun x => decide (x.grade = "F")) = true
            then "Fail" else "Pass") := by
  refine ⟨?_, ?_, ?_⟩
  · rw [preSave_subjects]
  · simp [recordDerived, preSave, newMark]
  · rw [preSave_result, preSave_subjects]
    simp [hpub]

/-- C28: when `saveMark`, or an iteration of the loop of `saveBulkMarks`,
finds a published record for its key and its store calls do not throw, the
store changes at the place of that record only, and the record written there
has the new subjects as the hook derives them, the totals, percentage, gpa and
grade of a fresh record with these subjects, updatedBy set to the user, and
result "Fail" when some subject has grade "F" and "Pass" otherwise, while
position, isPublished, publishedAt, createdBy, createdAt and the key are those
of the record found. So positions need not follow descending percentage
afterwards: in the published store with percentages 90, 90, 70, 50 an update
of the last student to 100 leaves the positions 1, 2, 3, 4 on the percentages
90, 90, 70, 100. -/
theorem update_of_published_keeps_rank (s : Store) (f g : Faults)
    (user sid cid : ObjectId) (et : String) (ey : Int) (subjects : List SubjectMark)
    (i savedCount : Nat) (errors : List (ObjectId × String)) (entry : BulkEntry)
    (place : Nat) (mark : MarkDoc)
    (het : et ≠ "") (hey : ey ≠ 0)
    (hfound : findOne s (matchesKey sid cid et ey) = some (place, mark))
    (hpub : mark.isPublished = true)
    (hl : f.lookup 0 = none) (hw : f.write 0 = none)
    (hsid : entry.studentId = some sid)
    (hli : g.lookup i = none) (hwi : g.write i = none) :
    s[place]? = some mark ∧
    (saveMark s f user (some sid) (some cid) (some et) (some ey) subjects).1
      = s.set place (preSave (stampUpdatedAt (f.now 0) (some mark)
          { mark with subjects := subjects, updatedBy := some user })) ∧
    (bulkIteration g user cid et ey i
        { store := s, savedCount := savedCount, errors := errors } entry).store
      = s.set place (preSave (stampUpdatedAt (g.now i) (some mark)
          { mark with subjects := entry.subjects.getD [], updatedBy := some user })) ∧
    (∀ (subs : List SubjectMark) (now : Nat),
      (preSave (stampUpdatedAt now (some mark)
          { mark with subjects := subs, updatedBy := some user })).subjects
          = subs.map derivedSubject ∧
      recordDerived (preSave (stampUpdatedAt now (some mark)
          { mark with subjects := subs, updatedBy := some user }))
          = recordDerived (preSave (newMark sid cid et ey subs user)) ∧
      (preSave (stampUpdatedAt now (some mark)
          { mark with subjects := subs, updatedBy := some user })).updatedBy
          = some user ∧
      (preSave (stampUpdatedAt now (some mark)
          { mark with subjects := subs, updatedBy := some user })).result
          = (if (subs.map derivedSubject).any (fun x => decide (x.grade = "F")) = true
              then "Fail" else "Pass") ∧
      (preSave (stampUpdatedAt now (some mark)
          { mark with subjects := subs, updatedBy := some user })).position
          = mark.position ∧
      (preSave (stampUpdatedAt now (some mark)
          { mark with subjects := subs, updatedBy := some user })).isPublished = true ∧
      (preSave (stampUpdatedAt now (some mark)
          { mark with subjects := subs, updatedBy := some user })).publishedAt
          = mark.publishedAt ∧
      (preSave (stampUpdatedAt now (some mark)
          { mark with subjects := subs, updatedBy := some user })).createdBy
          = mark.createdBy ∧
      (preSave (stampUpdatedAt now (some mark)
          { mark with subjects := subs, updatedBy := some user })).createdAt
          = mark.createdAt ∧
      markKey (preSave (stampUpdatedAt now (some mark)
          { mark with subjects := subs, updatedBy := some user }))
          = markKey mark) ∧
    (saveMark (publishMarks rankingStore noFaults (fun _ => 0) 7 "annual" 2024).1 noFaults 99
        (some 4) (some 7) (some "annual") (some 2024) [scoredSubject 100]).1.map
      (fun m => (m.position, m.percentage))
      = [(1, 90), (2, 90), (3, 70), (4, 100)] := by
  have hget : s[place]? = some mark := ((findOne_eq_some _ _ _ _).mp hfound).1
  refine ⟨hget, ?_, ?_, ?_, ?_⟩
  · rcases saveMark_of_ok s f user sid cid et ey subjects het hey hl hw with
      ⟨pl, m, hf, hs⟩ | ⟨hf, _⟩
    · rw [hfound] at hf
      simp only [Option.some.injEq, Prod.mk.injEq] at hf
      obtain ⟨rfl, rfl⟩ := hf
      rw [hs, save, hget]
    · rw [hfound] at hf
      exact absurd hf (by simp)
  · simp only [bulkIteration, hsid, hli, hwi, hfound]
    rw [save, hget]
  · intro subs now
    obtain ⟨h1, h2, h3⟩ := preSave_update mark subs user hpub
    rw [preSave_stampUpdatedAt]
    refine ⟨h1, ?_, rfl, h3, rfl, hpub, rfl, rfl, rfl, rfl⟩
    show recordDerived (preSave { mark with subjects := subs, updatedBy := some user }) = _
    rw [h2]
    simp [recordDerived, preSave, newMark]
  · rcases saveMark_of_ok (publishMarks rankingStore noFaults (fun _ => 0) 7 "annual" 2024).1
        noFaults 99 4 7 "annual" 2024 [scoredSubject 100] (by decide) (by decide) rfl rfl with
      ⟨pl, m, hf, hs⟩ | ⟨hf, _⟩
    · rw [rankingStore_publish_findOne] at hf
      simp only [Option.some.injEq, Prod.mk.injEq] at hf
      obtain ⟨rfl, rfl⟩ := hf
      rw [hs, rankingStore_publish]
      simp only [save, List.set_cons_succ, List.set_cons_zero, List.map_cons, List.map_nil,
        preSave_stampUpdatedAt]
      norm_num [cohortDoc, newMark, scoredSubject, stampPublished, preSave,
        forEachSubjects, forEachBody, subjectFull, subjectObtained, subjectPct, parseFloat,
        jsOr, gradeFromPct, percentage_90_of_100, percentage_70_of_100, percentage_50_of_100,
        percentage_100_of_100]
    · rw [rankingStore_publish_findOne] at hf
      exact absurd hf (by simp)

/-- Witness of C28: in the published store with percentages 90, 90, 70, 50
student 4 is given 100 marks, through `saveMark` and through a batch. -/
theorem update_of_published_keeps_rank_witness :
    (saveMark (publishMarks rankingStore noFaults (fun _ => 0) 7 "annual" 2024).1 noFaults 99
        (some 4) (some 7) (some "annual") (some 2024) [scoredSubject 100]).1
      = (publishMarks rankingStore noFaults (fun _ => 0) 7 "annual" 2024).1.set 3
          (preSave (stampUpdatedAt (noFaults.now 0)
            (some (preSave (stampUpdatedAt 0 (some (cohortDoc 4 50))
              (stampPublished (fun _ => 0) 3 (cohortDoc 4 50)))))
            { preSave (stampUpdatedAt 0 (some (cohortDoc 4 50))
                (stampPublished (fun _ => 0) 3 (cohortDoc 4 50))) with
              subjects := [scoredSubject 100], updatedBy := some 99 })) :=
  (update_of_published_keeps_rank
    (publishMarks rankingStore noFaults (fun _ => 0) 7 "annual" 2024).1 noFaults noFaults
    99 4 7 "annual" 2024 [scoredSubject 100] 0 0 []
    { studentId := some 4, subjects := some [scoredSubject 100] }
    3 (preSave (stampUpdatedAt 0 (some (cohortDoc 4 50))
      (stampPublished (fun _ => 0) 3 (cohortDoc 4 50))))
    (by decide) (by decide) (rankingStore_publish_findOne _)
    (by rw [preSave_stampUpdatedAt]; rfl) rfl rfl rfl rfl rfl).2.1

end Mark
